import Mathlib

/-!
OpenTTD: admin protocol, text buffer and news queue

A shallow embedding of parts of the OpenTTD sources

* `src/network/core/tcp_admin.h` (admin packet tags, update frequencies,
  documented packet layouts),
* `src/misc_gui.cpp` (the `Textbuf` editing functions),
* `src/news_gui.cpp` (the news queue),

followed by theorems about them.  Definitions come first, theorems afterwards.
-/

namespace OpenTTD

/-! ## tcp_admin.h: enumerations -/

/-- Enum `PacketAdminType` of `tcp_admin.h` without its `INVALID_ADMIN_PACKET` marker. -/
inductive PacketAdminType
  | ADMIN_PACKET_ADMIN_JOIN
  | ADMIN_PACKET_ADMIN_QUIT
  | ADMIN_PACKET_ADMIN_UPDATE_FREQUENCY
  | ADMIN_PACKET_ADMIN_POLL
  | ADMIN_PACKET_SERVER_FULL
  | ADMIN_PACKET_SERVER_BANNED
  | ADMIN_PACKET_SERVER_ERROR
  | ADMIN_PACKET_SERVER_PROTOCOL
  | ADMIN_PACKET_SERVER_WELCOME
  | ADMIN_PACKET_SERVER_NEWGAME
  | ADMIN_PACKET_SERVER_SHUTDOWN
  | ADMIN_PACKET_SERVER_DATE
  | ADMIN_PACKET_SERVER_CLIENT_JOIN
  | ADMIN_PACKET_SERVER_CLIENT_INFO
  | ADMIN_PACKET_SERVER_CLIENT_UPDATE
  | ADMIN_PACKET_SERVER_CLIENT_QUIT
  | ADMIN_PACKET_SERVER_CLIENT_ERROR
  | ADMIN_PACKET_SERVER_COMPANY_NEW
  | ADMIN_PACKET_SERVER_COMPANY_INFO
  | ADMIN_PACKET_SERVER_COMPANY_UPDATE
  | ADMIN_PACKET_SERVER_COMPANY_REMOVE
  deriving DecidableEq, Repr, Fintype

/-- The marker `INVALID_ADMIN_PACKET = 0xFF`. -/
def INVALID_ADMIN_PACKET : Nat := 0xFF

/-- Numeric value of an enumerator of `PacketAdminType`: the first one is 0, an
enumerator without initialiser is its predecessor plus one, and
`ADMIN_PACKET_SERVER_FULL` is initialised with 100. -/
def PacketAdminType.toNat : PacketAdminType → Nat
  | .ADMIN_PACKET_ADMIN_JOIN => 0
  | .ADMIN_PACKET_ADMIN_QUIT => 1
  | .ADMIN_PACKET_ADMIN_UPDATE_FREQUENCY => 2
  | .ADMIN_PACKET_ADMIN_POLL => 3
  | .ADMIN_PACKET_SERVER_FULL => 100
  | .ADMIN_PACKET_SERVER_BANNED => 101
  | .ADMIN_PACKET_SERVER_ERROR => 102
  | .ADMIN_PACKET_SERVER_PROTOCOL => 103
  | .ADMIN_PACKET_SERVER_WELCOME => 104
  | .ADMIN_PACKET_SERVER_NEWGAME => 105
  | .ADMIN_PACKET_SERVER_SHUTDOWN => 106
  | .ADMIN_PACKET_SERVER_DATE => 107
  | .ADMIN_PACKET_SERVER_CLIENT_JOIN => 108
  | .ADMIN_PACKET_SERVER_CLIENT_INFO => 109
  | .ADMIN_PACKET_SERVER_CLIENT_UPDATE => 110
  | .ADMIN_PACKET_SERVER_CLIENT_QUIT => 111
  | .ADMIN_PACKET_SERVER_CLIENT_ERROR => 112
  | .ADMIN_PACKET_SERVER_COMPANY_NEW => 113
  | .ADMIN_PACKET_SERVER_COMPANY_INFO => 114
  | .ADMIN_PACKET_SERVER_COMPANY_UPDATE => 115
  | .ADMIN_PACKET_SERVER_COMPANY_REMOVE => 116

/-- Who sends a packet: the admin (client to server) or the server. -/
inductive PacketDirection
  | fromAdmin
  | fromServer
  deriving DecidableEq, Repr

/-- Direction of a packet type, read off the enumerator name
(`ADMIN_PACKET_ADMIN_*` against `ADMIN_PACKET_SERVER_*`). -/
def PacketAdminType.direction : PacketAdminType → PacketDirection
  | .ADMIN_PACKET_ADMIN_JOIN => .fromAdmin
  | .ADMIN_PACKET_ADMIN_QUIT => .fromAdmin
  | .ADMIN_PACKET_ADMIN_UPDATE_FREQUENCY => .fromAdmin
  | .ADMIN_PACKET_ADMIN_POLL => .fromAdmin
  | _ => .fromServer

/-- Enum `AdminUpdateType`, without the `ADMIN_UPDATE_END` marker. -/
inductive AdminUpdateType
  | ADMIN_UPDATE_DATE
  | ADMIN_UPDATE_CLIENT_INFO
  | ADMIN_UPDATE_COMPANY_INFO
  deriving DecidableEq, Repr, Fintype

/-- Numeric value of an `AdminUpdateType` enumerator. -/
def AdminUpdateType.toNat : AdminUpdateType → Nat
  | .ADMIN_UPDATE_DATE => 0
  | .ADMIN_UPDATE_CLIENT_INFO => 1
  | .ADMIN_UPDATE_COMPANY_INFO => 2

/-- The marker `ADMIN_UPDATE_END`. -/
def ADMIN_UPDATE_END : Nat := 3

/-- Enum `AdminUpdateFrequency`. -/
inductive AdminUpdateFrequency
  | ADMIN_FREQUENCY_POLL
  | ADMIN_FREQUENCY_DAILY
  | ADMIN_FREQUENCY_WEEKLY
  | ADMIN_FREQUENCY_MONTHLY
  | ADMIN_FREQUENCY_QUARTERLY
  | ADMIN_FREQUENCY_ANUALLY
  | ADMIN_FREQUENCY_AUTOMATIC
  deriving DecidableEq, Repr, Fintype

/-- Numeric value of an `AdminUpdateFrequency` enumerator. -/
def AdminUpdateFrequency.toNat : AdminUpdateFrequency → Nat
  | .ADMIN_FREQUENCY_POLL => 0x01
  | .ADMIN_FREQUENCY_DAILY => 0x02
  | .ADMIN_FREQUENCY_WEEKLY => 0x04
  | .ADMIN_FREQUENCY_MONTHLY => 0x08
  | .ADMIN_FREQUENCY_QUARTERLY => 0x10
  | .ADMIN_FREQUENCY_ANUALLY => 0x20
  | .ADMIN_FREQUENCY_AUTOMATIC => 0x40

/-- Position of the single bit of an `AdminUpdateFrequency` enumerator. -/
def AdminUpdateFrequency.bit : AdminUpdateFrequency → Nat
  | .ADMIN_FREQUENCY_POLL => 0
  | .ADMIN_FREQUENCY_DAILY => 1
  | .ADMIN_FREQUENCY_WEEKLY => 2
  | .ADMIN_FREQUENCY_MONTHLY => 3
  | .ADMIN_FREQUENCY_QUARTERLY => 4
  | .ADMIN_FREQUENCY_ANUALLY => 5
  | .ADMIN_FREQUENCY_AUTOMATIC => 6

/-- The bitmask of a set of frequencies: `DECLARE_ENUM_AS_BIT_SET` makes `|`
available on `AdminUpdateFrequency`, a set is the `|` of its members. -/
def freqMask (s : Finset AdminUpdateFrequency) : Nat :=
  s.fold (· ||| ·) 0 AdminUpdateFrequency.toNat

/-! ## tcp_admin.h: documented packet layouts -/

/-- The field types that occur in the packet descriptions of `tcp_admin.h`. -/
inductive FieldTy
  | uint8
  | uint16
  | uint32
  | bool
  | string
  deriving DecidableEq, Repr

/-- A packet description: the fields in the order in which they are listed, and the
index of the first field of the part that repeats (if a part repeats). -/
structure PacketLayout where
  fields : List FieldTy
  repeatFrom : Option Nat
  deriving DecidableEq, Repr

/-- The field lists of the doc comments in front of the
`DECLARE_ADMIN_RECEIVE_COMMAND` lines of `NetworkAdminSocketHandler`.  In
`ADMIN_PACKET_SERVER_PROTOCOL` the part from the `bool` on
"repeats through all update packet types". -/
def documentedLayout : PacketAdminType → PacketLayout
  | .ADMIN_PACKET_ADMIN_JOIN => ⟨[.string, .string, .string], none⟩
  | .ADMIN_PACKET_ADMIN_QUIT => ⟨[], none⟩
  | .ADMIN_PACKET_ADMIN_UPDATE_FREQUENCY => ⟨[.uint16, .uint16], none⟩
  | .ADMIN_PACKET_ADMIN_POLL => ⟨[.uint8, .uint32], none⟩
  | .ADMIN_PACKET_SERVER_FULL => ⟨[], none⟩
  | .ADMIN_PACKET_SERVER_BANNED => ⟨[], none⟩
  | .ADMIN_PACKET_SERVER_ERROR => ⟨[.uint8], none⟩
  | .ADMIN_PACKET_SERVER_PROTOCOL => ⟨[.uint8, .bool, .uint16, .uint16], some 1⟩
  | .ADMIN_PACKET_SERVER_WELCOME =>
      ⟨[.string, .string, .bool, .string, .uint32, .uint8, .uint32, .uint16, .uint16], none⟩
  | .ADMIN_PACKET_SERVER_NEWGAME => ⟨[], none⟩
  | .ADMIN_PACKET_SERVER_SHUTDOWN => ⟨[], none⟩
  | .ADMIN_PACKET_SERVER_DATE => ⟨[.uint32], none⟩
  | .ADMIN_PACKET_SERVER_CLIENT_JOIN => ⟨[.uint32], none⟩
  | .ADMIN_PACKET_SERVER_CLIENT_INFO =>
      ⟨[.uint32, .string, .string, .uint8, .uint32, .uint8], none⟩
  | .ADMIN_PACKET_SERVER_CLIENT_UPDATE => ⟨[.uint32, .string, .uint8], none⟩
  | .ADMIN_PACKET_SERVER_CLIENT_QUIT => ⟨[.uint32], none⟩
  | .ADMIN_PACKET_SERVER_CLIENT_ERROR => ⟨[.uint32, .uint8], none⟩
  | .ADMIN_PACKET_SERVER_COMPANY_NEW => ⟨[.uint8], none⟩
  | .ADMIN_PACKET_SERVER_COMPANY_INFO =>
      ⟨[.uint8, .string, .string, .uint8, .bool, .uint32, .bool], none⟩
  | .ADMIN_PACKET_SERVER_COMPANY_UPDATE =>
      ⟨[.uint8, .string, .string, .uint8, .bool, .uint8, .uint8, .uint8, .uint8, .uint8], none⟩
  | .ADMIN_PACKET_SERVER_COMPANY_REMOVE => ⟨[.uint8, .uint8], none⟩

/-- The fields in front of the repeating part (all fields when nothing repeats). -/
def PacketLayout.fixed (l : PacketLayout) : List FieldTy :=
  match l.repeatFrom with
  | none => l.fields
  | some k => l.fields.take k

/-- The fields of the repeating part (empty when nothing repeats). -/
def PacketLayout.group (l : PacketLayout) : List FieldTy :=
  match l.repeatFrom with
  | none => []
  | some k => l.fields.drop k

/-- The fields in front of the repeating part followed by `n` copies of the repeating
part, as the field list gives them; the list does not say what ends the
repetition. -/
def PacketLayout.expand (l : PacketLayout) (n : Nat) : List FieldTy :=
  l.fixed ++ (List.replicate n l.group).flatten

/-- The layout that the specification document gives for the protocol packet,
following its words: `PROTOCOL{uint8 version, repeated(category:uint16,
freq_bitmask:uint16)}`. -/
def specProtocolLayout : PacketLayout :=
  ⟨[.uint8, .uint16, .uint16], some 1⟩

/-! ## The packet codec

`tcp_admin.h` only declares the receive handlers; the functions that write and read
frames are not part of the sources at hand.  The codec below is therefore modelled
from the specification document, with the field sequence of every packet type taken
from `documentedLayout`. -/

/-- Modelled from the spec: the protocol-defined limits of the codec, which the
sources at hand do not contain.  `maxFrame` is the fixed ceiling on the length of a
frame, `strLenWidth` the number of bytes of the length prefix of a string, and
`maxStr t i` the maximum length of the string that is field `i` of packet type
`t`. -/
structure CodecParams where
  maxFrame : Nat
  strLenWidth : Nat
  maxStr : PacketAdminType → Nat → Nat

/-- Modelled from the spec: a little-endian unsigned integer of `w` bytes
("all integers little-endian"); the writer of integers is missing from the
sources. -/
def encLE : Nat → Nat → List Nat
  | 0, _ => []
  | w + 1, n => n % 256 :: encLE w (n / 256)

/-- Modelled from the spec: the value of a little-endian byte sequence; the reader of
integers is missing from the sources. -/
def decLE : List Nat → Nat
  | [] => 0
  | b :: bs => b + 256 * decLE bs

/-- Modelled from the spec: read a little-endian integer of `w` bytes off the front
of the input, `none` when fewer than `w` bytes are left. -/
def readLE (w : Nat) (bytes : List Nat) : Option (Nat × List Nat) :=
  if bytes.length < w then none else some (decLE (bytes.take w), bytes.drop w)

/-- Modelled from the spec: the value of a typed field, "fixed-width integers,
booleans, length-prefixed UTF-8 strings" (a string is kept as its bytes).  The packet
class is missing from the sources. -/
inductive Value
  | int (n : Nat)
  | bool (b : Bool)
  | str (s : List Nat)
  deriving DecidableEq, Repr

/-- Modelled from the spec: a packet, "a type tag plus an ordered sequence of typed
fields"; the packet class is missing from the sources.  `fields` are
the values of the fields in front of the repeating part, `groups` the values of
each repetition of the repeating part (without the leading `bool`, which only says
that another repetition follows). -/
structure Packet where
  type : PacketAdminType
  fields : List Value
  groups : List (List Value)
  deriving DecidableEq, Repr

/-- Width in bytes of an integer field type. -/
def FieldTy.width : FieldTy → Nat
  | .uint8 => 1
  | .uint16 => 2
  | .uint32 => 4
  | .bool => 1
  | .string => 0

/-- Modelled from the spec: the bytes of one field, `none` when the value is not of
the field type, an integer does not fit its width, or a string is longer than its
maximum `max` (or than its length prefix can express).  The field writers are
missing from the sources. -/
def encodeValue (w max : Nat) : FieldTy → Value → Option (List Nat)
  | .uint8, .int n => if n < 2 ^ 8 then some (encLE 1 n) else none
  | .uint16, .int n => if n < 2 ^ 16 then some (encLE 2 n) else none
  | .uint32, .int n => if n < 2 ^ 32 then some (encLE 4 n) else none
  | .bool, .bool b => some [if b then 1 else 0]
  | .string, .str s =>
      if s.length ≤ max ∧ s.length < 256 ^ w then some (encLE w s.length ++ s) else none
  | _, _ => none

/-- Modelled from the spec: read one field off the front of the input, `none` when
the input is too short or a string announces more than its maximum length.  The
field readers are missing from the sources. -/
def decodeValue (w max : Nat) : FieldTy → List Nat → Option (Value × List Nat)
  | .uint8, bytes => (readLE 1 bytes).map fun r => (.int r.1, r.2)
  | .uint16, bytes => (readLE 2 bytes).map fun r => (.int r.1, r.2)
  | .uint32, bytes => (readLE 4 bytes).map fun r => (.int r.1, r.2)
  | .bool, bytes =>
      match bytes with
      | [] => none
      | b :: rest => some (.bool (b != 0), rest)
  | .string, bytes =>
      match readLE w bytes with
      | none => none
      | some (len, rest) =>
          if len ≤ max ∧ len ≤ rest.length then some (.str (rest.take len), rest.drop len)
          else none

/-- Modelled from the spec: the bytes of a sequence of fields; every field type comes
with the maximum length that applies if it is a string. -/
def encodeFields (w : Nat) : List (FieldTy × Nat) → List Value → Option (List Nat)
  | [], [] => some []
  | (ty, max) :: tys, v :: vs =>
      match encodeValue w max ty v, encodeFields w tys vs with
      | some b, some bs => some (b ++ bs)
      | _, _ => none
  | _, _ => none

/-- Modelled from the spec: read a sequence of fields off the front of the input. -/
def decodeFields (w : Nat) : List (FieldTy × Nat) → List Nat → Option (List Value × List Nat)
  | [], bytes => some ([], bytes)
  | (ty, max) :: tys, bytes =>
      match decodeValue w max ty bytes with
      | none => none
      | some (v, rest) =>
          match decodeFields w tys rest with
          | none => none
          | some (vs, rest2) => some (v :: vs, rest2)

/-- Modelled from the spec: the bytes of the repetitions.  In front of every
repetition goes a `bool` that is true ("further protocol data follows"), after the
last one a `bool` that is false. -/
def encodeGroups (w : Nat) (tys : List (FieldTy × Nat)) : List (List Value) → Option (List Nat)
  | [] => some [0]
  | g :: gs =>
      match encodeFields w tys g, encodeGroups w tys gs with
      | some b, some bs => some (1 :: (b ++ bs))
      | _, _ => none

/-- Modelled from the spec: read repetitions until the `bool` is false; `fuel` bounds
the number of repetitions (every repetition takes at least the byte of its
`bool`). -/
def decodeGroups (w : Nat) (tys : List (FieldTy × Nat)) :
    Nat → List Nat → Option (List (List Value) × List Nat)
  | 0, _ => none
  | fuel + 1, bytes =>
      match bytes with
      | [] => none
      | b :: rest =>
          if b = 0 then some ([], rest)
          else
            match decodeFields w tys rest with
            | none => none
            | some (g, rest2) =>
                match decodeGroups w tys fuel rest2 with
                | none => none
                | some (gs, rest3) => some (g :: gs, rest3)

/-- The fields in front of the repeating part of a packet type, each with the
maximum length of its string. -/
def fixedFields (P : CodecParams) (t : PacketAdminType) : List (FieldTy × Nat) :=
  (documentedLayout t).fixed.enum.map fun x => (x.2, P.maxStr t x.1)

/-- The fields of the repeating part of a packet type after its leading `bool`. -/
def groupFields (t : PacketAdminType) : List (FieldTy × Nat) :=
  (documentedLayout t).group.tail.map fun ty => (ty, 0)

/-- Modelled from the spec: the payload of a packet; a packet type without repeating
part takes no repetitions. -/
def encodePayload (P : CodecParams) (p : Packet) : Option (List Nat) :=
  match encodeFields P.strLenWidth (fixedFields P p.type) p.fields with
  | none => none
  | some b =>
      match (documentedLayout p.type).repeatFrom with
      | none => if p.groups = [] then some b else none
      | some _ => (encodeGroups P.strLenWidth (groupFields p.type) p.groups).map fun bs => b ++ bs

/-- Modelled from the spec: `Encode(packet) -> bytes` produces a frame
`[length:uint16][type:uint8][fields...]`, the length includes the header, and a
frame longer than the ceiling is rejected.  The frame writer is missing from the
sources. -/
def Encode (P : CodecParams) (p : Packet) : Option (List Nat) :=
  match encodePayload P p with
  | none => none
  | some payload =>
      if 3 + payload.length ≤ P.maxFrame ∧ 3 + payload.length < 2 ^ 16 then
        some (encLE 2 (3 + payload.length) ++ encLE 1 p.type.toNat ++ payload)
      else none

/-- Modelled from the spec: the outcomes of `Decode`, which is missing from the
sources: a packet together with the bytes behind its frame, the "need more bytes"
signal, the recoverable unknown type tag, or a malformed frame. -/
inductive DecodeResult
  | ok (p : Packet) (rest : List Nat)
  | needMore
  | unknownType (tag : Nat)
  | malformed
  deriving DecidableEq, Repr

/-- All enumerators of `PacketAdminType`, in the order of their declaration. -/
def PacketAdminType.all : List PacketAdminType :=
  [.ADMIN_PACKET_ADMIN_JOIN, .ADMIN_PACKET_ADMIN_QUIT, .ADMIN_PACKET_ADMIN_UPDATE_FREQUENCY,
   .ADMIN_PACKET_ADMIN_POLL, .ADMIN_PACKET_SERVER_FULL, .ADMIN_PACKET_SERVER_BANNED,
   .ADMIN_PACKET_SERVER_ERROR, .ADMIN_PACKET_SERVER_PROTOCOL, .ADMIN_PACKET_SERVER_WELCOME,
   .ADMIN_PACKET_SERVER_NEWGAME, .ADMIN_PACKET_SERVER_SHUTDOWN, .ADMIN_PACKET_SERVER_DATE,
   .ADMIN_PACKET_SERVER_CLIENT_JOIN, .ADMIN_PACKET_SERVER_CLIENT_INFO,
   .ADMIN_PACKET_SERVER_CLIENT_UPDATE, .ADMIN_PACKET_SERVER_CLIENT_QUIT,
   .ADMIN_PACKET_SERVER_CLIENT_ERROR, .ADMIN_PACKET_SERVER_COMPANY_NEW,
   .ADMIN_PACKET_SERVER_COMPANY_INFO, .ADMIN_PACKET_SERVER_COMPANY_UPDATE,
   .ADMIN_PACKET_SERVER_COMPANY_REMOVE]

/-- The packet type with a given tag, if there is one. -/
def PacketAdminType.ofNat? (n : Nat) : Option PacketAdminType :=
  PacketAdminType.all.find? fun t => t.toNat = n

/-- Modelled from the spec: the payload of a frame of type `t`, which has to be used
up by the fields. -/
def decodePayload (P : CodecParams) (t : PacketAdminType) (payload : List Nat) : Option Packet :=
  match decodeFields P.strLenWidth (fixedFields P t) payload with
  | none => none
  | some (vs, rest) =>
      match (documentedLayout t).repeatFrom with
      | none => if rest = [] then some ⟨t, vs, []⟩ else none
      | some _ =>
          match decodeGroups P.strLenWidth (groupFields t) (rest.length + 1) rest with
          | some (gs, []) => some ⟨t, vs, gs⟩
          | _ => none

/-- Modelled from the spec: `Decode(bytes) -> Packet | DecodeError`.  A truncated
frame gives the "need more bytes" signal, an unknown type tag a recoverable
`UnknownType`.  The frame reader is missing from the sources. -/
def Decode (P : CodecParams) (bytes : List Nat) : DecodeResult :=
  match readLE 2 bytes with
  | none => .needMore
  | some (len, _) =>
      if len < 3 ∨ P.maxFrame < len then .malformed
      else if bytes.length < len then .needMore
      else
        match readLE 1 (bytes.drop 2) with
        | none => .needMore
        | some (tag, _) =>
            match PacketAdminType.ofNat? tag with
            | none => .unknownType tag
            | some t =>
                match decodePayload P t ((bytes.take len).drop 3) with
                | none => .malformed
                | some p => .ok p (bytes.drop len)

/-- Whether a value is of a field type: an integer fits the width, a string keeps to
its maximum length and to what its length prefix can express. -/
def Value.fits (w max : Nat) : FieldTy → Value → Bool
  | .uint8, .int n => decide (n < 2 ^ 8)
  | .uint16, .int n => decide (n < 2 ^ 16)
  | .uint32, .int n => decide (n < 2 ^ 32)
  | .bool, .bool _ => true
  | .string, .str s => decide (s.length ≤ max ∧ s.length < 256 ^ w)
  | _, _ => false

/-- Number of bytes that a value takes on the wire. -/
def Value.size (w : Nat) : Value → FieldTy → Nat
  | .str s, _ => w + s.length
  | _, ty => ty.width

/-- Whether a sequence of values is of a sequence of field types. -/
def fieldsFit (w : Nat) : List (FieldTy × Nat) → List Value → Bool
  | [], [] => true
  | (ty, max) :: tys, v :: vs => v.fits w max ty && fieldsFit w tys vs
  | _, _ => false

/-- Number of bytes that a sequence of values takes on the wire. -/
def fieldsSize (w : Nat) : List (FieldTy × Nat) → List Value → Nat
  | (ty, _) :: tys, v :: vs => v.size w ty + fieldsSize w tys vs
  | _, _ => 0

/-- Modelled from the spec: a packet "of its type".  The values are of the field
types that `tcp_admin.h` documents for the type tag, and only a type with a
repeating part has repetitions. -/
def Packet.wellTyped (P : CodecParams) (p : Packet) : Bool :=
  fieldsFit P.strLenWidth (fixedFields P p.type) p.fields &&
  (match (documentedLayout p.type).repeatFrom with
   | none => decide (p.groups = [])
   | some _ => p.groups.all fun g => fieldsFit P.strLenWidth (groupFields p.type) g)

/-- Length of the frame of a packet: header, fields, and for a type with a
repeating part one `bool` per repetition plus the closing one. -/
def Packet.frameLength (P : CodecParams) (p : Packet) : Nat :=
  3 + fieldsSize P.strLenWidth (fixedFields P p.type) p.fields +
  (match (documentedLayout p.type).repeatFrom with
   | none => 0
   | some _ =>
      (p.groups.map fun g => 1 + fieldsSize P.strLenWidth (groupFields p.type) g).sum + 1)

/-! ## Subscriptions and the tick-driven dispatch

The handler of `ADMIN_PACKET_ADMIN_UPDATE_FREQUENCY` and the code that sends updates
are only declared in `tcp_admin.h`; they are modelled from the specification
document. -/

/-- Enum `AdminStatus`, without the `ADMIN_STATUS_END` marker. -/
inductive AdminStatus
  | ADMIN_STATUS_INACTIVE
  | ADMIN_STATUS_ACTIVE
  deriving DecidableEq, Repr

/-- All enumerators of `AdminUpdateType`, in the order of their declaration. -/
def AdminUpdateType.all : List AdminUpdateType :=
  [.ADMIN_UPDATE_DATE, .ADMIN_UPDATE_CLIENT_INFO, .ADMIN_UPDATE_COMPANY_INFO]

/-- The update type with a given numeric value, if there is one. -/
def AdminUpdateType.ofNat? (n : Nat) : Option AdminUpdateType :=
  AdminUpdateType.all.find? fun t => t.toNat = n

/-- Modelled from the spec: the SubscriptionTable, a mapping from update category to
a frequency bitmask that "always has exactly one entry per known category". -/
abbrev SubscriptionTable := AdminUpdateType → Nat

/-- Modelled from the spec: the table of a new connection, "default: no bits set". -/
def SubscriptionTable.init : SubscriptionTable := fun _ => 0

/-- Modelled from the spec: `Get(category) -> freq-bitmask`. -/
def SubscriptionTable.Get (t : SubscriptionTable) (c : AdminUpdateType) : Nat := t c

/-- Modelled from the spec: `Set(category, freq-bitmask)`. -/
def SubscriptionTable.Set (t : SubscriptionTable) (c : AdminUpdateType) (mask : Nat) :
    SubscriptionTable :=
  fun c2 => if c2 = c then mask else t c2

/-- Modelled from the spec: `Matches(category, cadence) -> bool`, the cadence bit is
set in the bitmask of the category. -/
def SubscriptionTable.Matches (t : SubscriptionTable) (c : AdminUpdateType)
    (cadence : AdminUpdateFrequency) : Bool :=
  t.Get c &&& cadence.toNat != 0

/-- Modelled from the spec: an AdminConnection, reduced to its status and the
SubscriptionTable that it owns. -/
structure AdminConnection where
  status : AdminStatus
  update_frequency : SubscriptionTable

/-- Modelled from the spec: the transition `ACTIVE + UPDATE_FREQUENCY(category,
freq-bitmask)`.  The bitmask is validated against the advertised capability table
`advertised`: a bit that is not advertised for the category is silently ignored,
the poll bit is always accepted, an unknown category is ignored, and the
SubscriptionTable is changed in place.  On a connection that is not active the
command is unexpected and closes it (`none`).  The handler is only declared in
`tcp_admin.h`. -/
def Receive_ADMIN_UPDATE_FREQUENCY (advertised : SubscriptionTable) (conn : AdminConnection)
    (category freq : Nat) : Option AdminConnection :=
  match conn.status with
  | .ADMIN_STATUS_INACTIVE => none
  | .ADMIN_STATUS_ACTIVE =>
      match AdminUpdateType.ofNat? category with
      | none => some conn
      | some c =>
          some { conn with
            update_frequency := conn.update_frequency.Set c
              ((freq &&& advertised.Get c) |||
                (freq &&& AdminUpdateFrequency.ADMIN_FREQUENCY_POLL.toNat)) }

/-- Modelled from the spec: the cadences that can be due on a tick, "date-based:
daily/weekly/monthly/quarterly/yearly boundaries". -/
inductive DateCadence
  | daily
  | weekly
  | monthly
  | quarterly
  | yearly
  deriving DecidableEq, Repr

/-- All date-based cadences. -/
def DateCadence.all : List DateCadence := [.daily, .weekly, .monthly, .quarterly, .yearly]

/-- The frequency bit of a date-based cadence. -/
def DateCadence.freq : DateCadence → AdminUpdateFrequency
  | .daily => .ADMIN_FREQUENCY_DAILY
  | .weekly => .ADMIN_FREQUENCY_WEEKLY
  | .monthly => .ADMIN_FREQUENCY_MONTHLY
  | .quarterly => .ADMIN_FREQUENCY_QUARTERLY
  | .yearly => .ADMIN_FREQUENCY_ANUALLY

/-- Modelled from the spec: the Dispatcher keeps the last dispatch date per
cadence. -/
structure Dispatcher where
  last : DateCadence → Nat

/-- Modelled from the spec: a packet that the Dispatcher pushes to a connection for an
update category; the sending code is missing from the sources. -/
structure Emission where
  conn : AdminConnection
  category : AdminUpdateType
  packet : Packet

/-- Modelled from the spec: the cadences that are due on a tick, "determined by
comparing today's date to the last dispatch date per cadence".  The calendar, which
decides whether a boundary of a cadence lies between two dates, is the parameter
`boundary`. -/
def dueCadences (boundary : DateCadence → Nat → Nat → Bool) (d : Dispatcher) (today : Nat) :
    List DateCadence :=
  DateCadence.all.filter fun k => boundary k (d.last k) today

/-- Modelled from the spec: one tick of the Dispatcher.  "For every live
AdminConnection whose SubscriptionTable has one of the due cadence bits set for the
date/client-info/company-info categories, emit the corresponding snapshot
packet(s)"; `snapshot` is the snapshot provider of the simulation.  The sending code
is missing from the sources. -/
def OnTick (boundary : DateCadence → Nat → Nat → Bool)
    (snapshot : AdminUpdateType → Nat → List Packet)
    (conns : List AdminConnection) (d : Dispatcher) (today : Nat) :
    Dispatcher × List Emission :=
  let due := dueCadences boundary d today
  let out := conns.flatMap fun conn =>
    AdminUpdateType.all.flatMap fun c =>
      if due.any (fun k => conn.update_frequency.Matches c k.freq) then
        (snapshot c today).map fun p => ⟨conn, c, p⟩
      else []
  (⟨fun k => if k ∈ due then today else d.last k⟩, out)

/-- Modelled from the spec: a sequence of ticks, given by their dates; the emissions
of all ticks in order. -/
def runTicks (boundary : DateCadence → Nat → Nat → Bool)
    (snapshot : AdminUpdateType → Nat → List Packet)
    (conns : List AdminConnection) : Dispatcher → List Nat → List Emission
  | _, [] => []
  | d, today :: ticks =>
      let r := OnTick boundary snapshot conns d today
      r.2 ++ runTicks boundary snapshot conns r.1 ticks

/-! ## misc_gui.cpp: the text buffer -/

/-- The fields of `Textbuf` that `misc_gui.cpp` uses.  `buf` is the memory that
`tb->buf` points to; the counters are `uint16` (as the parameters of
`InitializeTextBuffer` and the casts in the editing functions), kept as natural
numbers that the functions below reduce modulo `2 ^ 16` when they store. -/
structure Textbuf where
  buf : List Nat
  max_bytes : Nat
  max_chars : Nat
  bytes : Nat
  chars : Nat
  pixels : Nat
  caret : Bool
  caretpos : Nat
  caretxoffs : Nat
  deriving DecidableEq, Repr

/-- The string and font functions that the editing functions call and that are
defined outside the sources at hand; they are parameters of the embedding.
`Utf8Encode c` are the bytes that `Utf8Encode(buf, c)` writes, `Utf8Decode s` the
character and the length that `Utf8Decode(&c, s)` gives for the bytes at `s`,
`Utf8PrevChar buf pos` the offset that `Utf8PrevChar(buf + pos)` points to, and
`GetCharacterWidth c` is `GetCharacterWidth(FS_NORMAL, c)`. -/
structure TextHelpers where
  GetCharacterWidth : Nat → Nat
  Utf8CharLen : Nat → Nat
  Utf8Encode : Nat → List Nat
  Utf8Decode : List Nat → Nat × Nat
  Utf8PrevChar : List Nat → Nat → Nat

/-- The key codes that the editing functions compare their `int` argument with; any
other value is `other`. -/
inductive WindowKeyCodes
  | WKC_BACKSPACE
  | WKC_DELETE
  | WKC_LEFT
  | WKC_RIGHT
  | WKC_HOME
  | WKC_END
  | other (code : Nat)
  deriving DecidableEq, Repr

/-- Store into a `uint16`. -/
def u16 (n : Nat) : Nat := n % 2 ^ 16

/-- The `uint16` difference `a - b` (`a -= b` on a `uint16`). -/
def u16sub (a b : Nat) : Nat := (a + (2 ^ 16 - b % 2 ^ 16)) % 2 ^ 16

/-- Write `data` into the memory `buf` from offset `pos` on. -/
def writeAt (buf : List Nat) (pos : Nat) (data : List Nat) : List Nat :=
  buf.take pos ++ data ++ buf.drop (pos + data.length)

/-- The call `memmove(buf + dst, buf + src, n)`: the `n` bytes from offset `src` are
read first and then written from offset `dst` on.  (Reading or writing behind the
end of `buf` is undefined in C; here a read stops at the end.) -/
def memmove (buf : List Nat) (dst src n : Nat) : List Nat :=
  writeAt buf dst ((buf.drop src).take n)

/-- Function `InsertTextBufferChar` of `misc_gui.cpp`; the result is the return value
and the `Textbuf` after the call. -/
def InsertTextBufferChar (H : TextHelpers) (tb : Textbuf) (key : Nat) : Bool × Textbuf :=
  let charwidth := H.GetCharacterWidth key % 2 ^ 8
  let len := u16 (H.Utf8CharLen key)
  if tb.bytes + len ≤ tb.max_bytes ∧ tb.chars + 1 ≤ tb.max_chars then
    let buf1 := memmove tb.buf (tb.caretpos + len) tb.caretpos (tb.bytes - tb.caretpos)
    let buf2 := writeAt buf1 tb.caretpos (H.Utf8Encode key)
    (true,
      { tb with
        buf := buf2, chars := u16 (tb.chars + 1), bytes := u16 (tb.bytes + len),
        pixels := u16 (tb.pixels + charwidth), caretpos := u16 (tb.caretpos + len),
        caretxoffs := u16 (tb.caretxoffs + charwidth) })
  else
    (false, tb)

/-- Function `MoveTextBufferPos` of `misc_gui.cpp`; the result is the return value and
the `Textbuf` after the call. -/
def MoveTextBufferPos (H : TextHelpers) (tb : Textbuf) (navmode : WindowKeyCodes) :
    Bool × Textbuf :=
  match navmode with
  | .WKC_LEFT =>
      if tb.caretpos ≠ 0 then
        let s := H.Utf8PrevChar tb.buf tb.caretpos
        let c := (H.Utf8Decode (tb.buf.drop s)).1
        (true, { tb with caretpos := u16 s,
                         caretxoffs := u16sub tb.caretxoffs (H.GetCharacterWidth c) })
      else (false, tb)
  | .WKC_RIGHT =>
      if (tb.caretpos : Int) < (tb.bytes : Int) - 1 then
        let dec := H.Utf8Decode (tb.buf.drop tb.caretpos)
        (true, { tb with caretpos := u16 (tb.caretpos + u16 dec.2),
                         caretxoffs := u16 (tb.caretxoffs + H.GetCharacterWidth dec.1) })
      else (false, tb)
  | .WKC_HOME => (true, { tb with caretpos := 0, caretxoffs := 0 })
  | .WKC_END => (true, { tb with caretpos := u16sub tb.bytes 1, caretxoffs := tb.pixels })
  | _ => (false, tb)

/-- The state in which the editing functions keep a `Textbuf`: the counters fit
`uint16`, the buffer has `max_bytes` bytes, the text (with its terminating zero) lies
inside it, and the caret lies inside the text. -/
def Textbuf.WF (tb : Textbuf) : Prop :=
  tb.max_bytes < 2 ^ 16 ∧ tb.max_chars < 2 ^ 16 ∧ tb.buf.length = tb.max_bytes ∧
  tb.bytes ≤ tb.max_bytes ∧ tb.caretpos < tb.bytes ∧ 1 ≤ tb.chars ∧ tb.chars ≤ tb.max_chars

instance (tb : Textbuf) : Decidable tb.WF := by
  unfold Textbuf.WF
  infer_instance

/-! ### A sample instance of the helpers

Standard UTF-8 and a font in which every character is six pixels wide.  It is used
to evaluate the editing functions on concrete buffers. -/

/-- Whether a byte is a continuation byte `10xxxxxx`. -/
def sampleIsUtf8Part (c : Nat) : Bool := c / 64 % 4 == 2

/-- Number of bytes of the UTF-8 encoding of a character; 1 for a value that has no
encoding. -/
def sampleUtf8CharLen (c : Nat) : Nat :=
  if c < 0x80 then 1
  else if c < 0x800 then 2
  else if c < 0x10000 then 3
  else if c < 0x110000 then 4
  else 1

/-- The UTF-8 encoding of a character; `?` for a value that has no encoding. -/
def sampleUtf8Encode (c : Nat) : List Nat :=
  if c < 0x80 then [c]
  else if c < 0x800 then [0xC0 + c / 64 % 32, 0x80 + c % 64]
  else if c < 0x10000 then [0xE0 + c / 4096 % 16, 0x80 + c / 64 % 64, 0x80 + c % 64]
  else if c < 0x110000 then
    [0xF0 + c / 262144 % 8, 0x80 + c / 4096 % 64, 0x80 + c / 64 % 64, 0x80 + c % 64]
  else [63]

/-- The character at the front of a byte sequence and the number of its bytes; `?`
and 1 for an invalid sequence. -/
def sampleUtf8Decode : List Nat → Nat × Nat
  | [] => (0, 1)
  | b0 :: rest =>
      if b0 < 0x80 then (b0, 1)
      else if b0 / 32 = 6 then
        match rest with
        | b1 :: _ =>
            if sampleIsUtf8Part b1 ∧ 0x80 ≤ b0 % 32 * 64 + b1 % 64 then
              (b0 % 32 * 64 + b1 % 64, 2)
            else (63, 1)
        | _ => (63, 1)
      else if b0 / 16 = 14 then
        match rest with
        | b1 :: b2 :: _ =>
            if sampleIsUtf8Part b1 ∧ sampleIsUtf8Part b2 ∧
                0x800 ≤ b0 % 16 * 4096 + b1 % 64 * 64 + b2 % 64 then
              (b0 % 16 * 4096 + b1 % 64 * 64 + b2 % 64, 3)
            else (63, 1)
        | _ => (63, 1)
      else if b0 / 8 = 30 then
        match rest with
        | b1 :: b2 :: b3 :: _ =>
            if sampleIsUtf8Part b1 ∧ sampleIsUtf8Part b2 ∧ sampleIsUtf8Part b3 ∧
                0x10000 ≤ b0 % 8 * 262144 + b1 % 64 * 4096 + b2 % 64 * 64 + b3 % 64 ∧
                b0 % 8 * 262144 + b1 % 64 * 4096 + b2 % 64 * 64 + b3 % 64 < 0x110000 then
              (b0 % 8 * 262144 + b1 % 64 * 4096 + b2 % 64 * 64 + b3 % 64, 4)
            else (63, 1)
        | _ => (63, 1)
      else (63, 1)

/-- Offset of the first byte of the character that ends in front of offset `pos`:
step back over continuation bytes. -/
def sampleUtf8PrevChar (buf : List Nat) : Nat → Nat
  | 0 => 0
  | pos + 1 => if sampleIsUtf8Part (buf.getD pos 0) then sampleUtf8PrevChar buf pos else pos

/-- The sample instance of the helpers. -/
def sampleHelpers : TextHelpers :=
  ⟨fun _ => 6, sampleUtf8CharLen, sampleUtf8Encode, sampleUtf8Decode, sampleUtf8PrevChar⟩

/-- The sample buffer `"aéb"` (four bytes of text and the terminating zero in a
buffer of eight bytes) with the caret behind the `é`. -/
def sampleTextbuf : Textbuf :=
  { buf := [97, 195, 169, 98, 0, 0, 0, 0], max_bytes := 8, max_chars := 8, bytes := 5,
    chars := 4, pixels := 18, caret := true, caretpos := 3, caretxoffs := 12 }

/-- The sample buffer with the caret at the start of the text. -/
def sampleTextbufAtHome : Textbuf :=
  { sampleTextbuf with caretpos := 0, caretxoffs := 0 }

/-- The sample buffer with the caret at the end of the text. -/
def sampleTextbufAtEnd : Textbuf :=
  { sampleTextbuf with caretpos := 4, caretxoffs := 18 }

/-- The news subtypes, in the order of the rows of `_news_subtype_data`. -/
inductive NewsSubtype
  | NS_ARRIVAL_COMPANY
  | NS_ARRIVAL_OTHER
  | NS_ACCIDENT
  | NS_COMPANY_TROUBLE
  | NS_COMPANY_MERGER
  | NS_COMPANY_BANKRUPT
  | NS_COMPANY_NEW
  | NS_INDUSTRY_OPEN
  | NS_INDUSTRY_CLOSE
  | NS_ECONOMY
  | NS_INDUSTRY_COMPANY
  | NS_INDUSTRY_OTHER
  | NS_INDUSTRY_NOBODY
  | NS_ADVICE
  | NS_NEW_VEHICLES
  | NS_ACCEPTANCE
  | NS_SUBSIDIES
  | NS_GENERAL
  deriving DecidableEq, Repr

/-- The news types, in the order of the rows of `_news_type_data`. -/
inductive NewsType
  | NT_ARRIVAL_COMPANY
  | NT_ARRIVAL_OTHER
  | NT_ACCIDENT
  | NT_COMPANY_INFO
  | NT_INDUSTRY_OPEN
  | NT_INDUSTRY_CLOSE
  | NT_ECONOMY
  | NT_INDUSTRY_COMPANY
  | NT_INDUSTRY_OTHER
  | NT_INDUSTRY_NOBODY
  | NT_ADVICE
  | NT_NEW_VEHICLES
  | NT_ACCEPTANCE
  | NT_SUBSIDIES
  | NT_GENERAL
  deriving DecidableEq, Repr

/-- The display options of a news type. -/
inductive NewsDisplay
  | ND_OFF
  | ND_SUMMARY
  | ND_FULL
  deriving DecidableEq, Repr

/-- The kinds of reference of a news item that `news_gui.cpp` names. -/
inductive NewsReferenceType
  | NR_NONE
  | NR_TILE
  | NR_VEHICLE
  | NR_STATION
  | NR_INDUSTRY
  | NR_TOWN
  | NR_ENGINE
  deriving DecidableEq, Repr

/-- The bit set `NewsFlag`, one field per flag (`NF_NONE` is the empty set); the
numeric values of the flags are declared outside the sources at hand. -/
structure NewsFlag where
  NF_INCOLOUR : Bool
  NF_NO_TRANSPARENT : Bool
  NF_SHADE : Bool
  deriving DecidableEq, Repr

/-- Struct `NewsSubtypeData`, without the window description. -/
structure NewsSubtypeData where
  type : NewsType
  flags : NewsFlag
  deriving DecidableEq, Repr

/-- The table `_news_subtype_data`. -/
def _news_subtype_data : NewsSubtype → NewsSubtypeData
  | .NS_ARRIVAL_COMPANY => ⟨.NT_ARRIVAL_COMPANY, ⟨false, true, true⟩⟩
  | .NS_ARRIVAL_OTHER => ⟨.NT_ARRIVAL_OTHER, ⟨false, true, true⟩⟩
  | .NS_ACCIDENT => ⟨.NT_ACCIDENT, ⟨false, true, true⟩⟩
  | .NS_COMPANY_TROUBLE => ⟨.NT_COMPANY_INFO, ⟨false, false, false⟩⟩
  | .NS_COMPANY_MERGER => ⟨.NT_COMPANY_INFO, ⟨false, false, false⟩⟩
  | .NS_COMPANY_BANKRUPT => ⟨.NT_COMPANY_INFO, ⟨false, false, false⟩⟩
  | .NS_COMPANY_NEW => ⟨.NT_COMPANY_INFO, ⟨false, false, false⟩⟩
  | .NS_INDUSTRY_OPEN => ⟨.NT_INDUSTRY_OPEN, ⟨false, true, true⟩⟩
  | .NS_INDUSTRY_CLOSE => ⟨.NT_INDUSTRY_CLOSE, ⟨false, true, true⟩⟩
  | .NS_ECONOMY => ⟨.NT_ECONOMY, ⟨false, false, false⟩⟩
  | .NS_INDUSTRY_COMPANY => ⟨.NT_INDUSTRY_COMPANY, ⟨false, true, true⟩⟩
  | .NS_INDUSTRY_OTHER => ⟨.NT_INDUSTRY_OTHER, ⟨false, true, true⟩⟩
  | .NS_INDUSTRY_NOBODY => ⟨.NT_INDUSTRY_NOBODY, ⟨false, true, true⟩⟩
  | .NS_ADVICE => ⟨.NT_ADVICE, ⟨true, false, false⟩⟩
  | .NS_NEW_VEHICLES => ⟨.NT_NEW_VEHICLES, ⟨false, false, false⟩⟩
  | .NS_ACCEPTANCE => ⟨.NT_ACCEPTANCE, ⟨true, false, false⟩⟩
  | .NS_SUBSIDIES => ⟨.NT_SUBSIDIES, ⟨false, false, false⟩⟩
  | .NS_GENERAL => ⟨.NT_GENERAL, ⟨false, false, false⟩⟩

/-- The fields of `NewsTypeData` that the queue functions read. -/
structure NewsTypeData where
  age : Int
  display : NewsDisplay
  deriving DecidableEq, Repr

/-- The initial contents of the table `_news_type_data` (the table is not constant:
the display option of a type is a setting). -/
def _news_type_data_initial : NewsType → NewsTypeData
  | .NT_ARRIVAL_COMPANY => ⟨60, .ND_FULL⟩
  | .NT_ARRIVAL_OTHER => ⟨60, .ND_SUMMARY⟩
  | .NT_ACCIDENT => ⟨90, .ND_FULL⟩
  | .NT_COMPANY_INFO => ⟨60, .ND_FULL⟩
  | .NT_INDUSTRY_OPEN => ⟨90, .ND_SUMMARY⟩
  | .NT_INDUSTRY_CLOSE => ⟨90, .ND_SUMMARY⟩
  | .NT_ECONOMY => ⟨30, .ND_FULL⟩
  | .NT_INDUSTRY_COMPANY => ⟨30, .ND_SUMMARY⟩
  | .NT_INDUSTRY_OTHER => ⟨30, .ND_OFF⟩
  | .NT_INDUSTRY_NOBODY => ⟨30, .ND_OFF⟩
  | .NT_ADVICE => ⟨150, .ND_FULL⟩
  | .NT_NEW_VEHICLES => ⟨30, .ND_FULL⟩
  | .NT_ACCEPTANCE => ⟨90, .ND_FULL⟩
  | .NT_SUBSIDIES => ⟨180, .ND_SUMMARY⟩
  | .NT_GENERAL => ⟨60, .ND_FULL⟩

/-- A `NewsItem`.  Pointers are addresses, `none` is `NULL`. -/
structure NewsItem where
  prev : Option Nat
  next : Option Nat
  string_id : Nat
  date : Int
  subtype : NewsSubtype
  flags : NewsFlag
  reftype1 : NewsReferenceType
  reftype2 : NewsReferenceType
  ref1 : Nat
  ref2 : Nat
  free_data : Option Nat
  params : List Nat
  deriving DecidableEq, Repr

/-- A news item apart from its links. -/
def NewsItem.content (n : NewsItem) : NewsItem :=
  { n with prev := none, next := none }

/-- The game modes: `GM_MENU` and the others. -/
inductive GameMode
  | GM_MENU
  | other (code : Nat)
  deriving DecidableEq, Repr

/-- The globals and constants that the queue functions read and that are defined
outside `news_gui.cpp`: the game mode, the date and year, the setting
`_settings_client.gui.coloured_news_year`, the string parameters that
`CopyOutDParam` copies, the constant `INVALID_STRING_ID`, and the current contents of
`_news_type_data`. -/
structure NewsEnv where
  _game_mode : GameMode
  _date : Int
  _cur_year : Int
  coloured_news_year : Int
  dparams : List Nat
  INVALID_STRING_ID : Nat
  _news_type_data : NewsType → NewsTypeData

/-- The memory of news items and the static variables of `news_gui.cpp`;
`duration` is `NewsWindow::duration`. -/
structure NewsState where
  heap : Nat → Option NewsItem
  _total_news : Nat
  _oldest_news : Option Nat
  _latest_news : Option Nat
  _forced_news : Option Nat
  _current_news : Option Nat
  _statusbar_news_item : Option Nat
  duration : Nat

/-- The memory after a store to address `a` (`none` frees it). -/
def heapSet (heap : Nat → Option NewsItem) (a : Nat) (v : Option NewsItem) :
    Nat → Option NewsItem :=
  fun b => if b = a then v else heap b

/-- The assignment `a->next = v`; `none` when `a` is not a live item. -/
def NewsState.setNext (s : NewsState) (a : Nat) (v : Option Nat) : Option NewsState :=
  match s.heap a with
  | none => none
  | some n => some { s with heap := heapSet s.heap a (some { n with next := v }) }

/-- The assignment `a->prev = v`; `none` when `a` is not a live item. -/
def NewsState.setPrev (s : NewsState) (a : Nat) (v : Option Nat) : Option NewsState :=
  match s.heap a with
  | none => none
  | some n => some { s with heap := heapSet s.heap a (some { n with prev := v }) }

/-- Function `AddNewsItem` of `news_gui.cpp`.  `ni` is the address that
`new NewsItem` returns.  A failing `assert` and the use of a pointer that is `NULL`
or not live give `none`. -/
def AddNewsItem (env : NewsEnv) (s : NewsState) (ni : Nat) (string : Nat)
    (subtype : NewsSubtype) (reftype1 : NewsReferenceType) (ref1 : Nat)
    (reftype2 : NewsReferenceType) (ref2 : Nat) (free_data : Option Nat) : Option NewsState :=
  if env._game_mode = .GM_MENU then some s
  else
    let flags0 := (_news_subtype_data subtype).flags
    let flags := if env._cur_year ≥ env.coloured_news_year then { flags0 with NF_INCOLOUR := true }
      else flags0
    let item : NewsItem :=
      { prev := none, next := none, string_id := string, date := env._date, subtype := subtype,
        flags := flags, reftype1 := reftype1, reftype2 := reftype2, ref1 := ref1, ref2 := ref2,
        free_data := free_data, params := env.dparams }
    let s1 := { s with heap := heapSet s.heap ni (some item) }
    let s2 := { s1 with _total_news := (s1._total_news + 1) % 2 ^ 32 }
    let linked : Option NewsState :=
      if s1._total_news = 0 then
        if s2._oldest_news = none then
          NewsState.setPrev { s2 with _oldest_news := some ni } ni none
        else none
      else
        match s2._latest_news with
        | none => none
        | some l =>
            match s2.heap l with
            | none => none
            | some ln =>
                if ln.next = none then
                  match s2.setNext l (some ni) with
                  | none => none
                  | some s3 => s3.setPrev ni (some l)
                else none
    match linked with
    | none => none
    | some s3 =>
        match s3.setNext ni none with
        | none => none
        | some s4 => some { s4 with _latest_news := some ni }

/-- Function `MoveToNextItem` of `news_gui.cpp`, as far as it changes the static
variables (`ShowTicker` sets `_statusbar_news_item`, the `NewsWindow` that
`ShowNewspaper` creates sets its `duration` to 555). -/
def MoveToNextItem (env : NewsEnv) (s : NewsState) : Option NewsState :=
  let s1 := { s with _forced_news := none, _statusbar_news_item := none }
  if s1._current_news ≠ s1._latest_news then
    let cur : Option (Option Nat) :=
      match s1._current_news with
      | none => some s1._oldest_news
      | some c => (s1.heap c).map fun n => n.next
    match cur with
    | none => none
    | some cur =>
        let s2 := { s1 with _current_news := cur }
        match cur with
        | none => none
        | some a =>
            match s2.heap a with
            | none => none
            | some ni =>
                let type := (_news_subtype_data ni.subtype).type
                if env._date - (env._news_type_data type).age > ni.date then some s2
                else
                  match (env._news_type_data type).display with
                  | .ND_OFF => some s2
                  | .ND_SUMMARY => some { s2 with _statusbar_news_item := some a }
                  | .ND_FULL => some { s2 with duration := 555 }
  else some s1

/-- The first `if` of `DeleteNewsItem`: `ni->prev->next = ni->next`, or for the first
item `assert(_oldest_news == ni); _oldest_news = ni->next`. -/
def DeleteNewsItem.unlinkPrev (s : NewsState) (ni : Nat) : Option NewsState :=
  match s.heap ni with
  | none => none
  | some n =>
      match n.prev with
      | some p => s.setNext p n.next
      | none => if s._oldest_news = some ni then some { s with _oldest_news := n.next } else none

/-- The second `if` of `DeleteNewsItem`: `ni->next->prev = ni->prev`, or for the last
item `assert(_latest_news == ni); _latest_news = ni->prev`. -/
def DeleteNewsItem.unlinkNext (s : NewsState) (ni : Nat) : Option NewsState :=
  match s.heap ni with
  | none => none
  | some n =>
      match n.next with
      | some q => s.setPrev q n.prev
      | none => if s._latest_news = some ni then some { s with _latest_news := n.prev } else none

/-- The third `if` of `DeleteNewsItem`: when `ni` is the forced, the current or the
status bar item, step the current item back if it is `ni` and move to the next
item. -/
def DeleteNewsItem.moveOn (env : NewsEnv) (s : NewsState) (ni : Nat) : Option NewsState :=
  if s._forced_news = some ni ∨ s._current_news = some ni ∨ s._statusbar_news_item = some ni then
    match s.heap ni with
    | none => none
    | some n =>
        MoveToNextItem env
          (if s._current_news = some ni then { s with _current_news := n.prev } else s)
  else some s

/-- Function `DeleteNewsItem` of `news_gui.cpp`.  A failing `assert` and the use of a
pointer that is `NULL` or not live give `none`; `_total_news--` is a decrement of a
`uint`. -/
def DeleteNewsItem (env : NewsEnv) (s : NewsState) (ni : Nat) : Option NewsState :=
  match DeleteNewsItem.unlinkPrev s ni with
  | none => none
  | some s1 =>
      match DeleteNewsItem.unlinkNext s1 ni with
      | none => none
      | some s2 =>
          let s3 := { s2 with _total_news := (s2._total_news + (2 ^ 32 - 1)) % 2 ^ 32 }
          match DeleteNewsItem.moveOn env s3 ni with
          | none => none
          | some s4 => some { s4 with heap := heapSet s4.heap ni none }

/-- The test of `DeleteVehicleNews` on a news item. -/
def vehicleNewsMatches (env : NewsEnv) (vid news : Nat) (n : NewsItem) : Bool :=
  ((n.reftype1 = .NR_VEHICLE ∧ n.ref1 = vid) ∨ (n.reftype2 = .NR_VEHICLE ∧ n.ref2 = vid)) ∧
    (news = env.INVALID_STRING_ID ∨ n.string_id = news)

/-- The loop of `DeleteVehicleNews`, started at `ni`; `fuel` bounds the number of
iterations. -/
def DeleteVehicleNewsLoop (env : NewsEnv) (vid news : Nat) :
    Nat → NewsState → Option Nat → Option NewsState
  | _, s, none => some s
  | 0, _, some _ => none
  | fuel + 1, s, some a =>
      match s.heap a with
      | none => none
      | some n =>
          let next := n.next
          let s1 := if vehicleNewsMatches env vid news n then DeleteNewsItem env s a else some s
          match s1 with
          | none => none
          | some s1 => DeleteVehicleNewsLoop env vid news fuel s1 next

/-- Function `DeleteVehicleNews` of `news_gui.cpp`; `fuel` bounds the number of
iterations of its loop. -/
def DeleteVehicleNews (fuel : Nat) (env : NewsEnv) (s : NewsState) (vid news : Nat) :
    Option NewsState :=
  DeleteVehicleNewsLoop env vid news fuel s s._oldest_news

/-- The items that are reached from `start` along the `next` pointers, in at most
`fuel` steps. -/
def walkNext (heap : Nat → Option NewsItem) : Nat → Option Nat → List Nat
  | _, none => []
  | 0, some _ => []
  | fuel + 1, some a =>
      match heap a with
      | none => [a]
      | some n => a :: walkNext heap fuel n.next

/-- The successor of the first element of a list, or `q` behind a single element. -/
def headOr (l : List Nat) (q : Option Nat) : Option Nat :=
  match l with
  | [] => q
  | b :: _ => some b

/-- The last element of a list, or `p` for the empty list. -/
def lastOr (l : List Nat) (p : Option Nat) : Option Nat :=
  match l.getLast? with
  | none => p
  | some x => some x

/-- A doubly linked segment: the items at the addresses `l` are live, each points
back to its predecessor (the first one to `p`) and forward to its successor (the
last one to `q`). -/
def Seg (heap : Nat → Option NewsItem) : Option Nat → List Nat → Option Nat → Prop
  | _, [], _ => True
  | p, a :: rest, q =>
      ∃ n, heap a = some n ∧ n.prev = p ∧ n.next = headOr rest q ∧ Seg heap (some a) rest q

/-- The news queue holds exactly the items at the addresses `l`, in this order:
`_oldest_news` is the first and `_latest_news` the last of them, the items are
doubly linked, `_total_news` is their number (which fits the `uint`), and the
pointers to the forced, current and status bar item are `NULL` or point into the
queue. -/
def IsQueue (s : NewsState) (l : List Nat) : Prop :=
  l.Nodup ∧ Seg s.heap none l none ∧ s._oldest_news = l.head? ∧ s._latest_news = l.getLast? ∧
  s._total_news = l.length ∧ l.length < 2 ^ 32 ∧
  (∀ a, s._forced_news = some a → a ∈ l) ∧ (∀ a, s._current_news = some a → a ∈ l) ∧
  (∀ a, s._statusbar_news_item = some a → a ∈ l)

/-- The state of `news_gui.cpp` at program start: no news item. -/
def NewsState.empty : NewsState :=
  ⟨fun _ => none, 0, none, none, none, none, none, 0⟩

/-- A sample environment: a running game on date 1000 in a year with coloured
news. -/
def sampleEnv : NewsEnv :=
  ⟨.other 1, 1000, 1950, 1920, [7], 0xFFFF, _news_type_data_initial⟩

/-- Whether the item at address `a` is live and passes the test of
`DeleteVehicleNews`. -/
def isVehicleNews (env : NewsEnv) (heap : Nat → Option NewsItem) (vid news : Nat) (a : Nat) :
    Bool :=
  match heap a with
  | none => false
  | some n => vehicleNewsMatches env vid news n

/-- A sample news item with the given links, string and references. -/
def sampleItem (prev next : Option Nat) (string_id : Nat) (subtype : NewsSubtype)
    (reftype1 : NewsReferenceType) (ref1 : Nat) (reftype2 : NewsReferenceType) (ref2 : Nat) :
    NewsItem :=
  { prev := prev, next := next, string_id := string_id, date := 1000, subtype := subtype,
    flags := (_news_subtype_data subtype).flags, reftype1 := reftype1, reftype2 := reftype2,
    ref1 := ref1, ref2 := ref2, free_data := none, params := [7] }

/-- A sample queue of three items: an advice about vehicle 5 at address 10, a general
news item at address 20, and the arrival of vehicle 5 at station 9 at address 30. -/
def sampleQueue : NewsState :=
  { heap := fun a =>
      if a = 10 then some (sampleItem none (some 20) 100 .NS_ADVICE .NR_VEHICLE 5 .NR_NONE 0)
      else if a = 20 then
        some (sampleItem (some 10) (some 30) 200 .NS_GENERAL .NR_NONE 0 .NR_NONE 0)
      else if a = 30 then
        some (sampleItem (some 20) none 300 .NS_ARRIVAL_COMPANY .NR_STATION 9 .NR_VEHICLE 5)
      else none,
    _total_news := 3, _oldest_news := some 10, _latest_news := some 30, _forced_news := none,
    _current_news := none, _statusbar_news_item := none, duration := 0 }

/-! ## script/api/script_date.cpp -/

/-- Struct `YearMonthDay`, which `ConvertDateToYMD` fills. -/
structure YearMonthDay where
  year : Int
  month : Int
  day : Int
  deriving DecidableEq, Repr

/-- The date functions and the constant of `date_func.h` that `script_date.cpp` uses
and that are defined outside the sources at hand; they are parameters of the
embedding.  `ConvertDateToYMD date` is what `ConvertDateToYMD(date, &ymd)` stores in
`ymd` (with its zero-based month). -/
structure DateFuncs where
  ConvertDateToYMD : Int → YearMonthDay
  ConvertYMDToDate : Int → Int → Int → Int
  MAX_YEAR : Int

/-- Function `ScriptDate::GetYear`. -/
def ScriptDate.GetYear (D : DateFuncs) (date : Int) : Int :=
  if date < 0 then -1
  else (D.ConvertDateToYMD date).year

/-- Function `ScriptDate::GetMonth`. -/
def ScriptDate.GetMonth (D : DateFuncs) (date : Int) : Int :=
  if date < 0 then -1
  else (D.ConvertDateToYMD date).month + 1

/-- Function `ScriptDate::GetDayOfMonth`. -/
def ScriptDate.GetDayOfMonth (D : DateFuncs) (date : Int) : Int :=
  if date < 0 then -1
  else (D.ConvertDateToYMD date).day

/-- Function `ScriptDate::GetDate`.  (The arguments that reach `ConvertYMDToDate` are
in `0..MAX_YEAR`, `0..11` and `1..31`, so the conversion to its parameter types
keeps them.) -/
def ScriptDate.GetDate (D : DateFuncs) (year month day_of_month : Int) : Int :=
  if month < 1 ∨ month > 12 then -1
  else if day_of_month < 1 ∨ day_of_month > 31 then -1
  else if year < 0 ∨ year > D.MAX_YEAR then -1
  else D.ConvertYMDToDate year (month - 1) day_of_month

/-- A sample instance of the date functions for evaluation: years of 12 months of 31
days. -/
def sampleDateFuncs : DateFuncs :=
  ⟨fun date => ⟨date / 372, date % 372 / 31, date % 31 + 1⟩,
   fun year month day => year * 372 + month * 31 + (day - 1), 5000000⟩

/-! ## blitter/32bpp_base.hpp -/

/-- Store into a `uint` or `uint32`. -/
def u32 (n : Nat) : Nat := n % 2 ^ 32

/-- The `uint` difference `a - b`. -/
def u32sub (a b : Nat) : Nat := (a + (2 ^ 32 - b % 2 ^ 32)) % 2 ^ 32

/-- The usual bit field extraction, `n` bits of `x` from bit `s` on: a sample instance
of the function `GB` of `core/bitmath_func.hpp`, which is defined outside the
sources at hand and is a parameter of the functions that call it. -/
def sampleGB (x s n : Nat) : Nat := (x >>> s) % 2 ^ n

/-- Function `Blitter_32bppBase::ComposeColour`; the arguments are `uint`, so a shift
is reduced modulo `2 ^ 32`. -/
def ComposeColour (a r g b : Nat) : Nat :=
  (u32 (a <<< 24) &&& 0xFF000000) ||| (u32 (r <<< 16) &&& 0x00FF0000) |||
    (u32 (g <<< 8) &&& 0x0000FF00) ||| (b &&& 0x000000FF)

/-- The term `((int)(x - cx) * a) / 256 + cx` of `ComposeColourRGBANoCheck`, with `x`,
`cx` and `a` of type `uint`: the difference is a `uint` difference, the product of
the `int` with the `uint` `a` and the division and sum that follow are `uint`
operations. -/
def blendChannel (x cx a : Nat) : Nat :=
  u32 (u32 (u32sub x cx * a) / 256 + cx)

/-- Function `Blitter_32bppBase::ComposeColourRGBANoCheck`. -/
def ComposeColourRGBANoCheck (GB : Nat → Nat → Nat → Nat) (r g b a current : Nat) : Nat :=
  let cr := GB current 16 8
  let cg := GB current 8 8
  let cb := GB current 0 8
  ComposeColour 0xFF (blendChannel r cr a) (blendChannel g cg a) (blendChannel b cb a)

/-- Function `Blitter_32bppBase::ComposeColourRGBA`. -/
def ComposeColourRGBA (GB : Nat → Nat → Nat → Nat) (r g b a current : Nat) : Nat :=
  if a = 0 then current
  else if a ≥ 255 then ComposeColour 0xFF r g b
  else ComposeColourRGBANoCheck GB r g b a current

/-- Function `Blitter_32bppBase::MakeGrey`. -/
def MakeGrey (GB : Nat → Nat → Nat → Nat) (colour : Nat) : Nat :=
  let r := GB colour 16 8
  let g := GB colour 8 8
  let b := GB colour 0 8
  let colour2 := u32 (u32 (u32 (r * 19595) + u32 (g * 38470)) + u32 (b * 7471)) / 65536
  ComposeColour 0xFF colour2 colour2 colour2

/-- The value that `MakeGrey` computes from the red, green and blue channel of a
colour before it composes the result. -/
def greyValue (GB : Nat → Nat → Nat → Nat) (colour : Nat) : Nat :=
  (GB colour 16 8 * 19595 + GB colour 8 8 * 38470 + GB colour 0 8 * 7471) / 65536

/-! ## news_gui.cpp: the command for custom news -/

/-- All enumerators of `NewsSubtype`, in the order of the rows of
`_news_subtype_data`, which is indexed by the subtype. -/
def NewsSubtype.all : List NewsSubtype :=
  [.NS_ARRIVAL_COMPANY, .NS_ARRIVAL_OTHER, .NS_ACCIDENT, .NS_COMPANY_TROUBLE,
   .NS_COMPANY_MERGER, .NS_COMPANY_BANKRUPT, .NS_COMPANY_NEW, .NS_INDUSTRY_OPEN,
   .NS_INDUSTRY_CLOSE, .NS_ECONOMY, .NS_INDUSTRY_COMPANY, .NS_INDUSTRY_OTHER,
   .NS_INDUSTRY_NOBODY, .NS_ADVICE, .NS_NEW_VEHICLES, .NS_ACCEPTANCE, .NS_SUBSIDIES,
   .NS_GENERAL]

/-- The marker `NS_END`: `assert_compile(lengthof(_news_subtype_data) == NS_END)`, and
the table has 18 rows. -/
def NS_END : Nat := 18

/-- The news subtype with a given numeric value, if there is one. -/
def NewsSubtype.ofNat? (n : Nat) : Option NewsSubtype :=
  NewsSubtype.all.get? n

/-- The constant `UINT32_MAX`. -/
def UINT32_MAX : Nat := 4294967295

/-- The result of a command: `CMD_ERROR`, or the `CommandCost()` of a command that
succeeded at no cost. -/
inductive CommandCost
  | CMD_ERROR
  | success
  deriving DecidableEq, Repr

/-- The globals, constants and functions that `CmdCustomNewsItem` uses and that are
defined outside `news_gui.cpp`; they are parameters of the embedding.
`NewsReferenceType_ofNat n` is the enumerator of `NewsReferenceType` with the numeric
value `n` (`none` if there is none, the `default` case of the `switch`), `StrEmpty` is
applied to the text of the command (`none` is `NULL`), and `IsValidID` of `Company`,
`Vehicle`, `Station`, `Industry`, `Town` and `Engine` are the fields with these
names in front. -/
structure CommandEnv where
  GB : Nat → Nat → Nat → Nat
  _current_company : Nat
  _local_company : Nat
  OWNER_DEITY : Nat
  INVALID_OWNER : Nat
  DC_EXEC : Nat
  STR_NEWS_CUSTOM_ITEM : Nat
  NewsReferenceType_ofNat : Nat → Option NewsReferenceType
  StrEmpty : Option (List Nat) → Bool
  Company_IsValidID : Nat → Bool
  IsValidTile : Nat → Bool
  Vehicle_IsValidID : Nat → Bool
  Station_IsValidID : Nat → Bool
  Industry_IsValidID : Nat → Bool
  Town_IsValidID : Nat → Bool
  Engine_IsValidID : Nat → Bool

/-- The `switch (reftype1)` of `CmdCustomNewsItem` for a named reference type: whether
`p2` passes the test of its case (`NR_NONE` has no test). -/
def CmdCustomNewsItem.refValid (C : CommandEnv) (reftype1 : NewsReferenceType) (p2 : Nat) :
    Bool :=
  match reftype1 with
  | .NR_NONE => true
  | .NR_TILE => C.IsValidTile p2
  | .NR_VEHICLE => C.Vehicle_IsValidID p2
  | .NR_STATION => C.Station_IsValidID p2
  | .NR_INDUSTRY => C.Industry_IsValidID p2
  | .NR_TOWN => C.Town_IsValidID p2
  | .NR_ENGINE => C.Engine_IsValidID p2

/-- Function `CmdCustomNewsItem` of `news_gui.cpp`; the result is the return value and
the state of the news queue after the call.  `news` is the address that `strdup`
returns and `ni` the one that `new NewsItem` returns in `AddNewsItem`;
`SetDParamStr(0, news)` stores `news` as string parameter 0 before `AddNewsItem`
copies the parameters.  `none` is a failure inside `AddNewsItem`. -/
def CmdCustomNewsItem (C : CommandEnv) (env : NewsEnv) (s : NewsState) (news ni : Nat)
    (tile flags p1 p2 : Nat) (text : Option (List Nat)) : Option (CommandCost × NewsState) :=
  if C._current_company ≠ C.OWNER_DEITY then some (.CMD_ERROR, s)
  else
    let subtype := C.GB p1 0 8
    let reftype1 := C.GB p1 8 8
    let company := C.GB p1 16 8
    if company ≠ C.INVALID_OWNER ∧ C.Company_IsValidID company = false then
      some (.CMD_ERROR, s)
    else if subtype ≥ NS_END then some (.CMD_ERROR, s)
    else if C.StrEmpty text = true then some (.CMD_ERROR, s)
    else
      match C.NewsReferenceType_ofNat reftype1 with
      | none => some (.CMD_ERROR, s)
      | some rt =>
          if CmdCustomNewsItem.refValid C rt p2 = false then some (.CMD_ERROR, s)
          else if company ≠ C.INVALID_OWNER ∧ company ≠ C._local_company then
            some (.success, s)
          else if flags &&& C.DC_EXEC ≠ 0 then
            match NewsSubtype.ofNat? subtype with
            | none => none
            | some st =>
                let env2 := { env with dparams := env.dparams.set 0 news }
                (AddNewsItem env2 s ni C.STR_NEWS_CUSTOM_ITEM st rt p2 .NR_NONE UINT32_MAX
                  (some news)).map fun s2 => (.success, s2)
          else some (.success, s)

/-- The conditions that the description of `CmdCustomNewsItem` lists for `CMD_ERROR`,
spelled out: the current company is not `OWNER_DEITY`, the target company is neither
`INVALID_OWNER` nor a valid company, the subtype is `>= NS_END`, the text is empty,
the reference type is none of the named ones, or the reference type is `NR_TILE` and
`p2` is not a valid tile, `NR_VEHICLE` and `p2` is not the id of a vehicle, and
likewise for a station, an industry, a town or an engine. -/
def CmdCustomNewsItem.isError (C : CommandEnv) (p1 p2 : Nat) (text : Option (List Nat)) :
    Prop :=
  C._current_company ≠ C.OWNER_DEITY ∨
  (C.GB p1 16 8 ≠ C.INVALID_OWNER ∧ C.Company_IsValidID (C.GB p1 16 8) = false) ∨
  NS_END ≤ C.GB p1 0 8 ∨
  C.StrEmpty text = true ∨
  C.NewsReferenceType_ofNat (C.GB p1 8 8) = none ∨
  (C.NewsReferenceType_ofNat (C.GB p1 8 8) = some .NR_TILE ∧ C.IsValidTile p2 = false) ∨
  (C.NewsReferenceType_ofNat (C.GB p1 8 8) = some .NR_VEHICLE ∧
    C.Vehicle_IsValidID p2 = false) ∨
  (C.NewsReferenceType_ofNat (C.GB p1 8 8) = some .NR_STATION ∧
    C.Station_IsValidID p2 = false) ∨
  (C.NewsReferenceType_ofNat (C.GB p1 8 8) = some .NR_INDUSTRY ∧
    C.Industry_IsValidID p2 = false) ∨
  (C.NewsReferenceType_ofNat (C.GB p1 8 8) = some .NR_TOWN ∧ C.Town_IsValidID p2 = false) ∨
  (C.NewsReferenceType_ofNat (C.GB p1 8 8) = some .NR_ENGINE ∧ C.Engine_IsValidID p2 = false)

instance (C : CommandEnv) (p1 p2 : Nat) (text : Option (List Nat)) :
    Decidable (CmdCustomNewsItem.isError C p1 p2 text) := by
  unfold CmdCustomNewsItem.isError
  infer_instance

/-- A sample instance of the surroundings of `CmdCustomNewsItem`: the script company
15 is current, company 0 is local and the only valid one, `p1` is cut with `sampleGB`,
the reference types are numbered in the order of the `switch`, every tile below 64
and vehicle 5 exist. -/
def sampleCommandEnv : CommandEnv :=
  { GB := sampleGB, _current_company := 15, _local_company := 0, OWNER_DEITY := 15,
    INVALID_OWNER := 255, DC_EXEC := 1, STR_NEWS_CUSTOM_ITEM := 777,
    NewsReferenceType_ofNat := fun n =>
      [NewsReferenceType.NR_NONE, .NR_TILE, .NR_VEHICLE, .NR_STATION, .NR_INDUSTRY, .NR_TOWN,
        .NR_ENGINE].get? n,
    StrEmpty := fun t => t.all fun str => str.isEmpty,
    Company_IsValidID := fun c => c == 0,
    IsValidTile := fun t => decide (t < 64),
    Vehicle_IsValidID := fun v => v == 5,
    Station_IsValidID := fun _ => false,
    Industry_IsValidID := fun _ => false,
    Town_IsValidID := fun _ => false,
    Engine_IsValidID := fun _ => false }

/-! ## Theorems: enumerations -/

theorem AdminUpdateFrequency.toNat_eq_two_pow (f : AdminUpdateFrequency) :
    f.toNat = 2 ^ f.bit := by
  cases f <;> rfl

theorem AdminUpdateFrequency.bit_injective :
    Function.Injective AdminUpdateFrequency.bit := by
  intro a b h
  cases a <;> cases b <;> first | rfl | (exact absurd h (by decide))

theorem testBit_freqMask (s : Finset AdminUpdateFrequency) (f : AdminUpdateFrequency) :
    (freqMask s).testBit f.bit = decide (f ∈ s) := by
  induction s using Finset.induction_on with
  | empty => simp [freqMask]
  | insert hnot ih =>
    rename_i a t
    unfold freqMask at ih ⊢
    rw [Finset.fold_insert hnot, Nat.testBit_lor, ih,
      AdminUpdateFrequency.toNat_eq_two_pow, Nat.testBit_two_pow]
    by_cases hfa : f = a
    · subst hfa; simp
    · have hb : a.bit ≠ f.bit := fun h => hfa (AdminUpdateFrequency.bit_injective h).symm
      simp [hfa, hb]

theorem freqMask_lt (s : Finset AdminUpdateFrequency) : freqMask s < 2 ^ 7 := by
  apply Nat.lt_pow_two_of_testBit
  intro i hi
  induction s using Finset.induction_on with
  | empty => simp [freqMask]
  | insert hnot ih =>
    rename_i a t
    unfold freqMask at ih ⊢
    rw [Finset.fold_insert hnot, Nat.testBit_lor, ih,
      AdminUpdateFrequency.toNat_eq_two_pow, Nat.testBit_two_pow]
    have : a.bit < 7 := by cases a <;> decide
    simp
    omega

/-- C1: the seven `AdminUpdateFrequency` constants are independent bits.  Each is a
power of two, two different constants have no bit in common, the bitmask of a
set of cadences determines the set (so every subset has exactly one bitmask and
different subsets have different ones), the union of all seven is `0x7F`, and every
such bitmask fits the `uint16` wire field. -/
theorem AdminUpdateFrequency_independent_bits :
    (∀ f : AdminUpdateFrequency, ∃ k, f.toNat = 2 ^ k) ∧
    (∀ a b : AdminUpdateFrequency, a ≠ b → a.toNat &&& b.toNat = 0) ∧
    (∀ a b : AdminUpdateFrequency, a.toNat = b.toNat → a = b) ∧
    (∀ (s : Finset AdminUpdateFrequency) (f : AdminUpdateFrequency),
      f ∈ s ↔ freqMask s &&& f.toNat ≠ 0) ∧
    Function.Injective freqMask ∧
    freqMask Finset.univ = 0x7F ∧
    (∀ s : Finset AdminUpdateFrequency, freqMask s ≤ 0x7F ∧ freqMask s < 2 ^ 16) := by
  have hmem : ∀ (s : Finset AdminUpdateFrequency) (f : AdminUpdateFrequency),
      f ∈ s ↔ freqMask s &&& f.toNat ≠ 0 := by
    intro s f
    rw [AdminUpdateFrequency.toNat_eq_two_pow, Nat.and_two_pow, testBit_freqMask]
    by_cases h : f ∈ s <;> simp [h]
  refine ⟨fun f => ⟨f.bit, f.toNat_eq_two_pow⟩, ?_, ?_, hmem, ?_, ?_, ?_⟩
  · intro a b hab
    cases a <;> cases b <;> first | exact absurd rfl hab | decide
  · intro a b h
    cases a <;> cases b <;> first | rfl | (exact absurd h (by decide))
  · intro s t hst
    ext f
    rw [hmem s f, hmem t f, hst]
  · decide
  · intro s
    have := freqMask_lt s
    omega

/-- C2: packet type tags are one-directional and byte-sized.  Every
`ADMIN_PACKET_ADMIN_*` tag is in `0..3` (below 100), every `ADMIN_PACKET_SERVER_*`
tag is in `100..116`, the 21 tags are pairwise distinct, each fits in one byte and
differs from `INVALID_ADMIN_PACKET`. -/
theorem PacketAdminType_tag_ranges :
    (∀ t : PacketAdminType, t.direction = .fromAdmin → t.toNat ≤ 3 ∧ t.toNat < 100) ∧
    (∀ t : PacketAdminType, t.direction = .fromServer → 100 ≤ t.toNat ∧ t.toNat ≤ 116) ∧
    (∀ t : PacketAdminType, t.direction = .fromAdmin ↔
      t ∈ [PacketAdminType.ADMIN_PACKET_ADMIN_JOIN, .ADMIN_PACKET_ADMIN_QUIT,
        .ADMIN_PACKET_ADMIN_UPDATE_FREQUENCY, .ADMIN_PACKET_ADMIN_POLL]) ∧
    Fintype.card PacketAdminType = 21 ∧
    Function.Injective PacketAdminType.toNat ∧
    (∀ t : PacketAdminType, t.toNat < 2 ^ 8 ∧ t.toNat ≠ INVALID_ADMIN_PACKET) ∧
    INVALID_ADMIN_PACKET = 0xFF := by
  refine ⟨by decide, by decide, by decide, by decide, ?_, by decide, rfl⟩
  intro a b h
  revert h
  revert a b
  decide

/-! ## Theorems: documented layouts -/

/-- C5, as stated, fails: the field sequence that `tcp_admin.h` documents for
`ADMIN_PACKET_SERVER_PROTOCOL` is not the one of the specification, and already the
payload with a single (category, bitmask) entry has a `bool` in front of the pair. -/
theorem documentedLayout_protocol_ne_spec :
    documentedLayout .ADMIN_PACKET_SERVER_PROTOCOL ≠ specProtocolLayout ∧
    (documentedLayout .ADMIN_PACKET_SERVER_PROTOCOL).expand 1 ≠ specProtocolLayout.expand 1 ∧
    (documentedLayout .ADMIN_PACKET_SERVER_PROTOCOL).expand 1 =
      [.uint8, .bool, .uint16, .uint16] := by
  decide

/-- C5, amended: the field list that `tcp_admin.h` documents for
`ADMIN_PACKET_SERVER_PROTOCOL` is `uint8` protocol version, `bool` further protocol
data follows, `uint16` update packet type, `uint16` frequencies, of which the part
from the `bool` on repeats.  In front of the repeating part it agrees with the
layout of the specification, and its repeating part is the one of the specification
with the `bool` in front of the (category, bitmask) pair. -/
theorem documentedLayout_protocol_fields :
    (documentedLayout .ADMIN_PACKET_SERVER_PROTOCOL).fields =
      [.uint8, .bool, .uint16, .uint16] ∧
    (documentedLayout .ADMIN_PACKET_SERVER_PROTOCOL).repeatFrom = some 1 ∧
    (documentedLayout .ADMIN_PACKET_SERVER_PROTOCOL).fixed = [.uint8] ∧
    (documentedLayout .ADMIN_PACKET_SERVER_PROTOCOL).group = [.bool, .uint16, .uint16] ∧
    specProtocolLayout.fixed = [.uint8] ∧
    specProtocolLayout.group = [.uint16, .uint16] ∧
    (documentedLayout .ADMIN_PACKET_SERVER_PROTOCOL).fixed = specProtocolLayout.fixed ∧
    (documentedLayout .ADMIN_PACKET_SERVER_PROTOCOL).group =
      .bool :: specProtocolLayout.group := by
  decide

/-! ## Theorems: the packet codec -/

theorem PacketAdminType_tag_ranges_aux (t : PacketAdminType) : t.toNat < 256 := by
  cases t <;> decide

theorem length_encLE (w n : Nat) : (encLE w n).length = w := by
  induction w generalizing n with
  | zero => rfl
  | succ w ih => simp [encLE, ih]

theorem decLE_encLE (w n : Nat) (h : n < 256 ^ w) : decLE (encLE w n) = n := by
  induction w generalizing n with
  | zero =>
    simp at h
    simp [encLE, decLE, h]
  | succ w ih =>
    have h2 : n / 256 < 256 ^ w := by
      apply Nat.div_lt_of_lt_mul
      rw [pow_succ] at h
      omega
    simp only [encLE, decLE, ih _ h2]
    omega

theorem readLE_encLE (w n : Nat) (rest : List Nat) (h : n < 256 ^ w) :
    readLE w (encLE w n ++ rest) = some (n, rest) := by
  have hl := length_encLE w n
  unfold readLE
  rw [if_neg (by simp [hl])]
  rw [List.take_left' hl, List.drop_left' hl, decLE_encLE w n h]

theorem decodeValue_encodeValue (w max : Nat) (ty : FieldTy) (v : Value) (b rest : List Nat)
    (h : encodeValue w max ty v = some b) :
    decodeValue w max ty (b ++ rest) = some (v, rest) := by
  cases ty <;> cases v <;> simp only [encodeValue] at h <;> try contradiction
  · split at h
    · cases h; simp [decodeValue, readLE_encLE 1 _ rest (by simpa using ‹_ < 2 ^ 8›)]
    · contradiction
  · split at h
    · cases h; simp [decodeValue, readLE_encLE 2 _ rest (by simpa using ‹_ < 2 ^ 16›)]
    · contradiction
  · split at h
    · cases h; simp [decodeValue, readLE_encLE 4 _ rest (by simpa using ‹_ < 2 ^ 32›)]
    · contradiction
  · cases h
    rename_i bb
    cases bb <;> simp [decodeValue]
  · split at h
    · rename_i s hs
      cases h
      simp only [decodeValue, List.append_assoc, readLE_encLE w _ (s ++ rest) hs.2]
      simp [hs.1]
    · contradiction

theorem decodeFields_encodeFields (w : Nat) (tys : List (FieldTy × Nat)) (vs : List Value)
    (b rest : List Nat) (h : encodeFields w tys vs = some b) :
    decodeFields w tys (b ++ rest) = some (vs, rest) := by
  induction tys generalizing vs b with
  | nil =>
    cases vs with
    | nil => simp only [encodeFields] at h; cases h; rfl
    | cons v vs => simp [encodeFields] at h
  | cons t tys ih =>
    obtain ⟨ty, max⟩ := t
    cases vs with
    | nil => simp [encodeFields] at h
    | cons v vs =>
      simp only [encodeFields] at h
      cases h1 : encodeValue w max ty v with
      | none => simp [h1] at h
      | some b1 =>
        cases h2 : encodeFields w tys vs with
        | none => simp [h1, h2] at h
        | some b2 =>
          simp only [h1, h2] at h
          cases h
          simp only [decodeFields, List.append_assoc,
            decodeValue_encodeValue w max ty v b1 (b2 ++ rest) h1, ih vs b2 h2]

theorem decodeGroups_encodeGroups (w : Nat) (tys : List (FieldTy × Nat))
    (gs : List (List Value)) (b rest : List Nat) (fuel : Nat)
    (h : encodeGroups w tys gs = some b) (hf : gs.length < fuel) :
    decodeGroups w tys fuel (b ++ rest) = some (gs, rest) := by
  induction gs generalizing b fuel with
  | nil =>
    simp only [encodeGroups] at h
    cases h
    cases fuel with
    | zero => simp at hf
    | succ fuel => simp [decodeGroups]
  | cons g gs ih =>
    simp only [encodeGroups] at h
    cases h1 : encodeFields w tys g with
    | none => simp [h1] at h
    | some b1 =>
      cases h2 : encodeGroups w tys gs with
      | none => simp [h1, h2] at h
      | some b2 =>
        simp only [h1, h2] at h
        cases h
        cases fuel with
        | zero => simp at hf
        | succ fuel =>
          have hf2 : gs.length < fuel := by simpa using hf
          simp only [decodeGroups, List.cons_append, List.append_assoc]
          simp only [one_ne_zero, if_false]
          rw [decodeFields_encodeFields w tys g b1 (b2 ++ rest) h1]
          simp only [ih b2 fuel h2 hf2]

theorem length_le_encodeGroups (w : Nat) (tys : List (FieldTy × Nat))
    (gs : List (List Value)) (b : List Nat) (h : encodeGroups w tys gs = some b) :
    gs.length < b.length := by
  induction gs generalizing b with
  | nil => simp only [encodeGroups] at h; cases h; simp
  | cons g gs ih =>
    simp only [encodeGroups] at h
    cases h1 : encodeFields w tys g with
    | none => simp [h1] at h
    | some b1 =>
      cases h2 : encodeGroups w tys gs with
      | none => simp [h1, h2] at h
      | some b2 =>
        simp only [h1, h2] at h
        cases h
        have := ih b2 h2
        simp
        omega

theorem PacketAdminType.ofNat?_toNat (t : PacketAdminType) :
    PacketAdminType.ofNat? t.toNat = some t := by
  cases t <;> rfl

theorem decodePayload_encodePayload (P : CodecParams) (p : Packet) (payload : List Nat)
    (h : encodePayload P p = some payload) : decodePayload P p.type payload = some p := by
  obtain ⟨t, vs, gs⟩ := p
  simp only [encodePayload] at h
  cases h1 : encodeFields P.strLenWidth (fixedFields P t) vs with
  | none => simp [h1] at h
  | some b1 =>
    simp only [h1] at h
    cases hr : (documentedLayout t).repeatFrom with
    | none =>
      simp only [hr] at h
      split at h
      · rename_i hg
        cases h
        have hg2 : gs = [] := hg
        subst hg2
        have := decodeFields_encodeFields _ _ _ _ [] h1
        simp only [List.append_nil] at this
        simp [decodePayload, this, hr]
      · contradiction
    | some k =>
      simp only [hr, Option.map_eq_some'] at h
      obtain ⟨b2, h2, rfl⟩ := h
      have hlen := length_le_encodeGroups _ _ _ _ h2
      have hg := decodeGroups_encodeGroups _ _ gs b2 [] (b2.length + 1) h2 (by omega)
      simp only [List.append_nil] at hg
      simp [decodePayload, decodeFields_encodeFields _ _ _ _ b2 h1, hr, hg]

theorem Decode_of_Encode (P : CodecParams) (p : Packet) (bytes rest : List Nat)
    (h : Encode P p = some bytes) : Decode P (bytes ++ rest) = .ok p rest := by
  simp only [Encode] at h
  cases hp : encodePayload P p with
  | none => simp [hp] at h
  | some payload =>
    simp only [hp] at h
    split at h
    · rename_i hsz
      cases h
      have htag : p.type.toNat < 256 ^ 1 := by
        have := (PacketAdminType_tag_ranges_aux p.type)
        simpa using this
      have hlen : 3 + payload.length < 256 ^ 2 := by
        have := hsz.2
        norm_num at this ⊢
        exact this
      have hL : (encLE 2 (3 + payload.length) ++ encLE 1 p.type.toNat ++ payload).length
          = 3 + payload.length := by
        simp [length_encLE]; omega
      simp only [Decode, List.append_assoc, readLE_encLE 2 _ _ hlen]
      rw [if_neg (by omega)]
      rw [if_neg (by simp [length_encLE]; omega)]
      rw [List.drop_left' (length_encLE 2 _), readLE_encLE 1 _ _ htag]
      simp only [PacketAdminType.ofNat?_toNat]
      have e1 : (encLE 2 (3 + payload.length) ++ (encLE 1 p.type.toNat ++ (payload ++ rest)))
          = (encLE 2 (3 + payload.length) ++ encLE 1 p.type.toNat ++ payload) ++ rest := by
        simp
      rw [e1, List.take_left' hL, List.drop_left' hL]
      have e2 : (encLE 2 (3 + payload.length) ++ encLE 1 p.type.toNat ++ payload).drop 3
          = payload := by
        apply List.drop_left'
        simp [length_encLE]
      rw [e2, decodePayload_encodePayload P p payload hp]
    · contradiction

theorem encodeValue_of_fits (w max : Nat) (ty : FieldTy) (v : Value)
    (h : v.fits w max ty = true) :
    ∃ b, encodeValue w max ty v = some b ∧ b.length = v.size w ty := by
  cases ty <;> cases v <;> first | (exfalso; simp [Value.fits] at h; done) | skip
  all_goals simp only [Value.fits, decide_eq_true_eq] at h
  · rename_i n
    exact ⟨encLE 1 n, by simp only [encodeValue, if_pos h],
      by simp [length_encLE, Value.size, FieldTy.width]⟩
  · rename_i n
    exact ⟨encLE 2 n, by simp only [encodeValue, if_pos h],
      by simp [length_encLE, Value.size, FieldTy.width]⟩
  · rename_i n
    exact ⟨encLE 4 n, by simp only [encodeValue, if_pos h],
      by simp [length_encLE, Value.size, FieldTy.width]⟩
  · exact ⟨_, rfl, by simp [Value.size, FieldTy.width]⟩
  · rename_i str
    exact ⟨encLE w str.length ++ str, by simp only [encodeValue, if_pos h],
      by simp [length_encLE, Value.size]⟩

theorem encodeFields_of_fit (w : Nat) (tys : List (FieldTy × Nat)) (vs : List Value)
    (h : fieldsFit w tys vs = true) :
    ∃ b, encodeFields w tys vs = some b ∧ b.length = fieldsSize w tys vs := by
  induction tys generalizing vs with
  | nil =>
    cases vs with
    | nil => exact ⟨[], rfl, rfl⟩
    | cons v vs => simp [fieldsFit] at h
  | cons t tys ih =>
    obtain ⟨ty, max⟩ := t
    cases vs with
    | nil => simp [fieldsFit] at h
    | cons v vs =>
      simp only [fieldsFit, Bool.and_eq_true] at h
      obtain ⟨b1, e1, l1⟩ := encodeValue_of_fits w max ty v h.1
      obtain ⟨b2, e2, l2⟩ := ih vs h.2
      exact ⟨b1 ++ b2, by simp only [encodeFields, e1, e2], by simp [fieldsSize, l1, l2]⟩

theorem encodeGroups_of_fit (w : Nat) (tys : List (FieldTy × Nat)) (gs : List (List Value))
    (h : (gs.all fun g => fieldsFit w tys g) = true) :
    ∃ b, encodeGroups w tys gs = some b ∧
      b.length = (gs.map fun g => 1 + fieldsSize w tys g).sum + 1 := by
  induction gs with
  | nil => exact ⟨[0], rfl, rfl⟩
  | cons g gs ih =>
    simp only [List.all_cons, Bool.and_eq_true] at h
    obtain ⟨b1, e1, l1⟩ := encodeFields_of_fit w tys g h.1
    obtain ⟨b2, e2, l2⟩ := ih h.2
    refine ⟨1 :: (b1 ++ b2), by simp only [encodeGroups, e1, e2], ?_⟩
    simp [l1, l2]
    omega

theorem encodePayload_of_wellTyped (P : CodecParams) (p : Packet)
    (h : p.wellTyped P = true) :
    ∃ b, encodePayload P p = some b ∧ 3 + b.length = p.frameLength P := by
  simp only [Packet.wellTyped, Bool.and_eq_true] at h
  obtain ⟨b1, e1, l1⟩ := encodeFields_of_fit _ _ _ h.1
  have h2 := h.2
  cases hr : (documentedLayout p.type).repeatFrom with
  | none =>
    simp only [hr, decide_eq_true_eq] at h2
    exact ⟨b1, by simp [encodePayload, e1, hr, h2], by simp [Packet.frameLength, hr, l1]⟩
  | some k =>
    simp only [hr] at h2
    obtain ⟨b2, e2, l2⟩ := encodeGroups_of_fit _ _ _ h2
    refine ⟨b1 ++ b2, by simp [encodePayload, e1, hr, e2], ?_⟩
    simp only [Packet.frameLength, hr, List.length_append, l1, l2]
    ring

/-- C3: round trip of the codec.  For every packet of a defined admin packet type
(its values are of the documented field types) whose frame keeps to the ceiling and
to the `uint16` length field, `Encode` produces a frame, and `Decode` of that frame
(followed by any further bytes) gives back the same packet and leaves the further
bytes. -/
theorem Decode_Encode_roundtrip (P : CodecParams) (p : Packet)
    (hty : p.wellTyped P = true) (hmax : p.frameLength P ≤ P.maxFrame)
    (h16 : p.frameLength P < 2 ^ 16) :
    ∃ bytes, Encode P p = some bytes ∧ bytes.length = p.frameLength P ∧
      ∀ rest, Decode P (bytes ++ rest) = .ok p rest := by
  obtain ⟨b, e, l⟩ := encodePayload_of_wellTyped P p hty
  have hE : Encode P p = some (encLE 2 (3 + b.length) ++ encLE 1 p.type.toNat ++ b) := by
    simp only [Encode, e]
    rw [if_pos ⟨by omega, by omega⟩]
  refine ⟨_, hE, ?_, fun rest => Decode_of_Encode P p _ rest hE⟩
  simp [length_encLE]
  omega

/-- Witness for C3: a protocol packet with two entries and 16-bit string prefixes. -/
theorem Decode_Encode_roundtrip_witness :
    (Packet.wellTyped ⟨1460, 2, fun _ _ => 80⟩
      ⟨.ADMIN_PACKET_SERVER_PROTOCOL, [.int 1], [[.int 0, .int 0x3F], [.int 1, .int 0x41]]⟩
      = true) ∧
    ∃ bytes, Encode ⟨1460, 2, fun _ _ => 80⟩
      ⟨.ADMIN_PACKET_SERVER_PROTOCOL, [.int 1], [[.int 0, .int 0x3F], [.int 1, .int 0x41]]⟩
        = some bytes ∧
      bytes.length = 15 ∧
      ∀ rest, Decode ⟨1460, 2, fun _ _ => 80⟩ (bytes ++ rest) =
        .ok ⟨.ADMIN_PACKET_SERVER_PROTOCOL, [.int 1], [[.int 0, .int 0x3F], [.int 1, .int 0x41]]⟩
          rest :=
  ⟨by decide, Decode_Encode_roundtrip ⟨1460, 2, fun _ _ => 80⟩
    ⟨.ADMIN_PACKET_SERVER_PROTOCOL, [.int 1], [[.int 0, .int 0x3F], [.int 1, .int 0x41]]⟩
    (by decide) (by decide) (by decide)⟩

/-! ## Theorems: the tick-driven dispatch -/

theorem OnTick_emission_due (boundary : DateCadence → Nat → Nat → Bool)
    (snapshot : AdminUpdateType → Nat → List Packet)
    (conns : List AdminConnection) (d : Dispatcher) (today : Nat) (e : Emission)
    (he : e ∈ (OnTick boundary snapshot conns d today).2) :
    ∃ k : DateCadence, e.conn.update_frequency.Matches e.category k.freq = true := by
  simp only [OnTick, List.mem_flatMap] at he
  obtain ⟨conn, _, c, _, hc⟩ := he
  split at hc
  · rename_i hany
    simp only [List.mem_map] at hc
    obtain ⟨p, _, rfl⟩ := hc
    simp only [List.any_eq_true] at hany
    obtain ⟨k, _, hk⟩ := hany
    exact ⟨k, hk⟩
  · simp at hc

theorem runTicks_emission_due (boundary : DateCadence → Nat → Nat → Bool)
    (snapshot : AdminUpdateType → Nat → List Packet)
    (conns : List AdminConnection) (d : Dispatcher) (ticks : List Nat) (e : Emission)
    (he : e ∈ runTicks boundary snapshot conns d ticks) :
    ∃ k : DateCadence, e.conn.update_frequency.Matches e.category k.freq = true := by
  induction ticks generalizing d with
  | nil => simp [runTicks] at he
  | cons today ticks ih =>
    simp only [runTicks, List.mem_append] at he
    rcases he with he | he
    · exact OnTick_emission_due boundary snapshot conns d today e he
    · exact ih _ he

/-- C4: a category whose only subscribed frequency bit is `ADMIN_FREQUENCY_POLL`
never receives a packet from the tick-driven dispatch path, for every set of
connections, every calendar, every snapshot provider and every sequence of ticks;
and `UPDATE_FREQUENCY` with just the poll bit on an active connection leaves
exactly that bit in the category's entry. -/
theorem poll_only_never_pushed (boundary : DateCadence → Nat → Nat → Bool)
    (snapshot : AdminUpdateType → Nat → List Packet) (advertised : SubscriptionTable)
    (conns : List AdminConnection) (d : Dispatcher) (ticks : List Nat)
    (conn : AdminConnection) (c : AdminUpdateType)
    (hpoll : conn.update_frequency.Get c = AdminUpdateFrequency.ADMIN_FREQUENCY_POLL.toNat) :
    (∀ e ∈ runTicks boundary snapshot conns d ticks, ¬ (e.conn = conn ∧ e.category = c)) ∧
    (∀ k : AdminConnection, k.status = .ADMIN_STATUS_ACTIVE →
      ∃ k2, Receive_ADMIN_UPDATE_FREQUENCY advertised k c.toNat
          AdminUpdateFrequency.ADMIN_FREQUENCY_POLL.toNat = some k2 ∧
        k2.update_frequency.Get c = AdminUpdateFrequency.ADMIN_FREQUENCY_POLL.toNat ∧
        ∀ e ∈ runTicks boundary snapshot conns d ticks, ¬ (e.conn = k2 ∧ e.category = c)) := by
  have key : ∀ conn : AdminConnection,
      conn.update_frequency.Get c = AdminUpdateFrequency.ADMIN_FREQUENCY_POLL.toNat →
      ∀ e ∈ runTicks boundary snapshot conns d ticks, ¬ (e.conn = conn ∧ e.category = c) := by
    intro conn hpoll e he ⟨h1, h2⟩
    obtain ⟨k, hk⟩ := runTicks_emission_due boundary snapshot conns d ticks e he
    rw [h1, h2] at hk
    simp only [SubscriptionTable.Matches, hpoll] at hk
    cases k <;> exact absurd hk (by decide)
  refine ⟨key conn hpoll, ?_⟩
  intro k hk
  have hc : AdminUpdateType.ofNat? c.toNat = some c := by cases c <;> rfl
  have hmask : ∀ a : Nat, (1 &&& a) ||| (1 &&& 1) = 1 := by
    intro a
    have h1 : (1 &&& a) ≤ 1 := Nat.and_le_left
    have h2 : (1 &&& 1) = 1 := by decide
    rw [h2]
    interval_cases h3 : (1 &&& a) <;> rfl
  have hget : (k.update_frequency.Set c
      ((AdminUpdateFrequency.ADMIN_FREQUENCY_POLL.toNat &&& advertised.Get c) |||
        (AdminUpdateFrequency.ADMIN_FREQUENCY_POLL.toNat &&&
          AdminUpdateFrequency.ADMIN_FREQUENCY_POLL.toNat))).Get c =
      AdminUpdateFrequency.ADMIN_FREQUENCY_POLL.toNat := by
    simp only [SubscriptionTable.Get, SubscriptionTable.Set, if_true]
    exact hmask _
  refine ⟨⟨k.status, k.update_frequency.Set c
      ((AdminUpdateFrequency.ADMIN_FREQUENCY_POLL.toNat &&& advertised.Get c) |||
        (AdminUpdateFrequency.ADMIN_FREQUENCY_POLL.toNat &&&
          AdminUpdateFrequency.ADMIN_FREQUENCY_POLL.toNat))⟩, ?_, hget, key _ hget⟩
  simp only [Receive_ADMIN_UPDATE_FREQUENCY, hk, hc]

/-- Witness for C4: a connection that asked for polling of the date category only,
two other subscribers, a calendar on which every cadence is always due, three
ticks. -/
theorem poll_only_never_pushed_witness :
    (SubscriptionTable.Get (SubscriptionTable.Set SubscriptionTable.init
        .ADMIN_UPDATE_DATE 1) .ADMIN_UPDATE_DATE =
      AdminUpdateFrequency.ADMIN_FREQUENCY_POLL.toNat) ∧
    ((∀ e ∈ runTicks (fun _ _ _ => true)
          (fun _ today => [⟨.ADMIN_PACKET_SERVER_DATE, [.int today], []⟩])
          [⟨.ADMIN_STATUS_ACTIVE, SubscriptionTable.Set SubscriptionTable.init
              .ADMIN_UPDATE_DATE 1⟩,
            ⟨.ADMIN_STATUS_ACTIVE, fun _ => 0x3E⟩] ⟨fun _ => 0⟩ [1, 2, 3],
        ¬ (e.conn = ⟨.ADMIN_STATUS_ACTIVE, SubscriptionTable.Set SubscriptionTable.init
              .ADMIN_UPDATE_DATE 1⟩ ∧ e.category = .ADMIN_UPDATE_DATE)) ∧
      (∀ k : AdminConnection, k.status = .ADMIN_STATUS_ACTIVE →
        ∃ k2, Receive_ADMIN_UPDATE_FREQUENCY (fun _ => 0x7F) k
            AdminUpdateType.ADMIN_UPDATE_DATE.toNat
            AdminUpdateFrequency.ADMIN_FREQUENCY_POLL.toNat = some k2 ∧
          k2.update_frequency.Get .ADMIN_UPDATE_DATE =
            AdminUpdateFrequency.ADMIN_FREQUENCY_POLL.toNat ∧
          ∀ e ∈ runTicks (fun _ _ _ => true)
            (fun _ today => [⟨.ADMIN_PACKET_SERVER_DATE, [.int today], []⟩])
            [⟨.ADMIN_STATUS_ACTIVE, SubscriptionTable.Set SubscriptionTable.init
                .ADMIN_UPDATE_DATE 1⟩,
              ⟨.ADMIN_STATUS_ACTIVE, fun _ => 0x3E⟩] ⟨fun _ => 0⟩ [1, 2, 3],
            ¬ (e.conn = k2 ∧ e.category = .ADMIN_UPDATE_DATE))) :=
  ⟨by decide, poll_only_never_pushed (fun _ _ _ => true)
    (fun _ today => [⟨.ADMIN_PACKET_SERVER_DATE, [.int today], []⟩]) (fun _ => 0x7F)
    [⟨.ADMIN_STATUS_ACTIVE, SubscriptionTable.Set SubscriptionTable.init .ADMIN_UPDATE_DATE 1⟩,
      ⟨.ADMIN_STATUS_ACTIVE, fun _ => 0x3E⟩] ⟨fun _ => 0⟩ [1, 2, 3]
    ⟨.ADMIN_STATUS_ACTIVE, SubscriptionTable.Set SubscriptionTable.init .ADMIN_UPDATE_DATE 1⟩
    .ADMIN_UPDATE_DATE (by decide)⟩

/-! ## Theorems: the text buffer -/

theorem u16_eq (n : Nat) (h : n < 2 ^ 16) : u16 n = n := by
  unfold u16
  omega

theorem length_writeAt (buf : List Nat) (pos : Nat) (data : List Nat)
    (h : pos + data.length ≤ buf.length) : (writeAt buf pos data).length = buf.length := by
  simp only [writeAt, List.length_append, List.length_take, List.length_drop]
  omega

theorem memmove_eq (buf : List Nat) (dst src n : Nat) (h : src + n ≤ buf.length) :
    memmove buf dst src n = buf.take dst ++ (buf.drop src).take n ++ buf.drop (dst + n) := by
  simp only [memmove, writeAt, List.length_take, List.length_drop]
  congr 2
  omega

theorem InsertTextBufferChar_buf (buf enc : List Nat) (cp len bytes : Nat)
    (hcp : cp ≤ bytes) (hb : bytes + len ≤ buf.length) (henc : enc.length = len) :
    writeAt (memmove buf (cp + len) cp (bytes - cp)) cp enc =
      buf.take cp ++ enc ++ (buf.drop cp).take (bytes - cp) ++ buf.drop (bytes + len) := by
  rw [memmove_eq buf _ _ _ (by omega)]
  have hT : (buf.take (cp + len)).length = cp + len := by
    rw [List.length_take]; omega
  simp only [writeAt, henc, List.append_assoc]
  rw [List.take_append_of_le_length (by omega), List.take_take,
    List.drop_left' hT]
  have e1 : min cp (cp + len) = cp := by omega
  have e2 : cp + len + (bytes - cp) = bytes + len := by omega
  rw [e1, e2]

/-- C6: `InsertTextBufferChar` for a character `key` whose encoding is
`len = Utf8CharLen(key)` bytes long.  For every `Textbuf` it returns true exactly when
`bytes + len <= max_bytes` and `chars + 1 <= max_chars`, and when it returns false the
`Textbuf` is unchanged; on a `Textbuf` in its kept state, when it returns true the
buffer is the old text up to the caret, the encoding of `key`, the rest of the old
text (shifted right by `len`) and the untouched bytes behind it, `bytes` and
`caretpos` have grown by `len` and `chars` by 1, and the `Textbuf` is in its kept
state again. -/
theorem InsertTextBufferChar_spec (H : TextHelpers) (tb : Textbuf) (key : Nat)
    (hlen : H.Utf8CharLen key < 2 ^ 16)
    (henc : (H.Utf8Encode key).length = H.Utf8CharLen key) :
    ((InsertTextBufferChar H tb key).1 = true ↔
      tb.bytes + H.Utf8CharLen key ≤ tb.max_bytes ∧ tb.chars + 1 ≤ tb.max_chars) ∧
    ((InsertTextBufferChar H tb key).1 = false → (InsertTextBufferChar H tb key).2 = tb) ∧
    (tb.WF → (InsertTextBufferChar H tb key).1 = true →
      (InsertTextBufferChar H tb key).2.buf =
        tb.buf.take tb.caretpos ++ H.Utf8Encode key ++
          (tb.buf.drop tb.caretpos).take (tb.bytes - tb.caretpos) ++
          tb.buf.drop (tb.bytes + H.Utf8CharLen key) ∧
      (InsertTextBufferChar H tb key).2.buf.length = tb.buf.length ∧
      (InsertTextBufferChar H tb key).2.bytes = tb.bytes + H.Utf8CharLen key ∧
      (InsertTextBufferChar H tb key).2.caretpos = tb.caretpos + H.Utf8CharLen key ∧
      (InsertTextBufferChar H tb key).2.chars = tb.chars + 1 ∧
      (InsertTextBufferChar H tb key).2.max_bytes = tb.max_bytes ∧
      (InsertTextBufferChar H tb key).2.max_chars = tb.max_chars ∧
      (InsertTextBufferChar H tb key).2.WF) := by
  have hl : u16 (H.Utf8CharLen key) = H.Utf8CharLen key := u16_eq _ hlen
  by_cases hc : tb.bytes + H.Utf8CharLen key ≤ tb.max_bytes ∧ tb.chars + 1 ≤ tb.max_chars
  · refine ⟨?_, ?_, ?_⟩
    · simp only [InsertTextBufferChar, hl, if_pos hc, true_iff]
      exact hc
    · simp only [InsertTextBufferChar, hl, if_pos hc, Bool.true_eq_false, false_implies]
    intro hwf _
    obtain ⟨h1, h2, h3, h4, h5, h6, h7⟩ := hwf
    have hbuf := InsertTextBufferChar_buf tb.buf (H.Utf8Encode key) tb.caretpos
      (H.Utf8CharLen key) tb.bytes (by omega) (by omega) henc
    have hlenbuf : (writeAt (memmove tb.buf (tb.caretpos + H.Utf8CharLen key) tb.caretpos
        (tb.bytes - tb.caretpos)) tb.caretpos (H.Utf8Encode key)).length = tb.buf.length := by
      rw [hbuf]
      simp only [List.length_append, List.length_take, List.length_drop, henc]
      omega
    simp only [InsertTextBufferChar, hl, if_pos hc, hbuf, Textbuf.WF, hlenbuf]
    refine ⟨trivial, ?_, ?_, ?_, ?_, trivial, trivial, ?_⟩
    · rw [← hbuf, hlenbuf]
    · exact u16_eq _ (by omega)
    · exact u16_eq _ (by omega)
    · exact u16_eq _ (by omega)
    · rw [u16_eq (tb.bytes + _) (by omega), u16_eq (tb.caretpos + _) (by omega),
        u16_eq (tb.chars + 1) (by omega), ← hbuf, hlenbuf]
      exact ⟨h1, h2, h3, hc.1, by omega, by omega, hc.2⟩
  · simp only [InsertTextBufferChar, hl, if_neg hc, false_iff, not_false_eq_true,
      true_implies, Bool.false_eq_true, false_implies, implies_true, and_true, true_and]
    exact hc

/-- Witness for C6: inserting the euro sign (three bytes) behind the `é` of the
sample buffer. -/
theorem InsertTextBufferChar_spec_witness :
    sampleHelpers.Utf8CharLen 0x20AC < 2 ^ 16 ∧
    (sampleHelpers.Utf8Encode 0x20AC).length = sampleHelpers.Utf8CharLen 0x20AC ∧
    sampleTextbuf.WF ∧
    (InsertTextBufferChar sampleHelpers sampleTextbuf 0x20AC).1 = true ∧
    (InsertTextBufferChar sampleHelpers sampleTextbuf 0x20AC).2.buf =
      [97, 195, 169, 226, 130, 172, 98, 0] ∧
    (InsertTextBufferChar sampleHelpers sampleTextbuf 0x20AC).2.buf =
      sampleTextbuf.buf.take sampleTextbuf.caretpos ++ sampleHelpers.Utf8Encode 0x20AC ++
        (sampleTextbuf.buf.drop sampleTextbuf.caretpos).take
          (sampleTextbuf.bytes - sampleTextbuf.caretpos) ++
        sampleTextbuf.buf.drop (sampleTextbuf.bytes + sampleHelpers.Utf8CharLen 0x20AC) :=
  ⟨by decide, by decide, by decide, by decide, by decide,
    ((InsertTextBufferChar_spec sampleHelpers sampleTextbuf 0x20AC (by decide) (by decide)).2.2
      (by decide) (by decide)).1⟩

/-- C8 fails on the code: with the caret already at the start of the text, `WKC_HOME`
makes `MoveTextBufferPos` return true although the `Textbuf`, and so the caret
(`caretpos`, `caretxoffs`), is the same after the call, whatever the helpers are; the
same happens for `WKC_END` with the caret at the end.  In the `WKC_LEFT` branch the
same position gives false. -/
theorem MoveTextBufferPos_true_without_change :
    sampleTextbufAtHome.WF ∧ sampleTextbufAtEnd.WF ∧
    (∀ H : TextHelpers,
      MoveTextBufferPos H sampleTextbufAtHome .WKC_HOME = (true, sampleTextbufAtHome)) ∧
    (∀ H : TextHelpers,
      MoveTextBufferPos H sampleTextbufAtEnd .WKC_END = (true, sampleTextbufAtEnd)) ∧
    (∀ H : TextHelpers,
      MoveTextBufferPos H sampleTextbufAtHome .WKC_LEFT = (false, sampleTextbufAtHome)) ∧
    ¬ (∀ (H : TextHelpers) (tb : Textbuf) (navmode : WindowKeyCodes),
      (MoveTextBufferPos H tb navmode).1 = true ↔
        ((MoveTextBufferPos H tb navmode).2.caretpos,
          (MoveTextBufferPos H tb navmode).2.caretxoffs) ≠ (tb.caretpos, tb.caretxoffs)) := by
  refine ⟨by decide, by decide, fun _ => rfl, fun _ => rfl, fun _ => rfl, ?_⟩
  intro h
  have := (h sampleHelpers sampleTextbufAtHome .WKC_HOME).1 rfl
  exact this rfl

/-! ## Theorems: the news queue -/

theorem heapSet_same (heap : Nat → Option NewsItem) (a : Nat) (v : Option NewsItem) :
    heapSet heap a v a = v := by
  simp [heapSet]

theorem heapSet_ne (heap : Nat → Option NewsItem) (a b : Nat) (v : Option NewsItem)
    (h : b ≠ a) : heapSet heap a v b = heap b := by
  simp [heapSet, h]

theorem headOr_append (l1 l2 : List Nat) (q : Option Nat) :
    headOr (l1 ++ l2) q = headOr l1 (headOr l2 q) := by
  cases l1 <;> rfl

theorem lastOr_cons (a : Nat) (l : List Nat) (p : Option Nat) :
    lastOr (a :: l) p = lastOr l (some a) := by
  cases l with
  | nil => rfl
  | cons b l =>
    have h : (b :: l).getLast? = some ((b :: l).getLast (by simp)) :=
      List.getLast?_eq_getLast _ _
    simp only [lastOr, List.getLast?_cons_cons, h]

theorem lastOr_none (l : List Nat) : lastOr l none = l.getLast? := by
  unfold lastOr
  cases l.getLast? <;> rfl

theorem headOr_none (l : List Nat) : headOr l none = l.head? := by
  cases l <;> rfl

theorem Seg.append_iff (heap : Nat → Option NewsItem) (p q : Option Nat) (l1 l2 : List Nat) :
    Seg heap p (l1 ++ l2) q ↔ Seg heap p l1 (headOr l2 q) ∧ Seg heap (lastOr l1 p) l2 q := by
  induction l1 generalizing p with
  | nil => simp [Seg, lastOr]
  | cons a l1 ih =>
    have e : Seg heap p (a :: l1 ++ l2) q ↔
        ∃ n, heap a = some n ∧ n.prev = p ∧ n.next = headOr (l1 ++ l2) q ∧
          Seg heap (some a) (l1 ++ l2) q := Iff.rfl
    have e2 : Seg heap p (a :: l1) (headOr l2 q) ↔
        ∃ n, heap a = some n ∧ n.prev = p ∧ n.next = headOr l1 (headOr l2 q) ∧
          Seg heap (some a) l1 (headOr l2 q) := Iff.rfl
    rw [e, e2, lastOr_cons, headOr_append]
    constructor
    · rintro ⟨n, h1, h2, h3, h4⟩
      rw [ih] at h4
      exact ⟨⟨n, h1, h2, h3, h4.1⟩, h4.2⟩
    · rintro ⟨⟨n, h1, h2, h3, h4⟩, h5⟩
      exact ⟨n, h1, h2, h3, (ih _).2 ⟨h4, h5⟩⟩

theorem Seg.congr (heap heap2 : Nat → Option NewsItem) (p q : Option Nat) (l : List Nat)
    (hsame : ∀ b ∈ l, heap2 b = heap b) (h : Seg heap p l q) : Seg heap2 p l q := by
  induction l generalizing p with
  | nil => trivial
  | cons a l ih =>
    obtain ⟨n, h1, h2, h3, h4⟩ := h
    refine ⟨n, ?_, h2, h3, ih _ (fun b hb => hsame b (List.mem_cons_of_mem _ hb)) h4⟩
    rw [hsame a (List.mem_cons_self _ _), h1]

theorem Seg.live (heap : Nat → Option NewsItem) (p q : Option Nat) (l : List Nat)
    (h : Seg heap p l q) (a : Nat) (ha : a ∈ l) : ∃ n, heap a = some n := by
  induction l generalizing p with
  | nil => simp at ha
  | cons b l ih =>
    obtain ⟨n, h1, _, _, h4⟩ := h
    rcases List.mem_cons.1 ha with rfl | ha
    · exact ⟨n, h1⟩
    · exact ih _ h4 ha

theorem Seg.set_last (heap heap2 : Nat → Option NewsItem) (p q q2 : Option Nat)
    (init : List Nat) (x : Nat) (h : Seg heap p (init ++ [x]) q)
    (hsame : ∀ b ∈ init, heap2 b = heap b)
    (hx : ∀ n, heap x = some n → heap2 x = some { n with next := q2 }) :
    Seg heap2 p (init ++ [x]) q2 := by
  rw [Seg.append_iff] at h ⊢
  obtain ⟨h1, n, h2, h3, _, _⟩ := h
  exact ⟨Seg.congr heap heap2 _ _ _ hsame h1, { n with next := q2 }, hx n h2, h3, rfl, trivial⟩

theorem Seg.set_head (heap heap2 : Nat → Option NewsItem) (p p2 q : Option Nat)
    (y : Nat) (rest : List Nat) (h : Seg heap p (y :: rest) q)
    (hsame : ∀ b ∈ rest, heap2 b = heap b)
    (hy : ∀ n, heap y = some n → heap2 y = some { n with prev := p2 }) :
    Seg heap2 p2 (y :: rest) q := by
  obtain ⟨n, h1, _, h3, h4⟩ := h
  exact ⟨{ n with prev := p2 }, hy n h1, rfl, h3, Seg.congr heap heap2 _ _ _ hsame h4⟩

theorem walkNext_of_Seg (heap : Nat → Option NewsItem) (p : Option Nat) (l : List Nat)
    (fuel : Nat) (h : Seg heap p l none) (hf : l.length ≤ fuel) :
    walkNext heap fuel l.head? = l := by
  induction l generalizing p fuel with
  | nil => cases fuel <;> rfl
  | cons a l ih =>
    obtain ⟨n, h1, _, h3, h4⟩ := h
    cases fuel with
    | zero => simp at hf
    | succ fuel =>
      simp only [List.head?_cons, walkNext, h1, h3, headOr_none]
      rw [ih (some a) fuel h4 (by simpa using hf)]

theorem IsQueue.not_mem_of_fresh (s : NewsState) (l : List Nat) (hq : IsQueue s l) (ni : Nat)
    (hfresh : s.heap ni = none) : ni ∉ l := by
  intro h
  obtain ⟨n, hn⟩ := Seg.live _ _ _ _ hq.2.1 ni h
  rw [hfresh] at hn
  cases hn

theorem AddNewsItem_empty (env : NewsEnv) (s : NewsState) (ni : Nat) (string : Nat)
    (subtype : NewsSubtype) (reftype1 : NewsReferenceType) (ref1 : Nat)
    (reftype2 : NewsReferenceType) (ref2 : Nat) (free_data : Option Nat)
    (hq : IsQueue s []) (hm : env._game_mode ≠ .GM_MENU) :
    ∃ s2 n, AddNewsItem env s ni string subtype reftype1 ref1 reftype2 ref2 free_data = some s2 ∧
      s2.heap ni = some n ∧ (∀ b, b ≠ ni → s2.heap b = s.heap b) ∧
      n.prev = none ∧ n.next = none ∧
      n.string_id = string ∧ n.subtype = subtype ∧ n.reftype1 = reftype1 ∧ n.ref1 = ref1 ∧
      n.reftype2 = reftype2 ∧ n.ref2 = ref2 ∧ n.date = env._date ∧ n.free_data = free_data ∧
      s2._total_news = 1 ∧ s2._oldest_news = some ni ∧ s2._latest_news = some ni ∧
      s2._forced_news = s._forced_news ∧ s2._current_news = s._current_news ∧
      s2._statusbar_news_item = s._statusbar_news_item := by
  obtain ⟨_, _, hold, hlat, htot, _, _, _, _⟩ := hq
  simp only [List.head?_nil, List.getLast?_nil, List.length_nil] at hold hlat htot
  simp only [AddNewsItem, if_neg hm, htot, hold, NewsState.setPrev, NewsState.setNext,
    heapSet_same, if_true]
  refine ⟨_, _, rfl, heapSet_same _ _ _, ?_, rfl, rfl, rfl, rfl, rfl, rfl, rfl, rfl, rfl, rfl,
    rfl, rfl, rfl, rfl, rfl, rfl⟩
  intro b hb
  simp only [heapSet_ne _ _ _ _ hb]

theorem AddNewsItem_snoc (env : NewsEnv) (s : NewsState) (ni : Nat) (string : Nat)
    (subtype : NewsSubtype) (reftype1 : NewsReferenceType) (ref1 : Nat)
    (reftype2 : NewsReferenceType) (ref2 : Nat) (free_data : Option Nat)
    (init : List Nat) (x : Nat)
    (hq : IsQueue s (init ++ [x])) (hfresh : s.heap ni = none)
    (hroom : (init ++ [x]).length + 1 < 2 ^ 32) (hm : env._game_mode ≠ .GM_MENU) :
    ∃ s2 n nx, AddNewsItem env s ni string subtype reftype1 ref1 reftype2 ref2 free_data = some s2 ∧
      s2.heap ni = some n ∧ s.heap x = some nx ∧ s2.heap x = some { nx with next := some ni } ∧
      (∀ b, b ≠ ni → b ≠ x → s2.heap b = s.heap b) ∧
      n.prev = some x ∧ n.next = none ∧
      n.string_id = string ∧ n.subtype = subtype ∧ n.reftype1 = reftype1 ∧ n.ref1 = ref1 ∧
      n.reftype2 = reftype2 ∧ n.ref2 = ref2 ∧ n.date = env._date ∧ n.free_data = free_data ∧
      s2._total_news = s._total_news + 1 ∧ s2._oldest_news = s._oldest_news ∧
      s2._latest_news = some ni ∧
      s2._forced_news = s._forced_news ∧ s2._current_news = s._current_news ∧
      s2._statusbar_news_item = s._statusbar_news_item := by
  have hni := IsQueue.not_mem_of_fresh s _ hq ni hfresh
  obtain ⟨_, hseg, hold, hlat, htot, _, _, _, _⟩ := hq
  have hxni : x ≠ ni := by
    rintro rfl
    exact hni (by simp)
  rw [Seg.append_iff] at hseg
  obtain ⟨_, nx, hx, _, hxnext, _⟩ := hseg
  have hlat2 : s._latest_news = some x := by rw [hlat]; simp
  have htot0 : s._total_news ≠ 0 := by rw [htot]; simp
  have htot1 : (s._total_news + 1) % 2 ^ 32 = s._total_news + 1 := by
    apply Nat.mod_eq_of_lt
    rw [htot]; exact hroom
  have hxnext2 : nx.next = none := hxnext
  have e1 : heapSet s.heap ni
      (some { prev := none, next := none, string_id := string, date := env._date,
              subtype := subtype,
              flags := if env._cur_year ≥ env.coloured_news_year then
                { (_news_subtype_data subtype).flags with NF_INCOLOUR := true }
                else (_news_subtype_data subtype).flags,
              reftype1 := reftype1, reftype2 := reftype2, ref1 := ref1, ref2 := ref2,
              free_data := free_data, params := env.dparams }) x = some nx := by
    rw [heapSet_ne _ _ _ _ hxni, hx]
  simp only [AddNewsItem, if_neg hm, if_neg htot0, hlat2, e1, hxnext2, if_true,
    NewsState.setNext, NewsState.setPrev, heapSet_same, heapSet_ne _ _ _ _ hxni.symm, htot1]
  refine ⟨_, _, nx, rfl, heapSet_same _ _ _, hx, ?_, ?_, rfl, rfl, rfl, rfl, rfl, rfl,
    rfl, rfl, rfl, rfl, rfl, rfl, rfl, rfl, rfl, rfl⟩
  · simp only [heapSet_ne _ _ _ _ hxni, heapSet_same]
  · intro b hb1 hb2
    simp only [heapSet_ne _ _ _ _ hb1, heapSet_ne _ _ _ _ hb2]

theorem AddNewsItem_spec_snoc_aux (env : NewsEnv) (s : NewsState) (init : List Nat) (x ni : Nat)
    (string : Nat) (subtype : NewsSubtype) (reftype1 : NewsReferenceType) (ref1 : Nat)
    (reftype2 : NewsReferenceType) (ref2 : Nat) (free_data : Option Nat)
    (hq : IsQueue s (init ++ [x])) (hfresh : s.heap ni = none)
    (hroom : (init ++ [x]).length + 1 < 2 ^ 32) (hm : env._game_mode ≠ .GM_MENU)
    (hni : ni ∉ init ++ [x])
    (hfin : ∀ s2 : NewsState, IsQueue s2 (init ++ [x] ++ [ni]) →
      walkNext s2.heap ((init ++ [x]).length + 1) s2._oldest_news =
        walkNext s.heap (init ++ [x]).length s._oldest_news ++ [ni]) :
    ∃ s2 n, AddNewsItem env s ni string subtype reftype1 ref1 reftype2 ref2 free_data
        = some s2 ∧
      IsQueue s2 (init ++ [x] ++ [ni]) ∧
      s2._total_news = s._total_news + 1 ∧ s2._latest_news = some ni ∧
      s2.heap ni = some n ∧ n.next = none ∧ n.prev = s._latest_news ∧
      n.string_id = string ∧ n.subtype = subtype ∧ n.reftype1 = reftype1 ∧ n.ref1 = ref1 ∧
      n.reftype2 = reftype2 ∧ n.ref2 = ref2 ∧ n.date = env._date ∧
      n.free_data = free_data ∧
      (init ++ [x] = [] → s2._oldest_news = some ni) ∧
      (init ++ [x] ≠ [] → s2._oldest_news = s._oldest_news) ∧
      (∀ b, b ≠ ni → (s2.heap b).map NewsItem.content = (s.heap b).map NewsItem.content) ∧
      walkNext s2.heap ((init ++ [x]).length + 1) s2._oldest_news =
        walkNext s.heap (init ++ [x]).length s._oldest_news ++ [ni] := by
  obtain ⟨s2, n, nx, h1, h2, hx, hx2, h3, h4, h5, h6, h7, h8, h9, h10, h11, h12, h13, h14,
    h15, h16, h17, h18, h19⟩ := AddNewsItem_snoc env s ni string subtype reftype1 ref1
      reftype2 ref2 free_data init x hq hfresh hroom hm
  obtain ⟨hnd, hseg, hold, hlat, htot, _, hf, hc, hsb⟩ := hq
  have hxni : x ≠ ni := by
    rintro rfl
    exact hni (by simp)
  have hxinit : x ∉ init := by
    intro h
    have := List.nodup_append.1 hnd
    exact this.2.2 h (by simp)
  have hQ : IsQueue s2 (init ++ [x] ++ [ni]) := by
    refine ⟨?_, ?_, ?_, by simp [h16], ?_, by simpa using hroom, ?_, ?_, ?_⟩
    · rw [List.nodup_append]
      refine ⟨hnd, by simp, ?_⟩
      intro a ha hb
      simp only [List.mem_singleton] at hb
      subst hb
      exact hni ha
    · rw [Seg.append_iff]
      constructor
      · apply Seg.set_last s.heap s2.heap none none (some ni) init x hseg
        · intro b hb
          apply h3 b
          · rintro rfl; exact hni (by simp [hb])
          · rintro rfl; exact hxinit hb
        · intro n2 hn2
          rw [hx] at hn2
          cases hn2
          exact hx2
      · refine ⟨n, h2, ?_, h5, trivial⟩
        rw [h4, lastOr_none]; simp
    · rw [h15, hold]
      cases init <;> simp
    · rw [h14, htot]; simp
    · intro a ha; rw [h17] at ha; exact List.mem_append_left _ (hf a ha)
    · intro a ha; rw [h18] at ha; exact List.mem_append_left _ (hc a ha)
    · intro a ha; rw [h19] at ha; exact List.mem_append_left _ (hsb a ha)
  refine ⟨s2, n, h1, hQ, h14, h16, h2, h5, ?_, h6, h7, h8, h9, h10, h11, h12, h13,
    fun h => absurd h (by simp), fun _ => h15, ?_, hfin s2 hQ⟩
  · rw [h4, hlat]; simp
  · intro b hb
    by_cases hbx : b = x
    · subst hbx
      rw [hx2, hx]
      rfl
    · rw [h3 b hb hbx]


/-- C9: `AddNewsItem` appends at the tail of the news queue.  On a queue that holds
the items `l`, with `ni` the address of the new item: when the game mode is not
`GM_MENU` the call returns, `_total_news` has grown by exactly 1, the new item is
`_latest_news`, its `next` is `NULL` and its `prev` the former latest item, it is also
`_oldest_news` if the queue was empty, the queue holds the former items in their
order followed by the new one (their contents are unchanged), and the new item
carries the given string, subtype, references and the current date; when the game
mode is `GM_MENU` the state is unchanged. -/
theorem AddNewsItem_spec (env : NewsEnv) (s : NewsState) (l : List Nat) (ni : Nat)
    (string : Nat) (subtype : NewsSubtype) (reftype1 : NewsReferenceType) (ref1 : Nat)
    (reftype2 : NewsReferenceType) (ref2 : Nat) (free_data : Option Nat)
    (hq : IsQueue s l) (hfresh : s.heap ni = none) (hroom : l.length + 1 < 2 ^ 32) :
    (env._game_mode = .GM_MENU →
      AddNewsItem env s ni string subtype reftype1 ref1 reftype2 ref2 free_data = some s) ∧
    (env._game_mode ≠ .GM_MENU →
      ∃ s2 n, AddNewsItem env s ni string subtype reftype1 ref1 reftype2 ref2 free_data
          = some s2 ∧
        IsQueue s2 (l ++ [ni]) ∧
        s2._total_news = s._total_news + 1 ∧ s2._latest_news = some ni ∧
        s2.heap ni = some n ∧ n.next = none ∧ n.prev = s._latest_news ∧
        n.string_id = string ∧ n.subtype = subtype ∧ n.reftype1 = reftype1 ∧ n.ref1 = ref1 ∧
        n.reftype2 = reftype2 ∧ n.ref2 = ref2 ∧ n.date = env._date ∧
        n.free_data = free_data ∧
        (l = [] → s2._oldest_news = some ni) ∧
        (l ≠ [] → s2._oldest_news = s._oldest_news) ∧
        (∀ b, b ≠ ni → (s2.heap b).map NewsItem.content = (s.heap b).map NewsItem.content) ∧
        walkNext s2.heap (l.length + 1) s2._oldest_news =
          walkNext s.heap l.length s._oldest_news ++ [ni]) := by
  constructor
  · intro hm
    simp [AddNewsItem, hm]
  intro hm
  have hni := IsQueue.not_mem_of_fresh s _ hq ni hfresh
  have hwalk0 : walkNext s.heap l.length s._oldest_news = l := by
    rw [hq.2.2.1]
    exact walkNext_of_Seg s.heap none l l.length hq.2.1 (le_refl _)
  have hfin : ∀ s2 : NewsState, IsQueue s2 (l ++ [ni]) →
      walkNext s2.heap (l.length + 1) s2._oldest_news =
        walkNext s.heap l.length s._oldest_news ++ [ni] := by
    intro s2 h2
    rw [hwalk0, h2.2.2.1]
    exact walkNext_of_Seg s2.heap none (l ++ [ni]) _ h2.2.1 (by simp)
  rcases List.eq_nil_or_concat l with rfl | ⟨init, x, hlx⟩
  rotate_left
  · rw [List.concat_eq_append] at hlx
    subst hlx
    exact AddNewsItem_spec_snoc_aux env s init x ni string subtype reftype1 ref1 reftype2 ref2
      free_data hq hfresh hroom hm hni hfin
  · obtain ⟨s2, n, h1, h2, h3, h4, h5, h6, h7, h8, h9, h10, h11, h12, h13, h14, h15, h16, h17,
      h18, h19⟩ := AddNewsItem_empty env s ni string subtype reftype1 ref1 reftype2 ref2
        free_data hq hm
    obtain ⟨_, _, hold, hlat, htot, _, hf, hc, hsb⟩ := hq
    have hQ : IsQueue s2 ([] ++ [ni]) := by
      refine ⟨by simp, ⟨n, h2, h4, h5, trivial⟩, by simp [h15], by simp [h16], by simp [h14],
        by simp, ?_, ?_, ?_⟩
      · intro a ha; rw [h17] at ha; exact absurd (hf a ha) (by simp)
      · intro a ha; rw [h18] at ha; exact absurd (hc a ha) (by simp)
      · intro a ha; rw [h19] at ha; exact absurd (hsb a ha) (by simp)
    refine ⟨s2, n, h1, hQ, ?_, h16, h2, h5, ?_, h6, h7, h8, h9, h10, h11, h12, h13,
      fun _ => h15, fun h => absurd rfl h, ?_, hfin s2 hQ⟩
    · rw [h14, htot]; rfl
    · rw [h4, hlat]; rfl
    · intro b hb; rw [h3 b hb]

theorem IsQueue_sampleQueue : IsQueue sampleQueue [10, 20, 30] :=
  ⟨by decide, ⟨_, rfl, rfl, rfl, _, rfl, rfl, rfl, _, rfl, rfl, rfl, trivial⟩, rfl, rfl, rfl,
    by norm_num, fun _ h => Option.noConfusion h, fun _ h => Option.noConfusion h,
    fun _ h => Option.noConfusion h⟩

/-- Witness for C9: a fourth item behind the three of the sample queue (the branch
that links the new item behind the former latest one), and the first news item of a
game. -/
theorem AddNewsItem_spec_witness :
    IsQueue sampleQueue [10, 20, 30] ∧ sampleQueue.heap 40 = none ∧
    (∃ s2 n, AddNewsItem sampleEnv sampleQueue 40 400 .NS_ADVICE .NR_VEHICLE 5 .NR_NONE 0 none
        = some s2 ∧
      IsQueue s2 [10, 20, 30, 40] ∧ s2._total_news = 4 ∧ s2._latest_news = some 40 ∧
      s2._oldest_news = some 10 ∧ s2.heap 40 = some n ∧ n.next = none ∧ n.prev = some 30 ∧
      n.string_id = 400 ∧ n.reftype1 = .NR_VEHICLE ∧ n.ref1 = 5 ∧ n.date = 1000 ∧
      walkNext s2.heap 4 s2._oldest_news = [10, 20, 30, 40]) ∧
    IsQueue NewsState.empty [] ∧ NewsState.empty.heap 10 = none ∧
    ∃ s2, AddNewsItem sampleEnv NewsState.empty 10 100 .NS_ADVICE .NR_VEHICLE 5 .NR_NONE 0 none
        = some s2 ∧
      IsQueue s2 [10] ∧ s2._total_news = 1 ∧ s2._latest_news = some 10 ∧
      s2._oldest_news = some 10 := by
  have hw : walkNext sampleQueue.heap 3 sampleQueue._oldest_news = [10, 20, 30] := by decide
  obtain ⟨t2, m, g1, g2, g3, g4, g5, g6, g7, g8, _, g10, g11, _, _, g14, _, _, g17, _, g19⟩ :=
    (AddNewsItem_spec sampleEnv sampleQueue [10, 20, 30] 40 400 .NS_ADVICE .NR_VEHICLE 5
      .NR_NONE 0 none IsQueue_sampleQueue rfl (by norm_num)).2 (by decide)
  have g20 : walkNext t2.heap 4 t2._oldest_news = [10, 20, 30] ++ [40] :=
    g19.trans (congrArg (fun r => r ++ [40]) hw)
  have hq : IsQueue NewsState.empty [] :=
    ⟨List.nodup_nil, trivial, rfl, rfl, rfl, by norm_num, fun _ h => Option.noConfusion h,
      fun _ h => Option.noConfusion h, fun _ h => Option.noConfusion h⟩
  obtain ⟨s2, n, h⟩ := (AddNewsItem_spec sampleEnv NewsState.empty [] 10 100 .NS_ADVICE
    .NR_VEHICLE 5 .NR_NONE 0 none hq rfl (by norm_num)).2 (by decide)
  exact ⟨IsQueue_sampleQueue, rfl,
    ⟨t2, m, g1, g2, g3, g4, (g17 (by decide)).trans rfl, g5, g6, g7, g8, g10, g11, g14, g20⟩,
    hq, rfl, s2, h.1, h.2.1, h.2.2.1, h.2.2.2.1,
    h.2.2.2.2.2.2.2.2.2.2.2.2.2.2.2.1 rfl⟩

theorem Seg.next_of_not_last (heap : Nat → Option NewsItem) (p q : Option Nat) (l : List Nat)
    (c : Nat) (h : Seg heap p l q) (hc : c ∈ l) (hl : l.getLast? ≠ some c) :
    ∃ n d, heap c = some n ∧ n.next = some d ∧ d ∈ l := by
  induction l generalizing p with
  | nil => simp at hc
  | cons b rest ih =>
    obtain ⟨n, h1, _, h3, h4⟩ := h
    cases rest with
    | nil =>
      simp only [List.mem_singleton] at hc
      subst hc
      exact absurd rfl hl
    | cons d rest2 =>
      by_cases hcb : c = b
      · subst hcb
        exact ⟨n, d, h1, h3, by simp⟩
      · have hc2 : c ∈ d :: rest2 := by
          rcases List.mem_cons.1 hc with h | h
          · exact absurd h hcb
          · exact h
        rw [List.getLast?_cons_cons] at hl
        obtain ⟨n2, d2, e1, e2, e3⟩ := ih (some b) h4 hc2 hl
        exact ⟨n2, d2, e1, e2, List.mem_cons_of_mem _ e3⟩

theorem MoveToNextItem_ok (env : NewsEnv) (s : NewsState) (l : List Nat)
    (hseg : Seg s.heap none l none) (hold : s._oldest_news = l.head?)
    (hlat : s._latest_news = l.getLast?) (hc : ∀ a, s._current_news = some a → a ∈ l) :
    ∃ s2, MoveToNextItem env s = some s2 ∧ s2.heap = s.heap ∧
      s2._total_news = s._total_news ∧ s2._oldest_news = s._oldest_news ∧
      s2._latest_news = s._latest_news ∧ (∀ a, s2._forced_news = some a → a ∈ l) ∧
      (∀ a, s2._current_news = some a → a ∈ l) ∧
      (∀ a, s2._statusbar_news_item = some a → a ∈ l) := by
  have fin : ∀ (a : Nat) (ni : NewsItem), a ∈ l →
      ∃ s2, (if env._date - (env._news_type_data (_news_subtype_data ni.subtype).type).age
            > ni.date then
          some { s with _forced_news := none, _statusbar_news_item := none,
                        _current_news := some a }
        else
          match (env._news_type_data (_news_subtype_data ni.subtype).type).display with
          | .ND_OFF => some { s with _forced_news := none, _statusbar_news_item := none,
                                     _current_news := some a }
          | .ND_SUMMARY => some { s with _forced_news := none, _current_news := some a,
                                         _statusbar_news_item := some a }
          | .ND_FULL => some { s with _forced_news := none, _statusbar_news_item := none,
                                      _current_news := some a, duration := 555 }) = some s2 ∧
        s2.heap = s.heap ∧
        s2._total_news = s._total_news ∧ s2._oldest_news = s._oldest_news ∧
        s2._latest_news = s._latest_news ∧ (∀ a, s2._forced_news = some a → a ∈ l) ∧
        (∀ a, s2._current_news = some a → a ∈ l) ∧
        (∀ a, s2._statusbar_news_item = some a → a ∈ l) := by
    intro a ni ha
    have hm : ∀ b, some a = some b → b ∈ l := fun b hb => by cases hb; exact ha
    split
    · exact ⟨_, rfl, rfl, rfl, rfl, rfl, fun _ h => Option.noConfusion h, hm, fun _ h => Option.noConfusion h⟩
    · split
      · exact ⟨_, rfl, rfl, rfl, rfl, rfl, fun _ h => Option.noConfusion h, hm, fun _ h => Option.noConfusion h⟩
      · exact ⟨_, rfl, rfl, rfl, rfl, rfl, fun _ h => Option.noConfusion h, hm, hm⟩
      · exact ⟨_, rfl, rfl, rfl, rfl, rfl, fun _ h => Option.noConfusion h, hm, fun _ h => Option.noConfusion h⟩
  by_cases hcl : s._current_news = s._latest_news
  · refine ⟨{ s with _forced_news := none, _statusbar_news_item := none }, ?_, rfl, rfl, rfl,
      rfl, fun _ h => Option.noConfusion h, hc, fun _ h => Option.noConfusion h⟩
    simp [MoveToNextItem, hcl]
  · cases hcur : s._current_news with
    | none =>
      have hne : l ≠ [] := by
        rintro rfl
        apply hcl
        rw [hcur, hlat]; rfl
      obtain ⟨a, rest, rfl⟩ := List.exists_cons_of_ne_nil hne
      obtain ⟨na, hna, _⟩ := hseg
      have hold2 : s._oldest_news = some a := by rw [hold]; rfl
      have hcl2 : ¬ (none : Option Nat) = s._latest_news := by rw [← hcur]; exact hcl
      obtain ⟨s2, e, rest2⟩ := fin a na (by simp)
      refine ⟨s2, ?_, rest2⟩
      rw [← e]
      simp only [MoveToNextItem, hcur, ne_eq, hcl2, not_false_eq_true, if_true, hold2, hna]
    | some c =>
      have hcm := hc c hcur
      have hlast : l.getLast? ≠ some c := by
        rw [← hlat, ← hcur]; exact fun h => hcl h.symm
      obtain ⟨nc, d, e1, e2, e3⟩ := Seg.next_of_not_last _ _ _ _ c hseg hcm hlast
      obtain ⟨nd, hnd⟩ := Seg.live _ _ _ _ hseg d e3
      have hcl2 : ¬ some c = s._latest_news := by rw [← hcur]; exact hcl
      obtain ⟨s2, e, rest2⟩ := fin d nd e3
      refine ⟨s2, ?_, rest2⟩
      rw [← e]
      simp only [MoveToNextItem, hcur, ne_eq, hcl2, not_false_eq_true, if_true, e1,
        Option.map_some', e2, hnd]

theorem unlinkPrev_spec (s : NewsState) (pre : List Nat) (a : Nat) (post : List Nat)
    (hnd : (pre ++ a :: post).Nodup) (hseg : Seg s.heap none (pre ++ a :: post) none)
    (hold : s._oldest_news = (pre ++ a :: post).head?) :
    ∃ s1, DeleteNewsItem.unlinkPrev s a = some s1 ∧
      Seg s1.heap none pre (headOr post none) ∧
      (∀ b, b ∉ pre → s1.heap b = s.heap b) ∧
      (∀ b, (s1.heap b).map NewsItem.content = (s.heap b).map NewsItem.content) ∧
      s1._oldest_news = (pre ++ post).head? ∧ s1._latest_news = s._latest_news ∧
      s1._total_news = s._total_news ∧ s1._forced_news = s._forced_news ∧
      s1._current_news = s._current_news ∧
      s1._statusbar_news_item = s._statusbar_news_item := by
  rw [Seg.append_iff] at hseg
  obtain ⟨hpre, n, hn, hprev, hnext, _⟩ := hseg
  rcases List.eq_nil_or_concat pre with rfl | ⟨init, x, hpx⟩
  · have hprev2 : n.prev = none := hprev
    have hold2 : s._oldest_news = some a := hold
    refine ⟨{ s with _oldest_news := n.next }, ?_, trivial, fun _ _ => rfl, fun _ => rfl, ?_,
      rfl, rfl, rfl, rfl, rfl⟩
    · simp only [DeleteNewsItem.unlinkPrev, hn, hprev2, hold2, if_true]
    · show n.next = ([] ++ post).head?
      rw [hnext, headOr_none]; rfl
  · rw [List.concat_eq_append] at hpx
    subst hpx
    have hprev2 : n.prev = some x := by
      rw [hprev, lastOr_none]; simp
    obtain ⟨nx, hx⟩ := Seg.live _ _ _ _ hpre x (by simp)
    have hxinit : x ∉ init := by
      intro h
      have h1 := (List.nodup_append.1 hnd).1
      exact (List.nodup_append.1 h1).2.2 h (by simp)
    refine ⟨{ s with heap := heapSet s.heap x (some { nx with next := n.next }) }, ?_, ?_, ?_, ?_,
      ?_, rfl, rfl, rfl, rfl, rfl⟩
    · simp only [DeleteNewsItem.unlinkPrev, hn, hprev2, NewsState.setNext, hx]
    · apply Seg.set_last s.heap _ none (some a) (headOr post none) init x hpre
      · intro b hb
        exact heapSet_ne _ _ _ _ (fun h => hxinit (h ▸ hb))
      · intro n2 hn2
        rw [hx] at hn2
        cases hn2
        show heapSet s.heap x _ x = _
        rw [heapSet_same, hnext]
    · intro b hb
      exact heapSet_ne _ _ _ _ (fun h => hb (by simp [h]))
    · intro b
      show (heapSet s.heap x _ b).map _ = _
      by_cases hbx : b = x
      · subst hbx
        rw [heapSet_same, hx]; rfl
      · rw [heapSet_ne _ _ _ _ hbx]
    · show s._oldest_news = _
      rw [hold, List.head?_append_of_ne_nil (init ++ [x]) (by simp),
        List.head?_append_of_ne_nil (init ++ [x]) (by simp)]

theorem unlinkNext_spec (s : NewsState) (pre : List Nat) (a : Nat) (post : List Nat)
    (n : NewsItem) (hnd : (pre ++ a :: post).Nodup) (hn : s.heap a = some n)
    (hprev : n.prev = lastOr pre none) (hnext : n.next = headOr post none)
    (hpre : Seg s.heap none pre (headOr post none)) (hpost : Seg s.heap (some a) post none)
    (hlat : s._latest_news = (pre ++ a :: post).getLast?) :
    ∃ s2, DeleteNewsItem.unlinkNext s a = some s2 ∧
      Seg s2.heap none (pre ++ post) none ∧
      (∀ b, b ∉ post → s2.heap b = s.heap b) ∧
      (∀ b, (s2.heap b).map NewsItem.content = (s.heap b).map NewsItem.content) ∧
      s2._oldest_news = s._oldest_news ∧ s2._latest_news = (pre ++ post).getLast? ∧
      s2._total_news = s._total_news ∧ s2._forced_news = s._forced_news ∧
      s2._current_news = s._current_news ∧
      s2._statusbar_news_item = s._statusbar_news_item := by
  cases post with
  | nil =>
    have hnext2 : n.next = none := hnext
    have hlat2 : s._latest_news = some a := by rw [hlat]; simp
    refine ⟨{ s with _latest_news := n.prev }, ?_, ?_, fun _ _ => rfl, fun _ => rfl, rfl, ?_,
      rfl, rfl, rfl, rfl⟩
    · simp only [DeleteNewsItem.unlinkNext, hn, hnext2, hlat2, if_true]
    · rw [List.append_nil]; exact hpre
    · show n.prev = _
      rw [hprev, lastOr_none, List.append_nil]
  | cons y rest =>
    have hnext2 : n.next = some y := hnext
    obtain ⟨ny, hy⟩ := Seg.live _ _ _ _ hpost y (by simp)
    have hdis := (List.nodup_append.1 hnd).2.2
    have hnd2 := (List.nodup_cons.1 (List.nodup_append.1 hnd).2.1).2
    have hyrest : y ∉ rest := (List.nodup_cons.1 hnd2).1
    have hypre : y ∉ pre := fun h => hdis h (by simp)
    refine ⟨{ s with heap := heapSet s.heap y (some { ny with prev := n.prev }) }, ?_, ?_, ?_, ?_,
      rfl, ?_, rfl, rfl, rfl, rfl⟩
    · simp only [DeleteNewsItem.unlinkNext, hn, hnext2, NewsState.setPrev, hy]
    · rw [Seg.append_iff]
      constructor
      · apply Seg.congr s.heap _ _ _ _ _ hpre
        intro b hb
        exact heapSet_ne _ _ _ _ (fun h => hypre (h ▸ hb))
      · apply Seg.set_head s.heap _ (some a) (lastOr pre none) none y rest hpost
        · intro b hb
          exact heapSet_ne _ _ _ _ (fun h => hyrest (h ▸ hb))
        · intro n2 hn2
          rw [hy] at hn2
          cases hn2
          show heapSet s.heap y _ y = _
          rw [heapSet_same, hprev]
    · intro b hb
      exact heapSet_ne _ _ _ _ (fun h => hb (by simp [h]))
    · intro b
      show (heapSet s.heap y _ b).map _ = _
      by_cases hby : b = y
      · subst hby
        rw [heapSet_same, hy]; rfl
      · rw [heapSet_ne _ _ _ _ hby]
    · show s._latest_news = _
      rw [hlat, List.getLast?_append_cons, List.getLast?_cons_cons, List.getLast?_append_cons]

theorem mem_of_mem_middle (pre post : List Nat) (a c : Nat) (h : c ∈ pre ++ a :: post)
    (hne : c ≠ a) : c ∈ pre ++ post := by
  simp only [List.mem_append, List.mem_cons] at h ⊢
  rcases h with h | h | h
  · exact Or.inl h
  · exact absurd h hne
  · exact Or.inr h

theorem moveOn_spec (env : NewsEnv) (s : NewsState) (pre : List Nat) (a : Nat)
    (post : List Nat) (n : NewsItem) (hn : s.heap a = some n) (hprev : n.prev = lastOr pre none)
    (hseg : Seg s.heap none (pre ++ post) none) (hold : s._oldest_news = (pre ++ post).head?)
    (hlat : s._latest_news = (pre ++ post).getLast?)
    (hf : ∀ c, s._forced_news = some c → c ∈ pre ++ a :: post)
    (hc : ∀ c, s._current_news = some c → c ∈ pre ++ a :: post)
    (hsb : ∀ c, s._statusbar_news_item = some c → c ∈ pre ++ a :: post) :
    ∃ s2, DeleteNewsItem.moveOn env s a = some s2 ∧ s2.heap = s.heap ∧
      s2._total_news = s._total_news ∧ s2._oldest_news = s._oldest_news ∧
      s2._latest_news = s._latest_news ∧ (∀ c, s2._forced_news = some c → c ∈ pre ++ post) ∧
      (∀ c, s2._current_news = some c → c ∈ pre ++ post) ∧
      (∀ c, s2._statusbar_news_item = some c → c ∈ pre ++ post) := by
  by_cases hcond : s._forced_news = some a ∨ s._current_news = some a ∨
      s._statusbar_news_item = some a
  · simp only [DeleteNewsItem.moveOn, if_pos hcond, hn]
    by_cases hcur : s._current_news = some a
    · simp only [if_pos hcur]
      refine MoveToNextItem_ok env { s with _current_news := n.prev } (pre ++ post) hseg hold
        hlat ?_
      intro c hcc
      have hcc2 : n.prev = some c := hcc
      rw [hprev, lastOr_none] at hcc2
      exact List.mem_append_left _ (List.mem_of_mem_getLast? hcc2)
    · simp only [if_neg hcur]
      refine MoveToNextItem_ok env s (pre ++ post) hseg hold hlat ?_
      intro c hcc
      exact mem_of_mem_middle _ _ a c (hc c hcc) (fun h => hcur (h ▸ hcc))
  · simp only [DeleteNewsItem.moveOn, if_neg hcond]
    simp only [not_or] at hcond
    refine ⟨s, rfl, rfl, rfl, rfl, rfl, ?_, ?_, ?_⟩
    · intro c hcc
      exact mem_of_mem_middle _ _ a c (hf c hcc) (fun h => hcond.1 (h ▸ hcc))
    · intro c hcc
      exact mem_of_mem_middle _ _ a c (hc c hcc) (fun h => hcond.2.1 (h ▸ hcc))
    · intro c hcc
      exact mem_of_mem_middle _ _ a c (hsb c hcc) (fun h => hcond.2.2 (h ▸ hcc))

theorem DeleteNewsItem_spec (env : NewsEnv) (s : NewsState) (pre : List Nat) (a : Nat)
    (post : List Nat) (hq : IsQueue s (pre ++ a :: post)) :
    ∃ s2, DeleteNewsItem env s a = some s2 ∧ IsQueue s2 (pre ++ post) ∧ s2.heap a = none ∧
      (∀ b, b ≠ a → (s2.heap b).map NewsItem.content = (s.heap b).map NewsItem.content) := by
  obtain ⟨hnd, hseg, hold, hlat, htot, hlen, hf, hc, hsb⟩ := hq
  have hnd2 : (a :: (pre ++ post)).Nodup := List.nodup_middle.1 hnd
  have hamem : a ∉ pre ++ post := (List.nodup_cons.1 hnd2).1
  have hapre : a ∉ pre := fun h => hamem (List.mem_append_left _ h)
  have hapost : a ∉ post := fun h => hamem (List.mem_append_right _ h)
  have hdis : ∀ b, b ∈ post → b ∉ pre := fun b hb hb2 =>
    (List.nodup_append.1 hnd).2.2 hb2 (List.mem_cons_of_mem _ hb)
  obtain ⟨s1, e1, hpre1, hframe1, hcont1, hold1, hlat1, htot1, hf1, hc1, hsb1⟩ :=
    unlinkPrev_spec s pre a post hnd hseg hold
  rw [Seg.append_iff] at hseg
  obtain ⟨_, n, hn, hprev, hnext, hpost⟩ := hseg
  have hn1 : s1.heap a = some n := by rw [hframe1 a hapre, hn]
  have hpost1 : Seg s1.heap (some a) post none :=
    Seg.congr s.heap s1.heap _ _ _ (fun b hb => hframe1 b (hdis b hb)) hpost
  obtain ⟨s2, e2, hseg2, hframe2, hcont2, hold2, hlat2, htot2, hf2, hc2, hsb2⟩ :=
    unlinkNext_spec s1 pre a post n hnd hn1 hprev hnext hpre1 hpost1 (by rw [hlat1, hlat])
  have hn2 : s2.heap a = some n := by rw [hframe2 a hapost, hn1]
  obtain ⟨s4, e4, hheap4, htot4, hold4, hlat4, hf4, hc4, hsb4⟩ :=
    moveOn_spec env { s2 with _total_news := (s2._total_news + (2 ^ 32 - 1)) % 2 ^ 32 } pre a
      post n hn2 hprev hseg2 (by rw [← hold1, ← hold2]) hlat2
      (fun c h => hf c (by rw [← hf1, ← hf2]; exact h))
      (fun c h => hc c (by rw [← hc1, ← hc2]; exact h))
      (fun c h => hsb c (by rw [← hsb1, ← hsb2]; exact h))
  have hh4 : s4.heap = s2.heap := hheap4
  refine ⟨{ s4 with heap := heapSet s4.heap a none }, ?_, ?_, heapSet_same _ _ _, ?_⟩
  · simp only [DeleteNewsItem, e1, e2, e4]
  · refine ⟨(List.nodup_cons.1 hnd2).2, ?_, ?_, ?_, ?_, ?_, hf4, hc4, hsb4⟩
    · apply Seg.congr s2.heap _ _ _ _ _ hseg2
      intro b hb
      show heapSet s4.heap a none b = _
      have hba : b ≠ a := fun h => hamem (h ▸ hb)
      rw [heapSet_ne _ _ _ _ hba, hh4]
    · show s4._oldest_news = _
      rw [hold4]
      show s2._oldest_news = _
      rw [hold2, hold1]
    · show s4._latest_news = _
      rw [hlat4]
      exact hlat2
    · show s4._total_news = _
      rw [htot4]
      show (s2._total_news + (2 ^ 32 - 1)) % 2 ^ 32 = _
      rw [htot2, htot1, htot]
      simp only [List.length_append, List.length_cons] at hlen ⊢
      omega
    · simp only [List.length_append, List.length_cons] at hlen ⊢
      omega
  · intro b hb
    show (heapSet s4.heap a none b).map _ = _
    rw [heapSet_ne _ _ _ _ hb, hh4, hcont2 b, hcont1 b]

theorem isVehicleNews_congr (env : NewsEnv) (h1 h2 : Nat → Option NewsItem) (vid news b : Nat)
    (h : (h2 b).map NewsItem.content = (h1 b).map NewsItem.content) :
    isVehicleNews env h2 vid news b = isVehicleNews env h1 vid news b := by
  unfold isVehicleNews
  cases e1 : h1 b with
  | none =>
    cases e2 : h2 b with
    | none => rfl
    | some n2 => rw [e1, e2] at h; cases h
  | some n1 =>
    cases e2 : h2 b with
    | none => rw [e1, e2] at h; cases h
    | some n2 =>
      rw [e1, e2] at h
      simp only [Option.map_some', Option.some.injEq] at h
      have : vehicleNewsMatches env vid news n2.content =
          vehicleNewsMatches env vid news n1.content := by rw [h]
      exact this

theorem DeleteVehicleNewsLoop_spec (env : NewsEnv) (vid news : Nat) (post : List Nat) :
    ∀ (pre : List Nat) (s : NewsState) (fuel : Nat), IsQueue s (pre ++ post) →
      post.length ≤ fuel →
      ∃ s2, DeleteVehicleNewsLoop env vid news fuel s post.head? = some s2 ∧
        IsQueue s2 (pre ++ post.filter fun a => !isVehicleNews env s.heap vid news a) ∧
        (∀ b, b ∈ post → isVehicleNews env s.heap vid news b = true → s2.heap b = none) ∧
        (∀ b, (b ∉ post ∨ isVehicleNews env s.heap vid news b = false) →
          (s2.heap b).map NewsItem.content = (s.heap b).map NewsItem.content) := by
  induction post with
  | nil =>
    intro pre s fuel hq _
    refine ⟨s, ?_, by simpa using hq, fun b hb => absurd hb (by simp), fun _ _ => rfl⟩
    cases fuel <;> rfl
  | cons a post ih =>
    intro pre s fuel hq hfuel
    cases fuel with
    | zero => simp at hfuel
    | succ fuel =>
      have hfuel2 : post.length ≤ fuel := by simpa using hfuel
      have hseg := hq.2.1
      rw [Seg.append_iff] at hseg
      obtain ⟨_, n, hn, _, hnext, _⟩ := hseg
      have hnext2 : n.next = post.head? := by rw [hnext, headOr_none]
      have hnd2 : (a :: (pre ++ post)).Nodup := List.nodup_middle.1 hq.1
      have hapost : a ∉ post := fun h => (List.nodup_cons.1 hnd2).1 (List.mem_append_right _ h)
      have hva : isVehicleNews env s.heap vid news a = vehicleNewsMatches env vid news n := by
        simp only [isVehicleNews, hn]
      by_cases hm : vehicleNewsMatches env vid news n = true
      · obtain ⟨s1, e1, hq1, hfree1, hcont1⟩ := DeleteNewsItem_spec env s pre a post hq
        obtain ⟨s2, e2, hq2, hfree2, hcont2⟩ := ih pre s1 fuel hq1 hfuel2
        have hsame : ∀ b, b ∈ post →
            isVehicleNews env s1.heap vid news b = isVehicleNews env s.heap vid news b := by
          intro b hb
          apply isVehicleNews_congr
          exact hcont1 b (fun h => hapost (h ▸ hb))
        refine ⟨s2, ?_, ?_, ?_, ?_⟩
        · simp only [List.head?_cons, DeleteVehicleNewsLoop, hn, hm, if_true, e1, hnext2, e2]
        · have hfl : (List.filter (fun a => !isVehicleNews env s.heap vid news a) (a :: post)) =
              List.filter (fun a => !isVehicleNews env s1.heap vid news a) post := by
            rw [List.filter_cons_of_neg (by simp [hva, hm])]
            apply List.filter_congr
            intro b hb
            rw [hsame b hb]
          rw [hfl]
          exact hq2
        · intro b hb hvb
          rcases List.mem_cons.1 hb with rfl | hb
          · have := hcont2 b (Or.inl hapost)
            rw [hfree1] at this
            cases e : s2.heap b with
            | none => rfl
            | some x => rw [e] at this; cases this
          · exact hfree2 b hb (by rw [hsame b hb]; exact hvb)
        · intro b hb
          have hba : b ≠ a := by
            rintro rfl
            rcases hb with hb | hb
            · exact hb (List.mem_cons_self _ _)
            · rw [hva, hm] at hb; cases hb
          have hb1 : b ∉ post ∨ isVehicleNews env s1.heap vid news b = false := by
            by_cases hbp : b ∈ post
            · right
              rw [hsame b hbp]
              rcases hb with hb | hb
              · exact absurd (List.mem_cons_of_mem _ hbp) hb
              · exact hb
            · exact Or.inl hbp
          rw [hcont2 b hb1, hcont1 b hba]
      · have hm2 : vehicleNewsMatches env vid news n = false := by
          cases h : vehicleNewsMatches env vid news n
          · rfl
          · exact absurd h hm
        have hq1 : IsQueue s ((pre ++ [a]) ++ post) := by
          rw [List.append_assoc]; exact hq
        obtain ⟨s2, e2, hq2, hfree2, hcont2⟩ := ih (pre ++ [a]) s fuel hq1 hfuel2
        refine ⟨s2, ?_, ?_, ?_, ?_⟩
        · simp only [List.head?_cons, DeleteVehicleNewsLoop, hn, hm2, Bool.false_eq_true,
            if_false, hnext2, e2]
        · rw [List.filter_cons_of_pos (by simp [hva, hm2])]
          rw [List.append_assoc] at hq2
          exact hq2
        · intro b hb hvb
          rcases List.mem_cons.1 hb with rfl | hb
          · rw [hva, hm2] at hvb; cases hvb
          · exact hfree2 b hb hvb
        · intro b hb
          apply hcont2 b
          rcases hb with hb | hb
          · exact Or.inl (fun h => hb (List.mem_cons_of_mem _ h))
          · exact Or.inr hb

/-- C10: `DeleteVehicleNews(vid, news)` on a queue that holds the items `l`, with enough
fuel for its loop.  The call returns; afterwards the queue holds exactly those
original items, in their original order and with unchanged contents, that do not
pass the test (referencing `vid` as `NR_VEHICLE` in `ref1` or `ref2`, and having
`string_id = news` or `news = INVALID_STRING_ID`); the others are freed;
`_total_news` is the number of remaining items; and with `news = INVALID_STRING_ID`
no remaining item references the vehicle. -/
theorem DeleteVehicleNews_spec (env : NewsEnv) (s : NewsState) (l : List Nat)
    (vid news fuel : Nat) (hq : IsQueue s l) (hfuel : l.length ≤ fuel) :
    ∃ s2, DeleteVehicleNews fuel env s vid news = some s2 ∧
      IsQueue s2 (l.filter fun a => !isVehicleNews env s.heap vid news a) ∧
      walkNext s2.heap fuel s2._oldest_news =
        (walkNext s.heap fuel s._oldest_news).filter
          (fun a => !isVehicleNews env s.heap vid news a) ∧
      (∀ a ∈ l, ∀ n, s.heap a = some n →
        (isVehicleNews env s.heap vid news a = true ↔
          ((n.reftype1 = .NR_VEHICLE ∧ n.ref1 = vid) ∨
            (n.reftype2 = .NR_VEHICLE ∧ n.ref2 = vid)) ∧
          (n.string_id = news ∨ news = env.INVALID_STRING_ID))) ∧
      (∀ b ∈ l, isVehicleNews env s.heap vid news b = false →
        (s2.heap b).map NewsItem.content = (s.heap b).map NewsItem.content) ∧
      (∀ b ∈ l, isVehicleNews env s.heap vid news b = true → s2.heap b = none) ∧
      s2._total_news = (l.filter fun a => !isVehicleNews env s.heap vid news a).length ∧
      (news = env.INVALID_STRING_ID →
        ∀ b ∈ l.filter (fun a => !isVehicleNews env s.heap vid news a),
          ∀ n, s2.heap b = some n →
            ¬ ((n.reftype1 = .NR_VEHICLE ∧ n.ref1 = vid) ∨
              (n.reftype2 = .NR_VEHICLE ∧ n.ref2 = vid))) := by
  obtain ⟨s2, e, hq2, hfree, hcont⟩ :=
    DeleteVehicleNewsLoop_spec env vid news l [] s fuel (by simpa using hq) hfuel
  simp only [List.nil_append] at hq2
  have hw1 : walkNext s.heap fuel s._oldest_news = l := by
    rw [hq.2.2.1]
    exact walkNext_of_Seg s.heap none l fuel hq.2.1 hfuel
  have hw2 : walkNext s2.heap fuel s2._oldest_news =
      l.filter fun a => !isVehicleNews env s.heap vid news a := by
    rw [hq2.2.2.1]
    exact walkNext_of_Seg s2.heap none _ fuel hq2.2.1
      (le_trans (List.length_filter_le _ _) hfuel)
  refine ⟨s2, ?_, hq2, by rw [hw1, hw2], ?_, fun b _ hb => hcont b (Or.inr hb),
    fun b hb hv => hfree b hb hv, hq2.2.2.2.2.1, ?_⟩
  · rw [DeleteVehicleNews, hq.2.2.1]
    exact e
  · intro a _ n hn
    simp only [isVehicleNews, hn, vehicleNewsMatches, Bool.decide_and, Bool.decide_or,
      Bool.and_eq_true, Bool.or_eq_true, decide_eq_true_eq]
    constructor
    · rintro ⟨h1, h2⟩
      exact ⟨h1, h2.symm⟩
    · rintro ⟨h1, h2⟩
      exact ⟨h1, h2.symm⟩
  · intro hnews b hb n hn
    obtain ⟨hbl, hvb⟩ := List.mem_filter.1 hb
    have hvb2 : isVehicleNews env s.heap vid news b = false := by simpa using hvb
    have hc := hcont b (Or.inr hvb2)
    rw [hn] at hc
    cases hs : s.heap b with
    | none => rw [hs] at hc; cases hc
    | some n1 =>
      rw [hs] at hc
      simp only [Option.map_some', Option.some.injEq] at hc
      have r1 : n.reftype1 = n1.reftype1 :=
        (congrArg NewsItem.reftype1 hc : n.content.reftype1 = n1.content.reftype1)
      have r2 : n.reftype2 = n1.reftype2 :=
        (congrArg NewsItem.reftype2 hc : n.content.reftype2 = n1.content.reftype2)
      have r3 : n.ref1 = n1.ref1 :=
        (congrArg NewsItem.ref1 hc : n.content.ref1 = n1.content.ref1)
      have r4 : n.ref2 = n1.ref2 :=
        (congrArg NewsItem.ref2 hc : n.content.ref2 = n1.content.ref2)
      simp only [isVehicleNews, hs, vehicleNewsMatches, hnews, true_or, and_true,
        decide_eq_false_iff_not] at hvb2
      rw [r1, r2, r3, r4]
      exact hvb2

/-- Witness for C10: deleting all news about vehicle 5 from the sample queue leaves
the general news item. -/
theorem DeleteVehicleNews_spec_witness :
    IsQueue sampleQueue [10, 20, 30] ∧
    ∃ s2, DeleteVehicleNews 3 sampleEnv sampleQueue 5 0xFFFF = some s2 ∧
      IsQueue s2 [20] ∧ walkNext s2.heap 3 s2._oldest_news = [20] ∧ s2._total_news = 1 := by
  obtain ⟨s2, h1, h2, h3, _, _, _, h7, _⟩ :=
    DeleteVehicleNews_spec sampleEnv sampleQueue [10, 20, 30] 5 0xFFFF 3 IsQueue_sampleQueue
      (by decide)
  have hf : ([10, 20, 30].filter fun a => !isVehicleNews sampleEnv sampleQueue.heap 5 0xFFFF a)
      = [20] := by decide
  have hw : walkNext sampleQueue.heap 3 sampleQueue._oldest_news = [10, 20, 30] := by decide
  rw [hf] at h2 h7
  rw [hw, hf] at h3
  exact ⟨IsQueue_sampleQueue, s2, h1, h2, h3, h7⟩

/-! ## Theorems: script dates -/

/-- C12: `ScriptDate` signals invalid input with -1.  `GetYear`, `GetMonth` and
`GetDayOfMonth` return -1 for every `date < 0`; `GetDate` returns -1 whenever
`month` is outside `1..12`, `day_of_month` outside `1..31` or `year` outside
`0..MAX_YEAR`, and `ConvertYMDToDate(year, month - 1, day_of_month)` for arguments
in range; for `date >= 0` `GetMonth` returns the zero-based month of the converter
plus 1, `GetYear` its year and `GetDayOfMonth` its day. -/
theorem ScriptDate_invalid_input (D : DateFuncs) :
    (∀ date : Int, date < 0 →
      ScriptDate.GetYear D date = -1 ∧ ScriptDate.GetMonth D date = -1 ∧
      ScriptDate.GetDayOfMonth D date = -1) ∧
    (∀ year month day_of_month : Int,
      (month < 1 ∨ 12 < month) ∨ (day_of_month < 1 ∨ 31 < day_of_month) ∨
        (year < 0 ∨ D.MAX_YEAR < year) →
      ScriptDate.GetDate D year month day_of_month = -1) ∧
    (∀ year month day_of_month : Int,
      1 ≤ month → month ≤ 12 → 1 ≤ day_of_month → day_of_month ≤ 31 → 0 ≤ year →
      year ≤ D.MAX_YEAR →
      ScriptDate.GetDate D year month day_of_month =
        D.ConvertYMDToDate year (month - 1) day_of_month) ∧
    (∀ date : Int, 0 ≤ date →
      ScriptDate.GetMonth D date = (D.ConvertDateToYMD date).month + 1 ∧
      ScriptDate.GetYear D date = (D.ConvertDateToYMD date).year ∧
      ScriptDate.GetDayOfMonth D date = (D.ConvertDateToYMD date).day) ∧
    ScriptDate.GetDate sampleDateFuncs 1950 3 5 = 725466 ∧
    ScriptDate.GetMonth sampleDateFuncs 725466 = 3 ∧
    ScriptDate.GetDate sampleDateFuncs 1950 13 5 = -1 ∧
    ScriptDate.GetMonth sampleDateFuncs (-1) = -1 := by
  refine ⟨?_, ?_, ?_, ?_, by decide, by decide, by decide, by decide⟩
  · intro date h
    simp [ScriptDate.GetYear, ScriptDate.GetMonth, ScriptDate.GetDayOfMonth, h]
  · intro year month day h
    unfold ScriptDate.GetDate
    by_cases h1 : month < 1 ∨ month > 12
    · rw [if_pos h1]
    · rw [if_neg h1]
      by_cases h2 : day < 1 ∨ day > 31
      · rw [if_pos h2]
      · rw [if_neg h2]
        by_cases h3 : year < 0 ∨ year > D.MAX_YEAR
        · rw [if_pos h3]
        · exfalso
          rcases h with h | h | h
          · exact h1 h
          · exact h2 h
          · exact h3 h
  · intro year month day h1 h2 h3 h4 h5 h6
    unfold ScriptDate.GetDate
    rw [if_neg (by omega), if_neg (by omega), if_neg (by omega)]
  · intro date h
    have h2 : ¬ date < 0 := by omega
    simp [ScriptDate.GetYear, ScriptDate.GetMonth, ScriptDate.GetDayOfMonth, h2]

/-- Witness for C12 on the sample converters: a negative date, a month out of range,
and a date in range. -/
theorem ScriptDate_invalid_input_witness :
    (-5 : Int) < 0 ∧ ScriptDate.GetYear sampleDateFuncs (-5) = -1 ∧
    ScriptDate.GetDate sampleDateFuncs 1950 0 5 = -1 ∧
    ScriptDate.GetDate sampleDateFuncs 1950 3 5 =
      sampleDateFuncs.ConvertYMDToDate 1950 (3 - 1) 5 ∧
    ScriptDate.GetMonth sampleDateFuncs 725466 =
      (sampleDateFuncs.ConvertDateToYMD 725466).month + 1 :=
  ⟨by decide,
    ((ScriptDate_invalid_input sampleDateFuncs).1 (-5) (by decide)).1,
    (ScriptDate_invalid_input sampleDateFuncs).2.1 1950 0 5 (Or.inl (Or.inl (by decide))),
    (ScriptDate_invalid_input sampleDateFuncs).2.2.1 1950 3 5 (by decide) (by decide)
      (by decide) (by decide) (by decide) (by decide),
    ((ScriptDate_invalid_input sampleDateFuncs).2.2.2.1 725466 (by decide)).1⟩

/-! ## Theorems: the 32bpp blitter -/

theorem u32_and_of_lt (x m : Nat) (hm : m < 2 ^ 32) : u32 x &&& m = x &&& m := by
  unfold u32
  apply Nat.eq_of_testBit_eq
  intro i
  simp only [Nat.testBit_and, Nat.testBit_mod_two_pow]
  by_cases hi : i < 32
  · simp [hi]
  · have : m.testBit i = false := by
      apply Nat.testBit_lt_two_pow
      exact lt_of_lt_of_le hm (Nat.pow_le_pow_right (by norm_num) (by omega))
    simp [this]

theorem shiftLeft_and_mask (x k : Nat) :
    (x <<< k) &&& ((2 ^ 8 - 1) <<< k) = (x &&& (2 ^ 8 - 1)) <<< k := by
  apply Nat.eq_of_testBit_eq
  intro i
  simp only [Nat.testBit_and, Nat.testBit_shiftLeft, Nat.testBit_two_pow_sub_one]
  by_cases hi : k ≤ i <;> simp [hi]

theorem ComposeColour_eq (a r g b : Nat) :
    ComposeColour a r g b =
      ((a &&& 0xFF) <<< 24) ||| ((r &&& 0xFF) <<< 16) ||| ((g &&& 0xFF) <<< 8) |||
        (b &&& 0xFF) := by
  have e24 : (0xFF000000 : Nat) = (2 ^ 8 - 1) <<< 24 := by decide
  have e16 : (0x00FF0000 : Nat) = (2 ^ 8 - 1) <<< 16 := by decide
  have e8 : (0x0000FF00 : Nat) = (2 ^ 8 - 1) <<< 8 := by decide
  have eff : (0xFF : Nat) = 2 ^ 8 - 1 := by decide
  unfold ComposeColour
  rw [u32_and_of_lt _ _ (by norm_num), u32_and_of_lt _ _ (by norm_num),
    u32_and_of_lt _ _ (by norm_num), e24, e16, e8, eff, shiftLeft_and_mask,
    shiftLeft_and_mask, shiftLeft_and_mask]

/-- C13: `ComposeColourRGBA` handles fully transparent and solid pixels specially.
For `a = 0` it returns `current` unchanged, for every `a >= 255` the opaque pixel
`0xFF000000 | (r & 0xFF) << 16 | (g & 0xFF) << 8 | (b & 0xFF)`, and for every other
`a` exactly `ComposeColourRGBANoCheck(r, g, b, a, current)`. -/
theorem ComposeColourRGBA_cases (GB : Nat → Nat → Nat → Nat) (r g b current : Nat) :
    ComposeColourRGBA GB r g b 0 current = current ∧
    (∀ a, 255 ≤ a →
      ComposeColourRGBA GB r g b a current =
        0xFF000000 ||| ((r &&& 0xFF) <<< 16) ||| ((g &&& 0xFF) <<< 8) ||| (b &&& 0xFF)) ∧
    (∀ a, a ≠ 0 → a < 255 →
      ComposeColourRGBA GB r g b a current = ComposeColourRGBANoCheck GB r g b a current) ∧
    ComposeColourRGBA sampleGB 0x1FF 0x80 0x3 255 0x00FFFFFF = 0xFFFF8003 ∧
    ComposeColourRGBA sampleGB 0 0 0 128 0x00FFFFFF = 0xFF7F7F7F := by
  refine ⟨by simp [ComposeColourRGBA], ?_, ?_, by decide, by decide⟩
  · intro a ha
    have h0 : a ≠ 0 := by omega
    have e : ((0xFF : Nat) &&& 0xFF) <<< 24 = 0xFF000000 := by decide
    simp only [ComposeColourRGBA, if_neg h0, ge_iff_le, if_pos ha, ComposeColour_eq, e]
  · intro a h0 ha
    have h1 : ¬ a ≥ 255 := by omega
    simp only [ComposeColourRGBA, if_neg h0, if_neg h1]

/-- Witness for C13: a solid pixel with `a = 300` and a blended one with `a = 128`. -/
theorem ComposeColourRGBA_cases_witness :
    ComposeColourRGBA sampleGB 0x1FF 0x80 0x3 300 0x00FFFFFF =
      0xFF000000 ||| ((0x1FF &&& 0xFF) <<< 16) ||| ((0x80 &&& 0xFF) <<< 8) |||
        (0x3 &&& 0xFF) ∧
    ComposeColourRGBA sampleGB 10 20 30 128 0x00FFFFFF =
      ComposeColourRGBANoCheck sampleGB 10 20 30 128 0x00FFFFFF :=
  ⟨(ComposeColourRGBA_cases sampleGB 0x1FF 0x80 0x3 0x00FFFFFF).2.1 300 (by decide),
    (ComposeColourRGBA_cases sampleGB 10 20 30 0x00FFFFFF).2.2.1 128 (by decide)
      (by decide)⟩

set_option maxRecDepth 100000 in
theorem ComposeColour_grey (v : Nat) (hv : v < 256) :
    ComposeColour 0xFF v v v = 0xFF000000 + v * 65536 + v * 256 + v := by
  revert v
  decide

theorem MakeGrey_eq (GB : Nat → Nat → Nat → Nat)
    (hGB : ∀ x s n, GB x s n = (x >>> s) % 2 ^ n) (colour : Nat) :
    MakeGrey GB colour =
      0xFF000000 + greyValue GB colour * 65536 + greyValue GB colour * 256 +
        greyValue GB colour ∧ greyValue GB colour ≤ 255 := by
  have hr : GB colour 16 8 < 256 := by rw [hGB]; exact Nat.mod_lt _ (by norm_num)
  have hg : GB colour 8 8 < 256 := by rw [hGB]; exact Nat.mod_lt _ (by norm_num)
  have hb : GB colour 0 8 < 256 := by rw [hGB]; exact Nat.mod_lt _ (by norm_num)
  have hv : greyValue GB colour ≤ 255 := by
    unfold greyValue
    omega
  have e : u32 (u32 (u32 (GB colour 16 8 * 19595) + u32 (GB colour 8 8 * 38470)) +
      u32 (GB colour 0 8 * 7471)) / 65536 = greyValue GB colour := by
    unfold u32 greyValue
    omega
  refine ⟨?_, hv⟩
  simp only [MakeGrey, e]
  exact ComposeColour_grey _ (by omega)

/-- C14: for every colour `MakeGrey` returns a grey pixel.  Its red, green and blue
channel all equal `v = (r*19595 + g*38470 + b*7471) / 65536` for the channels `r`,
`g`, `b` of the colour, `v <= 255`, `v` lies between the least and the greatest of
`r`, `g`, `b`, the alpha channel is `0xFF`, the result fits 32 bits, and
`MakeGrey(MakeGrey(c)) = MakeGrey(c)`. -/
theorem MakeGrey_grey (GB : Nat → Nat → Nat → Nat)
    (hGB : ∀ x s n, GB x s n = (x >>> s) % 2 ^ n) (colour : Nat) :
    GB (MakeGrey GB colour) 16 8 = greyValue GB colour ∧
    GB (MakeGrey GB colour) 8 8 = greyValue GB colour ∧
    GB (MakeGrey GB colour) 0 8 = greyValue GB colour ∧
    GB (MakeGrey GB colour) 24 8 = 0xFF ∧
    MakeGrey GB colour < 2 ^ 32 ∧
    greyValue GB colour =
      (GB colour 16 8 * 19595 + GB colour 8 8 * 38470 + GB colour 0 8 * 7471) / 65536 ∧
    greyValue GB colour ≤ 255 ∧
    min (GB colour 16 8) (min (GB colour 8 8) (GB colour 0 8)) ≤ greyValue GB colour ∧
    greyValue GB colour ≤ max (GB colour 16 8) (max (GB colour 8 8) (GB colour 0 8)) ∧
    MakeGrey GB (MakeGrey GB colour) = MakeGrey GB colour := by
  obtain ⟨e, hv⟩ := MakeGrey_eq GB hGB colour
  have ch : ∀ x v : Nat, v ≤ 255 → x = 0xFF000000 + v * 65536 + v * 256 + v →
      GB x 16 8 = v ∧ GB x 8 8 = v ∧ GB x 0 8 = v ∧ GB x 24 8 = 0xFF := by
    intro x v hv hx
    have p0 : (2 : Nat) ^ 0 = 1 := by norm_num
    have p8 : (2 : Nat) ^ 8 = 256 := by norm_num
    have p16 : (2 : Nat) ^ 16 = 65536 := by norm_num
    have p24 : (2 : Nat) ^ 24 = 16777216 := by norm_num
    simp only [hGB, Nat.shiftRight_eq_div_pow, p0, p8, p16, p24]
    have d16 : x / 65536 = 65280 + v := by omega
    have d8 : x / 256 = 16711680 + v * 256 + v := by omega
    have d24 : x / 16777216 = 255 := by omega
    rw [d16, d8, d24]
    omega
  obtain ⟨c1, c2, c3, c4⟩ := ch _ _ hv e
  have hmin : min (GB colour 16 8) (min (GB colour 8 8) (GB colour 0 8)) ≤ greyValue GB colour ∧
      greyValue GB colour ≤ max (GB colour 16 8) (max (GB colour 8 8) (GB colour 0 8)) := by
    unfold greyValue
    omega
  refine ⟨c1, c2, c3, c4, by omega, rfl, hv, hmin.1, hmin.2, ?_⟩
  obtain ⟨e2, _⟩ := MakeGrey_eq GB hGB (MakeGrey GB colour)
  have hv2 : greyValue GB (MakeGrey GB colour) = greyValue GB colour := by
    have : greyValue GB (MakeGrey GB colour) =
        (GB (MakeGrey GB colour) 16 8 * 19595 + GB (MakeGrey GB colour) 8 8 * 38470 +
          GB (MakeGrey GB colour) 0 8 * 7471) / 65536 := rfl
    rw [this, c1, c2, c3]
    omega
  rw [e2, hv2, ← e]

/-- Witness for C14: the colour with alpha `0x80`, red `0xFF`, green `0x80` and blue 0
becomes the grey `0x97`. -/
theorem MakeGrey_grey_witness :
    (∀ x s n, sampleGB x s n = (x >>> s) % 2 ^ n) ∧
    MakeGrey sampleGB 0x80FF8000 = 0xFF979797 ∧
    sampleGB (MakeGrey sampleGB 0x80FF8000) 16 8 = greyValue sampleGB 0x80FF8000 ∧
    greyValue sampleGB 0x80FF8000 = 0x97 :=
  ⟨fun _ _ _ => rfl, by decide,
    (MakeGrey_grey sampleGB (fun _ _ _ => rfl) 0x80FF8000).1, by decide⟩

/-! ## Theorems: the command for custom news -/

theorem AddNewsItem_appends (env : NewsEnv) (s : NewsState) (l : List Nat) (ni : Nat)
    (string : Nat) (subtype : NewsSubtype) (reftype1 : NewsReferenceType) (ref1 : Nat)
    (reftype2 : NewsReferenceType) (ref2 : Nat) (free_data : Option Nat)
    (hq : IsQueue s l) (hfresh : s.heap ni = none) (hroom : l.length + 1 < 2 ^ 32)
    (hm : env._game_mode ≠ .GM_MENU) :
    ∃ s2 n, AddNewsItem env s ni string subtype reftype1 ref1 reftype2 ref2 free_data
        = some s2 ∧
      IsQueue s2 (l ++ [ni]) ∧ s2._total_news = s._total_news + 1 ∧
      s2.heap ni = some n ∧ n.string_id = string ∧ n.subtype = subtype ∧
      n.reftype1 = reftype1 ∧ n.ref1 = ref1 ∧ n.reftype2 = reftype2 ∧ n.ref2 = ref2 ∧
      n.free_data = free_data := by
  have hni := IsQueue.not_mem_of_fresh s _ hq ni hfresh
  rcases List.eq_nil_or_concat l with rfl | ⟨init, x, hlx⟩
  · obtain ⟨s2, n, h1, h2, h3, h4, h5, h6, h7, h8, h9, h10, h11, h12, h13, h14, h15, h16, h17,
      h18, h19⟩ := AddNewsItem_empty env s ni string subtype reftype1 ref1 reftype2 ref2
        free_data hq hm
    obtain ⟨_, _, hold, hlat, htot, _, hf, hc, hsb⟩ := hq
    refine ⟨s2, n, h1, ?_, ?_, h2, h6, h7, h8, h9, h10, h11, h13⟩
    · refine ⟨by simp, ⟨n, h2, h4, h5, trivial⟩, by simp [h15], by simp [h16], by simp [h14],
        by simp, ?_, ?_, ?_⟩
      · intro a ha; rw [h17] at ha; exact absurd (hf a ha) (by simp)
      · intro a ha; rw [h18] at ha; exact absurd (hc a ha) (by simp)
      · intro a ha; rw [h19] at ha; exact absurd (hsb a ha) (by simp)
    · rw [h14, htot]; rfl
  · rw [List.concat_eq_append] at hlx
    subst hlx
    have hfin : ∀ s2 : NewsState, IsQueue s2 (init ++ [x] ++ [ni]) →
        walkNext s2.heap ((init ++ [x]).length + 1) s2._oldest_news =
          walkNext s.heap (init ++ [x]).length s._oldest_news ++ [ni] := by
      intro s2 h2
      rw [hq.2.2.1, h2.2.2.1,
        walkNext_of_Seg s.heap none (init ++ [x]) _ hq.2.1 (le_refl _)]
      exact walkNext_of_Seg s2.heap none (init ++ [x] ++ [ni]) _ h2.2.1 (by simp)
    obtain ⟨s2, n, h1, h2, h3, _, h5, _, _, h8, h9, h10, h11, h12, h13, _, h15, _⟩ :=
      AddNewsItem_spec_snoc_aux env s init x ni string subtype reftype1 ref1 reftype2 ref2
        free_data hq hfresh hroom hm hni hfin
    exact ⟨s2, n, h1, h2, h3, h5, h8, h9, h10, h11, h12, h13, h15⟩

theorem NewsSubtype.ofNat?_of_lt (n : Nat) (h : n < NS_END) :
    ∃ st, NewsSubtype.ofNat? n = some st := by
  unfold NS_END at h
  interval_cases n <;> exact ⟨_, rfl⟩

theorem CmdCustomNewsItem.isError_iff (C : CommandEnv) (p1 p2 : Nat)
    (text : Option (List Nat)) :
    CmdCustomNewsItem.isError C p1 p2 text ↔
      C._current_company ≠ C.OWNER_DEITY ∨
      (C.GB p1 16 8 ≠ C.INVALID_OWNER ∧ C.Company_IsValidID (C.GB p1 16 8) = false) ∨
      NS_END ≤ C.GB p1 0 8 ∨
      C.StrEmpty text = true ∨
      C.NewsReferenceType_ofNat (C.GB p1 8 8) = none ∨
      ∃ rt, C.NewsReferenceType_ofNat (C.GB p1 8 8) = some rt ∧
        CmdCustomNewsItem.refValid C rt p2 = false := by
  unfold CmdCustomNewsItem.isError
  refine or_congr Iff.rfl (or_congr Iff.rfl (or_congr Iff.rfl (or_congr Iff.rfl
    (or_congr Iff.rfl ⟨?_, ?_⟩))))
  · rintro (⟨e, h⟩ | ⟨e, h⟩ | ⟨e, h⟩ | ⟨e, h⟩ | ⟨e, h⟩ | ⟨e, h⟩) <;> exact ⟨_, e, h⟩
  · rintro ⟨rt, e, h⟩
    cases rt with
    | NR_NONE => exact absurd h (by simp [CmdCustomNewsItem.refValid])
    | NR_TILE => exact Or.inl ⟨e, h⟩
    | NR_VEHICLE => exact Or.inr (Or.inl ⟨e, h⟩)
    | NR_STATION => exact Or.inr (Or.inr (Or.inl ⟨e, h⟩))
    | NR_INDUSTRY => exact Or.inr (Or.inr (Or.inr (Or.inl ⟨e, h⟩)))
    | NR_TOWN => exact Or.inr (Or.inr (Or.inr (Or.inr (Or.inl ⟨e, h⟩))))
    | NR_ENGINE => exact Or.inr (Or.inr (Or.inr (Or.inr (Or.inr ⟨e, h⟩))))

theorem CmdCustomNewsItem_normal_form (C : CommandEnv) (env : NewsEnv) (s : NewsState)
    (news ni tile flags p1 p2 : Nat) (text : Option (List Nat)) :
    (CmdCustomNewsItem.isError C p1 p2 text ∧
      CmdCustomNewsItem C env s news ni tile flags p1 p2 text = some (.CMD_ERROR, s)) ∨
    (¬ CmdCustomNewsItem.isError C p1 p2 text ∧
      ∃ rt st, C.NewsReferenceType_ofNat (C.GB p1 8 8) = some rt ∧
        NewsSubtype.ofNat? (C.GB p1 0 8) = some st ∧
        CmdCustomNewsItem C env s news ni tile flags p1 p2 text =
          if C.GB p1 16 8 ≠ C.INVALID_OWNER ∧ C.GB p1 16 8 ≠ C._local_company then
            some (.success, s)
          else if flags &&& C.DC_EXEC ≠ 0 then
            (AddNewsItem { env with dparams := env.dparams.set 0 news } s ni
              C.STR_NEWS_CUSTOM_ITEM st rt p2 .NR_NONE UINT32_MAX (some news)).map
                fun s2 => (.success, s2)
          else some (.success, s)) := by
  have key := CmdCustomNewsItem.isError_iff C p1 p2 text
  by_cases h1 : C._current_company ≠ C.OWNER_DEITY
  · exact Or.inl ⟨key.2 (Or.inl h1), by simp only [CmdCustomNewsItem, if_pos h1]⟩
  by_cases h2 : C.GB p1 16 8 ≠ C.INVALID_OWNER ∧ C.Company_IsValidID (C.GB p1 16 8) = false
  · exact Or.inl ⟨key.2 (Or.inr (Or.inl h2)),
      by simp only [CmdCustomNewsItem, if_neg h1, if_pos h2]⟩
  by_cases h3 : C.GB p1 0 8 ≥ NS_END
  · exact Or.inl ⟨key.2 (Or.inr (Or.inr (Or.inl h3))),
      by simp only [CmdCustomNewsItem, if_neg h1, if_neg h2, if_pos h3]⟩
  by_cases h4 : C.StrEmpty text = true
  · exact Or.inl ⟨key.2 (Or.inr (Or.inr (Or.inr (Or.inl h4)))),
      by simp only [CmdCustomNewsItem, if_neg h1, if_neg h2, if_neg h3, if_pos h4]⟩
  cases h5 : C.NewsReferenceType_ofNat (C.GB p1 8 8) with
  | none =>
    exact Or.inl ⟨key.2 (Or.inr (Or.inr (Or.inr (Or.inr (Or.inl h5))))),
      by simp only [CmdCustomNewsItem, if_neg h1, if_neg h2, if_neg h3, if_neg h4, h5]⟩
  | some rt =>
    by_cases h6 : CmdCustomNewsItem.refValid C rt p2 = false
    · exact Or.inl ⟨key.2 (Or.inr (Or.inr (Or.inr (Or.inr (Or.inr ⟨rt, h5, h6⟩))))),
        by simp only [CmdCustomNewsItem, if_neg h1, if_neg h2, if_neg h3, if_neg h4, h5,
          if_pos h6]⟩
    · obtain ⟨st, hst⟩ := NewsSubtype.ofNat?_of_lt (C.GB p1 0 8) (by omega)
      refine Or.inr ⟨?_, rt, st, rfl, hst, ?_⟩
      · intro hE
        rcases key.1 hE with h | h | h | h | h | ⟨rt2, e1, e2⟩
        · exact h1 h
        · exact h2 h
        · exact h3 h
        · exact h4 h
        · rw [h5] at h; cases h
        · rw [h5] at e1
          cases e1
          exact h6 e2
      · simp only [CmdCustomNewsItem, if_neg h1, if_neg h2, if_neg h3, if_neg h4, h5,
          if_neg h6, hst]

/-- C11: `CmdCustomNewsItem`, for every state of the news queue.  It returns
`CMD_ERROR` exactly when the current company is not `OWNER_DEITY`, or the target
company is neither `INVALID_OWNER` nor a valid company, or the subtype is
`>= NS_END`, or the text is empty, or the reference type is none of the named ones,
or `p2` is not a valid object of the referenced kind (`IsValidTile(p2)` fails for
`NR_TILE`, `Vehicle::IsValidID(p2)` for `NR_VEHICLE`, and likewise `Station`,
`Industry`, `Town`, `Engine`), and then the state is unchanged.  When none of these
hold and the target company is another company, or `DC_EXEC` is not set, or the game
is in the menu, it returns success with the state unchanged.  On a queue that holds
the items `l` (with `ni` the address of the new item), when none of the error
conditions hold, the target company is `INVALID_OWNER` or the local company,
`DC_EXEC` is set and the game is not in the menu, it returns success and the queue is
`l` followed by the new item, which carries `STR_NEWS_CUSTOM_ITEM`, the subtype and
reference type of `p1`, `p2`, and the copy of the text.  Whenever the call returns a
state other than the one it was given, these conditions hold. -/
theorem CmdCustomNewsItem_spec (C : CommandEnv) (env : NewsEnv) (s : NewsState)
    (news ni tile flags p1 p2 : Nat) (text : Option (List Nat)) :
    ((∃ s2, CmdCustomNewsItem C env s news ni tile flags p1 p2 text = some (.CMD_ERROR, s2)) ↔
      CmdCustomNewsItem.isError C p1 p2 text) ∧
    (CmdCustomNewsItem.isError C p1 p2 text →
      CmdCustomNewsItem C env s news ni tile flags p1 p2 text = some (.CMD_ERROR, s)) ∧
    (¬ CmdCustomNewsItem.isError C p1 p2 text →
      ¬ (C.GB p1 16 8 = C.INVALID_OWNER ∨ C.GB p1 16 8 = C._local_company) ∨
        flags &&& C.DC_EXEC = 0 ∨ env._game_mode = .GM_MENU →
      CmdCustomNewsItem C env s news ni tile flags p1 p2 text = some (.success, s)) ∧
    (∀ l : List Nat, IsQueue s l → s.heap ni = none → l.length + 1 < 2 ^ 32 →
      ¬ CmdCustomNewsItem.isError C p1 p2 text →
      (C.GB p1 16 8 = C.INVALID_OWNER ∨ C.GB p1 16 8 = C._local_company) →
      flags &&& C.DC_EXEC ≠ 0 → env._game_mode ≠ .GM_MENU →
      ∃ s2 n, CmdCustomNewsItem C env s news ni tile flags p1 p2 text = some (.success, s2) ∧
        IsQueue s2 (l ++ [ni]) ∧ s2._total_news = s._total_news + 1 ∧
        s2.heap ni = some n ∧ n.string_id = C.STR_NEWS_CUSTOM_ITEM ∧
        NewsSubtype.ofNat? (C.GB p1 0 8) = some n.subtype ∧
        C.NewsReferenceType_ofNat (C.GB p1 8 8) = some n.reftype1 ∧ n.ref1 = p2 ∧
        n.reftype2 = .NR_NONE ∧ n.ref2 = UINT32_MAX ∧ n.free_data = some news) ∧
    (∀ r s2, CmdCustomNewsItem C env s news ni tile flags p1 p2 text = some (r, s2) → s2 ≠ s →
      ¬ CmdCustomNewsItem.isError C p1 p2 text ∧
      (C.GB p1 16 8 = C.INVALID_OWNER ∨ C.GB p1 16 8 = C._local_company) ∧
      flags &&& C.DC_EXEC ≠ 0 ∧ env._game_mode ≠ .GM_MENU) := by
  have unchanged : ¬ CmdCustomNewsItem.isError C p1 p2 text →
      (¬ (C.GB p1 16 8 = C.INVALID_OWNER ∨ C.GB p1 16 8 = C._local_company) ∨
        flags &&& C.DC_EXEC = 0 ∨ env._game_mode = .GM_MENU) →
      CmdCustomNewsItem C env s news ni tile flags p1 p2 text = some (.success, s) →
      ((∃ s2, CmdCustomNewsItem C env s news ni tile flags p1 p2 text =
          some (.CMD_ERROR, s2)) ↔ CmdCustomNewsItem.isError C p1 p2 text) ∧
      (CmdCustomNewsItem.isError C p1 p2 text →
        CmdCustomNewsItem C env s news ni tile flags p1 p2 text = some (.CMD_ERROR, s)) ∧
      (¬ CmdCustomNewsItem.isError C p1 p2 text →
        ¬ (C.GB p1 16 8 = C.INVALID_OWNER ∨ C.GB p1 16 8 = C._local_company) ∨
          flags &&& C.DC_EXEC = 0 ∨ env._game_mode = .GM_MENU →
        CmdCustomNewsItem C env s news ni tile flags p1 p2 text = some (.success, s)) ∧
      (∀ l : List Nat, IsQueue s l → s.heap ni = none → l.length + 1 < 2 ^ 32 →
        ¬ CmdCustomNewsItem.isError C p1 p2 text →
        (C.GB p1 16 8 = C.INVALID_OWNER ∨ C.GB p1 16 8 = C._local_company) →
        flags &&& C.DC_EXEC ≠ 0 → env._game_mode ≠ .GM_MENU →
        ∃ s2 n, CmdCustomNewsItem C env s news ni tile flags p1 p2 text =
            some (.success, s2) ∧
          IsQueue s2 (l ++ [ni]) ∧ s2._total_news = s._total_news + 1 ∧
          s2.heap ni = some n ∧ n.string_id = C.STR_NEWS_CUSTOM_ITEM ∧
          NewsSubtype.ofNat? (C.GB p1 0 8) = some n.subtype ∧
          C.NewsReferenceType_ofNat (C.GB p1 8 8) = some n.reftype1 ∧ n.ref1 = p2 ∧
          n.reftype2 = .NR_NONE ∧ n.ref2 = UINT32_MAX ∧ n.free_data = some news) ∧
      (∀ r s2, CmdCustomNewsItem C env s news ni tile flags p1 p2 text = some (r, s2) →
        s2 ≠ s →
        ¬ CmdCustomNewsItem.isError C p1 p2 text ∧
        (C.GB p1 16 8 = C.INVALID_OWNER ∨ C.GB p1 16 8 = C._local_company) ∧
        flags &&& C.DC_EXEC ≠ 0 ∧ env._game_mode ≠ .GM_MENU) := by
    intro hE hcase e
    refine ⟨⟨?_, fun h => absurd h hE⟩, fun h => absurd h hE, fun _ _ => e, ?_, ?_⟩
    · rintro ⟨s2, h⟩
      rw [e] at h
      simp at h
    · intro l _ _ _ _ hco hx hm
      rcases hcase with h | h | h
      · exact absurd hco h
      · exact absurd h hx
      · exact absurd h hm
    · intro r s2 h hne
      rw [e] at h
      simp only [Option.some.injEq, Prod.mk.injEq] at h
      exact absurd h.2.symm hne
  rcases CmdCustomNewsItem_normal_form C env s news ni tile flags p1 p2 text with
    ⟨hE, e⟩ | ⟨hE, rt, st, hrt, hst, e⟩
  · refine ⟨⟨fun _ => hE, fun _ => ⟨s, e⟩⟩, fun _ => e, fun h => absurd hE h,
      fun l _ _ _ h => absurd hE h, ?_⟩
    intro r s2 h hne
    rw [e] at h
    simp only [Option.some.injEq, Prod.mk.injEq] at h
    exact absurd h.2.symm hne
  by_cases hco : C.GB p1 16 8 ≠ C.INVALID_OWNER ∧ C.GB p1 16 8 ≠ C._local_company
  · rw [if_pos hco] at e
    exact unchanged hE (Or.inl (by omega)) e
  rw [if_neg hco] at e
  have hco2 : C.GB p1 16 8 = C.INVALID_OWNER ∨ C.GB p1 16 8 = C._local_company := by omega
  by_cases hx : flags &&& C.DC_EXEC ≠ 0
  swap
  · rw [if_neg hx] at e
    exact unchanged hE (Or.inr (Or.inl (by omega))) e
  rw [if_pos hx] at e
  by_cases hm : env._game_mode = .GM_MENU
  · have ea : AddNewsItem { env with dparams := env.dparams.set 0 news } s ni
        C.STR_NEWS_CUSTOM_ITEM st rt p2 .NR_NONE UINT32_MAX (some news) = some s := by
      simp [AddNewsItem, hm]
    rw [ea] at e
    exact unchanged hE (Or.inr (Or.inr hm)) e
  · refine ⟨⟨?_, fun h => absurd h hE⟩, fun h => absurd h hE, ?_, ?_,
      fun _ _ _ _ => ⟨hE, hco2, hx, hm⟩⟩
    · rintro ⟨s2, h⟩
      rw [e] at h
      cases hA : AddNewsItem { env with dparams := env.dparams.set 0 news } s ni
          C.STR_NEWS_CUSTOM_ITEM st rt p2 .NR_NONE UINT32_MAX (some news) with
      | none => rw [hA] at h; simp at h
      | some x => rw [hA] at h; simp at h
    · rintro _ (h | h | h)
      · exact absurd hco2 h
      · exact absurd h hx
      · exact absurd h hm
    · intro l hq hfresh hroom _ _ _ _
      obtain ⟨s2, n, ea, hq2, htot, hn, f1, f2, f3, f4, f5, f6, f7⟩ :=
        AddNewsItem_appends { env with dparams := env.dparams.set 0 news } s l ni
          C.STR_NEWS_CUSTOM_ITEM st rt p2 .NR_NONE UINT32_MAX (some news) hq hfresh hroom hm
      rw [ea] at e
      refine ⟨s2, n, e, hq2, htot, hn, f1, ?_, ?_, f4, f5, f6, f7⟩
      · rw [hst, f2]
      · rw [hrt, f3]

/-- Witness for C11 on the sample queue of three items, with `DC_EXEC`, for all
companies: a general news item about the existing vehicle 5 is appended as fourth
item, and the same command about vehicle 6, which does not exist, gives `CMD_ERROR`
and leaves the queue as it is. -/
theorem CmdCustomNewsItem_spec_witness :
    IsQueue sampleQueue [10, 20, 30] ∧ sampleQueue.heap 40 = none ∧
    ¬ CmdCustomNewsItem.isError sampleCommandEnv (17 + 2 * 256 + 255 * 65536) 5
      (some [72, 105]) ∧
    CmdCustomNewsItem.isError sampleCommandEnv (17 + 2 * 256 + 255 * 65536) 6
      (some [72, 105]) ∧
    (∃ s2 n, CmdCustomNewsItem sampleCommandEnv sampleEnv sampleQueue 99 40 0 1
        (17 + 2 * 256 + 255 * 65536) 5 (some [72, 105]) = some (.success, s2) ∧
      IsQueue s2 [10, 20, 30, 40] ∧ s2._total_news = 4 ∧ s2.heap 40 = some n ∧
      n.string_id = 777 ∧ n.subtype = .NS_GENERAL ∧ n.reftype1 = .NR_VEHICLE ∧ n.ref1 = 5 ∧
      n.free_data = some 99) ∧
    CmdCustomNewsItem sampleCommandEnv sampleEnv sampleQueue 99 40 0 1
      (17 + 2 * 256 + 255 * 65536) 6 (some [72, 105]) = some (.CMD_ERROR, sampleQueue) ∧
    CmdCustomNewsItem sampleCommandEnv sampleEnv sampleQueue 99 40 0 0
      (17 + 2 * 256 + 255 * 65536) 5 (some [72, 105]) = some (.success, sampleQueue) := by
  have hE5 : ¬ CmdCustomNewsItem.isError sampleCommandEnv (17 + 2 * 256 + 255 * 65536) 5
      (some [72, 105]) := by decide
  have hE6 : CmdCustomNewsItem.isError sampleCommandEnv (17 + 2 * 256 + 255 * 65536) 6
      (some [72, 105]) := by decide
  obtain ⟨s2, n, q0, q1, q2, q3, q4, q5, q6, q7, _, _, q10⟩ :=
    (CmdCustomNewsItem_spec sampleCommandEnv sampleEnv sampleQueue 99 40 0 1
      (17 + 2 * 256 + 255 * 65536) 5 (some [72, 105])).2.2.2.1 [10, 20, 30]
      IsQueue_sampleQueue rfl (by norm_num) hE5 (by decide) (by decide) (by decide)
  have g1 := (CmdCustomNewsItem_spec sampleCommandEnv sampleEnv sampleQueue 99 40 0 1
    (17 + 2 * 256 + 255 * 65536) 6 (some [72, 105])).2.1 hE6
  have g2 := (CmdCustomNewsItem_spec sampleCommandEnv sampleEnv sampleQueue 99 40 0 0
    (17 + 2 * 256 + 255 * 65536) 5 (some [72, 105])).2.2.1 hE5 (Or.inr (Or.inl (by decide)))
  have e1 : NewsSubtype.ofNat? (sampleCommandEnv.GB (17 + 2 * 256 + 255 * 65536) 0 8) =
      some .NS_GENERAL := by decide
  have e2 : sampleCommandEnv.NewsReferenceType_ofNat
      (sampleCommandEnv.GB (17 + 2 * 256 + 255 * 65536) 8 8) = some .NR_VEHICLE := by decide
  rw [e1] at q5
  rw [e2] at q6
  exact ⟨IsQueue_sampleQueue, rfl, hE5, hE6,
    ⟨s2, n, q0, q1, q2, q3, q4, (Option.some.inj q5).symm, (Option.some.inj q6).symm, q7, q10⟩,
    g1, g2⟩

end OpenTTD
